import Mathlib

/-!
# PicoScope 5000A console program: acquisition orchestration

A shallow embedding of `ps5000aCon.c` and the properties proved about it.

Conventions of the embedding:

* machine integers are `Int`; a value stored into an `intN_t` object is reduced with
  `toInt16` / `toInt32`, a value stored into a `uintN_t` object with `toUInt32` / `toUInt64`
  (two's-complement wrap-around, which is what the supported targets do);
* a pointer that may be `NULL` is an `Option`; an array is a `List`;
* an access outside an array, a division by zero and a `memcpy` outside a buffer have no
  defined result in C: the embedded function returns `none` there;
* console and file output is not modelled, except where an operation reports a computed
  value, which is then returned in a log.
-/

namespace Picoscope

/-! ## Machine integers -/

/-- Conversion to `int8_t`. -/
def toInt8 (x : Int) : Int := (x + 128) % 256 - 128

/-- Conversion to `int16_t`. -/
def toInt16 (x : Int) : Int := (x + 32768) % 65536 - 32768

/-- Conversion to `int32_t`. -/
def toInt32 (x : Int) : Int := (x + 2147483648) % 4294967296 - 2147483648

/-- Conversion to `uint16_t`. -/
def toUInt16 (x : Int) : Int := x % 65536

/-- Conversion to `uint32_t`. -/
def toUInt32 (x : Int) : Int := x % 4294967296

/-- Conversion to `uint64_t`. -/
def toUInt64 (x : Int) : Int := x % 18446744073709551616

/-! ## Data model (lines 142-263) -/

/-- The C macro `QUAD_SCOPE`. -/
def QUAD_SCOPE : Int := 4

/-- The C macro `DUAL_SCOPE`. -/
def DUAL_SCOPE : Int := 2

/-- The C struct `CHANNEL_SETTINGS`.  The `float` field `analogueOffset` is carried as an
uninterpreted integer (its bit pattern): the modelled code never computes with it. -/
structure CHANNEL_SETTINGS where
  DCcoupled : Int
  range : Int
  enabled : Int
  analogueOffset : Int
  deriving DecidableEq, Repr

/-- The C struct `UNIT`, with the fields the acquisition code reads or writes.  The handle,
the model and serial strings, the open status and the signal-generator fields are configuration
data that the modelled functions only pass on to the driver; they are left out. -/
structure UNIT where
  firstRange : Int
  lastRange : Int
  channelCount : Int
  maxADCValue : Int
  channelSettings : List CHANNEL_SETTINGS
  resolution : Int
  deriving DecidableEq, Repr

/-- The global table `inputRanges` (lines 227-239): full-scale millivolts per range index. -/
def inputRanges : List Int :=
  [10, 20, 50, 100, 200, 500, 1000, 2000, 5000, 10000, 20000, 50000]

/-! ## ADC counts and millivolts (lines 384-399) -/

/-- The C function `adc_to_mv` (lines 384-387).  `raw` and `rangeIndex` are `int32_t`; the table
entry (`uint16_t`) and `maxADCValue` (`int16_t`) are promoted to `int`, so the product and the
quotient are 32-bit signed. -/
def adc_to_mv (raw rangeIndex : Int) (unit : UNIT) : Option Int :=
  if rangeIndex < 0 then none
  else
    match inputRanges[rangeIndex.toNat]? with
    | none => none
    | some range =>
      if unit.maxADCValue = 0 then none
      else some (toInt32 (Int.tdiv (toInt32 (raw * range)) unit.maxADCValue))

/-- The C function `mv_to_adc` (lines 396-399).  The arguments are converted to the `int16_t`
parameters `mv` and `rangeIndex` at the call; the operands are promoted to `int`, and the
quotient is converted to the `int16_t` return type. -/
def mv_to_adc (mv rangeIndex : Int) (unit : UNIT) : Option Int :=
  let mv16 := toInt16 mv
  let idx := toInt16 rangeIndex
  if idx < 0 then none
  else
    match inputRanges[idx.toNat]? with
    | none => none
    | some range =>
      some (toInt16 (Int.tdiv (toInt32 (mv16 * unit.maxADCValue)) range))

/-- The round trip of the testable property: `mv_to_adc(adc_to_mv(code, r, unit), r, unit)`. -/
def roundTrip (code rangeIndex : Int) (unit : UNIT) : Option Int :=
  (adc_to_mv code rangeIndex unit).bind fun mv => mv_to_adc mv rangeIndex unit

/-- A unit with only `maxADCValue` set, for evaluating the conversions. -/
def unitWithMax (maxADC : Int) : UNIT :=
  { firstRange := 0, lastRange := 11, channelCount := 2, maxADCValue := maxADC,
    channelSettings := [], resolution := 0 }

/-! ## Streaming callback (lines 241-249, 257-263, 283-339) -/

/-- A sample buffer pointer: `none` is `NULL`, `some xs` points to the samples `xs`. -/
abbrev Buffer := Option (List Int)

/-- The C struct `BUFFER_INFO` (lines 257-263).  The two tables hold the max buffer of channel
`c` at index `2c` and its min buffer at index `2c + 1`.  Distinct buffers are distinct lists:
the program allocates each of them separately, so no two overlap. -/
structure BUFFER_INFO where
  unit : UNIT
  driverBuffers : Option (List Buffer)
  appBuffers : Option (List Buffer)
  deriving DecidableEq, Repr

/-- The globals through which the callbacks signal the polling code (lines 241-249). -/
structure Globals where
  g_autoStopped : Int
  g_ready : Int
  g_sampleCount : Int
  g_startIndex : Int
  g_trig : Int
  g_trigAt : Int
  g_overflow : Int
  deriving DecidableEq, Repr

/-- The arguments the driver passes to `callBackStreaming` besides the handle and `pParameter`:
`noOfSamples` is `int32_t`, `startIndex` and `triggerAt` are `uint32_t`, the flags `int16_t`. -/
structure StreamingArgs where
  noOfSamples : Int
  startIndex : Int
  overflow : Int
  triggerAt : Int
  triggered : Int
  autoStop : Int
  deriving DecidableEq, Repr

/-- The call `memcpy_s(&dst[startIndex], n * 2, &src[startIndex], n * 2)` of lines 325 and 332:
`noOfSamples` elements are copied from `src` to `dst`, both starting at `startIndex`.  A range
outside either buffer has no defined result. -/
def memcpy_s (dst src : List Int) (startIndex noOfSamples : Int) : Option (List Int) :=
  let s := startIndex.toNat
  let n := noOfSamples.toNat
  if 0 ≤ startIndex ∧ 0 ≤ noOfSamples ∧ s + n ≤ dst.length ∧ s + n ≤ src.length then
    some (dst.take s ++ ((src.drop s).take n ++ dst.drop (s + n)))
  else none

/-- One guarded copy of the loop body (lines 323-327 with `k = channel * 2`, lines 330-334 with
`k = channel * 2 + 1`): copy when both pointers at index `k` are non-null. -/
def copySlot (app drv : List Buffer) (k : Nat) (startIndex noOfSamples : Int) :
    Option (List Buffer) :=
  match app[k]?, drv[k]? with
  | some appSlot, some drvSlot =>
    match appSlot, drvSlot with
    | some dst, some src =>
      (memcpy_s dst src startIndex noOfSamples).map fun copied => app.set k (some copied)
    | _, _ => some app
  | _, _ => none

/-- The body of the channel loop (lines 318-336). -/
def copyChannel (bufferInfo : BUFFER_INFO) (channel : Nat) (startIndex noOfSamples : Int) :
    Option BUFFER_INFO :=
  match bufferInfo.unit.channelSettings[channel]? with
  | none => none
  | some settings =>
    if settings.enabled ≠ 0 then
      match bufferInfo.appBuffers, bufferInfo.driverBuffers with
      | some app, some drv =>
        (copySlot app drv (channel * 2) startIndex noOfSamples).bind fun app1 =>
          (copySlot app1 drv (channel * 2 + 1) startIndex noOfSamples).map fun app2 =>
            { bufferInfo with appBuffers := some app2 }
      | _, _ => some bufferInfo
    else some bufferInfo

/-- The channel loop of lines 316-337 after its first `count` iterations
(`channel = 0, 1, ..., count - 1`, in this order). -/
def copyChannels (startIndex noOfSamples : Int) : Nat → BUFFER_INFO → Option BUFFER_INFO
  | 0, bufferInfo => some bufferInfo
  | count + 1, bufferInfo =>
    (copyChannels startIndex noOfSamples count bufferInfo).bind fun b =>
      copyChannel b count startIndex noOfSamples

/-- The flag assignments of `callBackStreaming` (lines 301-312); `TRUE` is 1. -/
def streamingFlags (a : StreamingArgs) : Globals :=
  { g_sampleCount := a.noOfSamples
    g_startIndex := a.startIndex
    g_autoStopped := a.autoStop
    g_ready := 1
    g_trig := a.triggered
    g_trigAt := a.triggerAt
    g_overflow := a.overflow }

/-- The C function `callBackStreaming` (lines 283-339): the new globals and the buffer
information after the call (`pParameter` may be `NULL`). -/
def callBackStreaming (a : StreamingArgs) (pParameter : Option BUFFER_INFO) :
    Option (Globals × Option BUFFER_INFO) :=
  match pParameter with
  | some bufferInfo =>
    if a.noOfSamples ≠ 0 then
      (copyChannels a.startIndex a.noOfSamples bufferInfo.unit.channelCount.toNat bufferInfo).map
        fun b => (streamingFlags a, some b)
    else some (streamingFlags a, some bufferInfo)
  | none => some (streamingFlags a, none)

/-! ### Statement of buffer-copy exactness -/

/-- Whether channel `c` is one the callback copies for: below the channel count and enabled. -/
def channelCopied (unit : UNIT) (count c : Nat) : Bool :=
  decide (c < count) &&
    match unit.channelSettings[c]? with
    | some settings => settings.enabled != 0
    | none => false

/-- A buffer bound on both sides with the elements at the indices
`startIndex .. startIndex + noOfSamples - 1` replaced by the driver buffer's elements at the same
indices; a buffer with an unbound side as it is. -/
def copiedSlot (startIndex noOfSamples : Int) : Buffer → Buffer → Buffer
  | some dst, some src =>
    some (dst.mapIdx fun i x =>
      if startIndex ≤ (i : Int) ∧ (i : Int) < startIndex + noOfSamples then src.getD i x else x)
  | slot, _ => slot

/-- The expected contents of the application buffer at table index `k`: the buffer of a copied
channel (`k / 2`) is as `copiedSlot` says, anything else is as before. -/
def expectedSlot (unit : UNIT) (drv : List Buffer) (count : Nat) (startIndex noOfSamples : Int)
    (k : Nat) (slot : Buffer) : Buffer :=
  if channelCopied unit count (k / 2) then copiedSlot startIndex noOfSamples slot (drv.getD k none)
  else slot

/-- The expected buffer information after a callback that copies for the first `count`
channels: only application buffers change, each as `expectedSlot` says. -/
def expectedBuffers (b : BUFFER_INFO) (count : Nat) (startIndex noOfSamples : Int) :
    BUFFER_INFO :=
  match b.appBuffers, b.driverBuffers with
  | some app, some drv =>
    { b with appBuffers := some (app.mapIdx (expectedSlot b.unit drv count startIndex noOfSamples)) }
  | _, _ => b

/-- The copied range lies inside every pair of bound buffers. -/
def slotFits (startIndex noOfSamples : Int) : Buffer → Buffer → Bool
  | some dst, some src =>
    decide (startIndex + noOfSamples ≤ dst.length) && decide (startIndex + noOfSamples ≤ src.length)
  | _, _ => true

/-- Well-formedness of the callback's input: the settings array has an entry for every channel,
the pointer tables have the two slots of every channel, and `[startIndex, startIndex + n)` lies
inside the capacity of the buffers. -/
def inCapacity (b : BUFFER_INFO) (startIndex noOfSamples : Int) : Bool :=
  decide (b.unit.channelCount.toNat ≤ b.unit.channelSettings.length) &&
    match b.appBuffers, b.driverBuffers with
    | some app, some drv =>
      decide (2 * b.unit.channelCount.toNat ≤ app.length) &&
      decide (2 * b.unit.channelCount.toNat ≤ drv.length) &&
      (List.range app.length).all fun k =>
        slotFits startIndex noOfSamples (app.getD k none) (drv.getD k none)
    | _, _ => true

/-! ## Driver status codes and the power-source negotiator (lines 405-497) -/

/-- Modelled from the spec: the driver's status type `PICO_STATUS`, declared in the vendor
header `PicoStatus.h`, which is not among the sources.  The codes the program compares against
are distinct constructors; every other code is `other`. -/
inductive PICO_STATUS where
  | PICO_OK
  | PICO_INVALID_TIMEBASE
  | PICO_CANCELLED
  | PICO_POWER_SUPPLY_CONNECTED
  | PICO_POWER_SUPPLY_NOT_CONNECTED
  | PICO_POWER_SUPPLY_REQUEST_INVALID
  | PICO_POWER_SUPPLY_UNDERVOLTAGE
  | PICO_USB3_0_DEVICE_NON_USB3_0_PORT
  | other (code : Nat)
  deriving DecidableEq, Repr

open PICO_STATUS

/-- Modelled from the spec: the channel index `PS5000A_CHANNEL_C` of `ps5000aApi.h` (not among
the sources); the value is the one the program prints in its channel menu (lines 985-989). -/
def PS5000A_CHANNEL_C : Nat := 2

/-- Modelled from the spec: the channel index `PS5000A_CHANNEL_D` of `ps5000aApi.h` (not among
the sources); the value is the one the program prints in its channel menu (lines 985-989). -/
def PS5000A_CHANNEL_D : Nat := 3

/-- How a piece of interactive code ends: it returns a value, it calls `exit(0)`, or it waits
for a key press or a driver answer that the scripted environment does not contain. -/
inductive Outcome (α : Type) where
  | returned (value : α)
  | exited
  | blocked
  deriving DecidableEq, Repr

/-- The C library function `toupper` in the C locale. -/
def toupper (c : Int) : Int := if 97 ≤ c ∧ c ≤ 122 then c - 32 else c

/-- What `changePowerSource` leaves behind: the returned status, the unit, the key presses and
driver answers not yet consumed, and the power sources requested from the driver, in order. -/
structure PowerResult where
  status : PICO_STATUS
  unit : UNIT
  keys : List Int
  answers : List PICO_STATUS
  requests : List PICO_STATUS
  deriving DecidableEq, Repr

/-- The assignment `unit->channelSettings[channel].enabled = FALSE`. -/
def disableChannel (unit : UNIT) (channel : Nat) : UNIT :=
  { unit with channelSettings :=
      unit.channelSettings.modify (fun settings => { settings with enabled := 0 }) channel }

/-- The `PICO_POWER_SUPPLY_UNDERVOLTAGE` case of `changePowerSource` (lines 474-492).  `keys`
are the values returned by successive `_getch()` calls, `answers` the statuses returned by
successive `ps5000aChangePowerSource` calls; `requests` collects the requested sources. -/
def undervoltageCase (unit : UNIT) (requests : List PICO_STATUS) :
    List Int → List PICO_STATUS → Outcome PowerResult
  | [], _ => .blocked
  | key :: keys, answers =>
    if toInt8 key = 27 then .exited
    else
      match answers with
      | [] => .blocked
      | status :: answers =>
        if status = PICO_POWER_SUPPLY_REQUEST_INVALID then
          undervoltageCase unit (requests ++ [PICO_POWER_SUPPLY_CONNECTED]) keys answers
        else
          .returned
            { status := status, unit := unit, keys := keys, answers := answers,
              requests := requests ++ [PICO_POWER_SUPPLY_CONNECTED] }

/-- The `PICO_POWER_SUPPLY_NOT_CONNECTED` case of `changePowerSource` (lines 411-441); the
recursive call of line 430 always enters the undervoltage case. -/
def supplyNotConnectedCase (status : PICO_STATUS) (unit : UNIT) :
    List Int → List PICO_STATUS → Outcome PowerResult
  | [], _ => .blocked
  | key :: keys, answers =>
    let ch := toInt8 (toupper key)
    if ch = 89 then
      match answers with
      | [] => .blocked
      | status1 :: answers =>
        if status1 = PICO_OK ∧ unit.channelCount = QUAD_SCOPE then
          .returned
            { status := status1
              unit := disableChannel (disableChannel unit PS5000A_CHANNEL_C) PS5000A_CHANNEL_D
              keys := keys, answers := answers
              requests := [PICO_POWER_SUPPLY_NOT_CONNECTED] }
        else if status1 = PICO_POWER_SUPPLY_UNDERVOLTAGE then
          undervoltageCase unit [PICO_POWER_SUPPLY_NOT_CONNECTED] keys answers
        else
          .returned
            { status := status1, unit := unit, keys := keys, answers := answers,
              requests := [PICO_POWER_SUPPLY_NOT_CONNECTED] }
    else if ch = 78 then
      .returned { status := status, unit := unit, keys := keys, answers := answers, requests := [] }
    else supplyNotConnectedCase status unit keys answers

/-- The `PICO_USB3_0_DEVICE_NON_USB3_0_PORT` case of `changePowerSource` (lines 448-472). -/
def usb3Case (status : PICO_STATUS) (unit : UNIT) :
    List Int → List PICO_STATUS → Outcome PowerResult
  | [], _ => .blocked
  | key :: keys, answers =>
    let ch := toInt8 (toupper key)
    if ch = 89 then
      match answers with
      | [] => .blocked
      | status1 :: answers =>
        if status1 = PICO_POWER_SUPPLY_UNDERVOLTAGE then
          undervoltageCase unit [PICO_USB3_0_DEVICE_NON_USB3_0_PORT] keys answers
        else
          .returned
            { status := status1, unit := unit, keys := keys, answers := answers,
              requests := [PICO_USB3_0_DEVICE_NON_USB3_0_PORT] }
    else if ch = 78 then
      .returned { status := status, unit := unit, keys := keys, answers := answers, requests := [] }
    else usb3Case status unit keys answers

/-- The C function `changePowerSource` (lines 405-497). -/
def changePowerSource (status : PICO_STATUS) (unit : UNIT) (keys : List Int)
    (answers : List PICO_STATUS) : Outcome PowerResult :=
  match status with
  | PICO_POWER_SUPPLY_NOT_CONNECTED => supplyNotConnectedCase status unit keys answers
  | PICO_POWER_SUPPLY_CONNECTED =>
    match answers with
    | [] => .blocked
    | status1 :: answers =>
      .returned
        { status := status1, unit := unit, keys := keys, answers := answers,
          requests := [PICO_POWER_SUPPLY_CONNECTED] }
  | PICO_USB3_0_DEVICE_NON_USB3_0_PORT => usb3Case status unit keys answers
  | PICO_POWER_SUPPLY_UNDERVOLTAGE => undervoltageCase unit [] keys answers
  | _ => .returned { status := status, unit := unit, keys := keys, answers := answers, requests := [] }

/-- The test of lines 626-627 and 674-675: one of the four power-related statuses. -/
def isPowerStatus (status : PICO_STATUS) : Bool :=
  status = PICO_POWER_SUPPLY_CONNECTED || status = PICO_POWER_SUPPLY_NOT_CONNECTED ||
    status = PICO_USB3_0_DEVICE_NON_USB3_0_PORT || status = PICO_POWER_SUPPLY_UNDERVOLTAGE

/-! ## The polling loop of `streamDataHandler` (lines 663-732) -/

/-- What the environment does during one iteration of the polling loop, entered because
`_kbhit()` reported no key: whether the driver invokes `callBackStreaming` inside
`ps5000aGetStreamingLatestValues` and with which arguments, the status that call returns, and
the key presses and driver answers available to the power negotiator during the iteration. -/
structure Poll where
  callback : Option StreamingArgs
  status : PICO_STATUS
  keys : List Int
  answers : List PICO_STATUS
  deriving DecidableEq, Repr

/-- The variables of `streamDataHandler` that the polling loop reads and writes, with the
globals.  The sample buffers are not part of this state: the loop's control flow and counters do
not depend on their contents, and their update is `callBackStreaming`'s copy. -/
structure StreamState where
  g : Globals
  unit : UNIT
  totalSamples : Int
  triggeredAt : Int
  index : Int
  num_of_samples : Int
  powerChange : Int
  deriving DecidableEq, Repr

/-- The accounting of lines 688-702, with the globals as the callback left them. -/
def accountSamples (s : StreamState) : StreamState :=
  if s.g.g_ready ≠ 0 ∧ s.g.g_sampleCount > 0 then
    let triggeredAt :=
      if s.g.g_trig ≠ 0 then toUInt32 (s.totalSamples + s.g.g_trigAt) else s.triggeredAt
    { s with
      triggeredAt := triggeredAt
      totalSamples := toInt32 (s.totalSamples + s.g.g_sampleCount)
      num_of_samples :=
        if s.g.g_trig ≠ 0 then toInt32 (s.num_of_samples + 1) else s.num_of_samples }
  else s

/-- The body of the polling loop (lines 667-731). -/
def pollBody (s : StreamState) (p : Poll) : Outcome StreamState :=
  -- line 668, then the driver call of line 670 with its callback
  let g :=
    match p.callback with
    | some a => streamingFlags a
    | none => { s.g with g_ready := 0 }
  let s1 := { s with g := g }
  -- lines 674-684
  let afterPower : Outcome StreamState :=
    if isPowerStatus p.status then
      if p.status = PICO_POWER_SUPPLY_UNDERVOLTAGE then
        match changePowerSource p.status s1.unit p.keys p.answers with
        | .returned r => .returned { s1 with unit := r.unit, powerChange := 1 }
        | .exited => .exited
        | .blocked => .blocked
      else .returned { s1 with powerChange := 1 }
    else .returned s1
  match afterPower with
  | .returned s2 => .returned (accountSamples { s2 with index := toInt32 (s2.index + 1) })
  | .exited => .exited
  | .blocked => .blocked

/-- The polling loop `while (!_kbhit() && !g_autoStopped)` (lines 665-732).  Each element of the
list is an iteration for which `_kbhit()` reports no key; the key press that ends the loop
comes after the last element. -/
def pollLoop : StreamState → List Poll → Outcome StreamState
  | s, [] => .returned s
  | s, p :: rest =>
    if s.g.g_autoStopped ≠ 0 then .returned s
    else
      match pollBody s p with
      | .returned s1 => pollLoop s1 rest
      | .exited => .exited
      | .blocked => .blocked

/-- The state in which the polling loop is entered (lines 546-551, 612, 663): the globals are as
earlier operations left them, except `g_autoStopped`. -/
def streamStart (g : Globals) (unit : UNIT) : StreamState :=
  { g := { g with g_autoStopped := 0 }, unit := unit, totalSamples := 0, triggeredAt := 0,
    index := 0, num_of_samples := 0, powerChange := 0 }

/-! ### Statement of the trigger accounting -/

/-- The sample count a poll's callback reports (0 when the callback is not invoked). -/
def Poll.count (p : Poll) : Int :=
  match p.callback with
  | some a => a.noOfSamples
  | none => 0

/-- The poll's callback reports a trigger. -/
def Poll.triggered (p : Poll) : Bool :=
  match p.callback with
  | some a => a.triggered != 0
  | none => false

/-- The per-call trigger offset a poll's callback reports. -/
def Poll.triggerAt (p : Poll) : Int :=
  match p.callback with
  | some a => a.triggerAt
  | none => 0

/-- The poll's callback signals autostop. -/
def Poll.autoStop (p : Poll) : Bool :=
  match p.callback with
  | some a => a.autoStop != 0
  | none => false

/-- The power negotiation of the poll, if any, comes back: no Esc at the undervoltage prompt and
enough scripted input. -/
def Poll.negotiated (unit : UNIT) (p : Poll) : Bool :=
  if p.status = PICO_POWER_SUPPLY_UNDERVOLTAGE then
    match changePowerSource p.status unit p.keys p.answers with
    | .returned _ => true
    | _ => false
  else true

/-- A poll whose callback reports `count` samples and, when `trigger` is given, a trigger at that
offset; the call returns `PICO_OK`. -/
def samplePoll (count : Int) (trigger : Option Int) : Poll :=
  { callback := some
      { noOfSamples := count, startIndex := 0, overflow := 0,
        triggerAt := trigger.getD 0, triggered := if trigger.isSome then 1 else 0, autoStop := 0 },
    status := PICO_OK, keys := [], answers := [] }

/-- Globals before any acquisition (lines 241-249). -/
def initialGlobals : Globals :=
  { g_autoStopped := 0, g_ready := 0, g_sampleCount := 0, g_startIndex := 0, g_trig := 0,
    g_trigAt := 0, g_overflow := 0 }

/-- The value of `triggeredAt` when the polling loop has ended. -/
def finalTriggeredAt : Outcome StreamState → Option Int
  | .returned s => some s.triggeredAt
  | _ => none

/-! ## `collectRapidBlock`: segment set-up (lines 1112-1130) -/

/-- The driver requests of the segment set-up, with the count argument each one is given. -/
inductive SegmentCall where
  | ps5000aMemorySegments (nSegments : Int)
  | ps5000aSetNoOfCaptures (nCaptures : Int)
  deriving DecidableEq, Repr

/-- The locals `nSegments` and `nCaptures` after line 1130 and the requests made on the way. -/
structure SegmentSetup where
  nSegments : Int
  nCaptures : Int
  calls : List SegmentCall
  deriving DecidableEq, Repr

/-- Lines 1112-1130 of `collectRapidBlock`.  `num_of_waveforms` is the `int` chosen in the menu;
`maxSegments` is the `uint32_t` local after `ps5000aGetMaxSegments` (the device's answer, or the
initial 0 when the call fails: its status is not examined). -/
def segmentSetup (num_of_waveforms maxSegments : Int) : SegmentSetup :=
  -- line 1116: `nSegments = num_of_waveforms` converts to `uint32_t`
  let nSegments := toUInt32 num_of_waveforms
  -- lines 1118-1121
  let nSegments := if nSegments > maxSegments then maxSegments else nSegments
  -- line 1124
  let nCaptures := toUInt32 num_of_waveforms
  -- lines 1127 and 1130
  { nSegments := nSegments, nCaptures := nCaptures,
    calls := [.ps5000aMemorySegments nSegments, .ps5000aSetNoOfCaptures nCaptures] }

/-! ## `collectRapidBlock`: elapsed time between triggers (lines 1247-1336) -/

/-- Modelled from the spec: the trigger-timing record `PS5000A_TRIGGER_INFO` of `ps5000aApi.h`
(not among the sources), with the three fields the program reads: the status code, the trigger
index within the segment and the raw timestamp counter (`uint64_t`). -/
structure PS5000A_TRIGGER_INFO where
  status : PICO_STATUS
  triggerIndex : Int
  timeStampCounter : Int
  deriving DecidableEq, Repr

/-- What one iteration of the reporting loop prints about trigger timing: the capture index
(line 1259) and, when lines 1276-1277 run, the "time since trigger for last segment". -/
structure CaptureReport where
  capture : Int
  elapsed : Option Int
  deriving DecidableEq, Repr

/-- The trigger-timing part of the body of the reporting loop (lines 1259-1282).
`timeIntervalNs` is `int32_t` and is converted to `uint64_t` for the product. -/
def reportCapture (triggerInfo : List PS5000A_TRIGGER_INFO) (timeIntervalNs : Int)
    (capture : Nat) : Option CaptureReport :=
  -- line 1262 reads `triggerInfo[capture]`
  match triggerInfo[capture]? with
  | none => none
  | some info =>
    if capture = 0 then some { capture := capture, elapsed := none }
    else if capture > 0 ∧ info.status = PICO_OK then
      match triggerInfo[capture - 1]? with
      | none => none
      | some previous =>
        let timeStampCounterDiff := toUInt64 (info.timeStampCounter - previous.timeStampCounter)
        some { capture := capture,
               elapsed := some (toUInt64 (timeStampCounterDiff * toUInt64 timeIntervalNs)) }
    else some { capture := capture, elapsed := none }

/-- The reporting loop `for (capture = 0; capture < nCaptures; capture++)` of line 1250 after
its first `count` iterations: the reports printed so far, in the order printed. -/
def reportCaptures (triggerInfo : List PS5000A_TRIGGER_INFO) (timeIntervalNs : Int) :
    Nat → Option (List CaptureReport)
  | 0 => some []
  | count + 1 =>
    (reportCaptures triggerInfo timeIntervalNs count).bind fun log =>
      (reportCapture triggerInfo timeIntervalNs count).map fun report => log ++ [report]

/-- Lines 1247-1336: the loop runs when `ps5000aGetTriggerInfoBulk` returned `PICO_OK`. -/
def reportRapidBlock (status : PICO_STATUS) (triggerInfo : List PS5000A_TRIGGER_INFO)
    (timeIntervalNs : Int) (nCaptures : Int) : Option (List CaptureReport) :=
  if status = PICO_OK then reportCaptures triggerInfo timeIntervalNs nCaptures.toNat
  else some []

/-- Three trigger-timing records: segment 0 carries a status other than `PICO_OK` (its counter is
arbitrary), segments 1 and 2 are `PICO_OK`. -/
def sampleTriggerInfo : List PS5000A_TRIGGER_INFO :=
  [ { status := .other 16, triggerIndex := 500, timeStampCounter := 100 },
    { status := PICO_OK, triggerIndex := 500, timeStampCounter := 250 },
    { status := PICO_OK, triggerIndex := 500, timeStampCounter := 475 } ]

/-- A two-channel unit with channel A enabled and channel B disabled. -/
def sampleUnit : UNIT :=
  { firstRange := 0, lastRange := 11, channelCount := 2, maxADCValue := 32767,
    channelSettings :=
      [ { DCcoupled := 1, range := 8, enabled := 1, analogueOffset := 0 },
        { DCcoupled := 1, range := 8, enabled := 0, analogueOffset := 0 },
        { DCcoupled := 1, range := 8, enabled := 0, analogueOffset := 0 },
        { DCcoupled := 1, range := 8, enabled := 0, analogueOffset := 0 } ],
    resolution := 0 }

/-- Buffers of four samples for `sampleUnit`: both buffers of channel A bound on both sides,
the max buffer of channel B bound on both sides, its min buffer bound on the driver side only. -/
def sampleBuffers : BUFFER_INFO :=
  { unit := sampleUnit,
    driverBuffers := some [some [11, 12, 13, 14], some [21, 22, 23, 24],
      some [31, 32, 33, 34], some [41, 42, 43, 44]],
    appBuffers := some [some [0, 0, 0, 0], some [1, 1, 1, 1], some [2, 2, 2, 2], none] }

/-- A callback invocation reporting two samples from index 1, no trigger, no autostop. -/
def sampleArgs : StreamingArgs :=
  { noOfSamples := 2, startIndex := 1, overflow := 0, triggerAt := 0, triggered := 0,
    autoStop := 0 }

/-! ## `collectRapidBlock`: timebase negotiation (lines 1135-1144) -/

/-- The loop of lines 1136-1144.  `device n t` is the status `ps5000aGetTimebase` returns to the
`n`-th query of the loop when asked about timebase index `t`; `fuel` bounds the number of
queries, and `none` means the loop is still running when the fuel is used up.  The result is
the global `timebase` (a `uint32_t`) when the loop ends and the number of queries made. -/
def negotiateTimebase (device : Nat → Int → PICO_STATUS) :
    Nat → Nat → Int → Option (Int × Nat)
  | 0, _, _ => none
  | fuel + 1, n, timebase =>
    let status := device n timebase
    let timebase1 := if status = PICO_INVALID_TIMEBASE then toUInt32 (timebase + 1) else timebase
    if status ≠ PICO_OK then negotiateTimebase device fuel (n + 1) timebase1
    else some (timebase1, n + 1)

/-- A device that accepts exactly the timebase indices from `first` on, whatever the query. -/
def acceptsFrom (first : Int) : Nat → Int → PICO_STATUS :=
  fun _ t => if first ≤ t then PICO_OK else PICO_INVALID_TIMEBASE

/-- A device that answers every timebase query with the same status. -/
def alwaysAnswers (status : PICO_STATUS) : Nat → Int → PICO_STATUS :=
  fun _ _ => status

/-! ## `collectRapidBlock`: cancellation and retrieval (lines 1175-1242) -/

/-- The steps of `collectRapidBlock` between the wait loop and the report, with the counts and
segment indices each one is given: driver requests under their names, memory obtained with
`calloc` / `malloc` under `alloc...`. -/
inductive RetrievalStep where
  | ps5000aStop
  | ps5000aGetNoOfCaptures
  | allocOverflow (elements : Int)
  | allocCaptureTable (channel : Nat) (captures : Int)
  | allocBuffer (channel capture : Nat) (nSamples : Int)
  | ps5000aSetDataBuffer (channel capture : Nat) (nSamples : Int)
  | allocTriggerInfo (records : Int)
  | ps5000aGetValuesBulk (fromSegmentIndex toSegmentIndex : Int)
  | ps5000aGetTriggerInfoBulk (fromSegmentIndex toSegmentIndex : Int)
  deriving DecidableEq, Repr

open RetrievalStep

/-- Lines 1175-1192, entered when the wait loop of lines 1170-1173 has ended.  `g_ready` is the
flag as the loop left it (zero: the loop ended by a key press), `nCaptures` the requested
count, `nCompletedCaptures` the count `ps5000aGetNoOfCaptures` reports, `keys` the values of
the two `_getch()` calls.  The result is the steps made and the new `nCaptures`, or `none` for
it when the function returns at line 1187. -/
def afterWait (g_ready nCaptures nCompletedCaptures : Int) (keys : List Int) :
    Outcome (List RetrievalStep × Option Int) :=
  if g_ready = 0 then
    match keys with
    | _ :: _ :: _ =>
      if nCompletedCaptures = 0 then .returned ([ps5000aStop, ps5000aGetNoOfCaptures], none)
      else
        -- line 1191: `nCaptures = (uint16_t)nCompletedCaptures;`
        .returned ([ps5000aStop, ps5000aGetNoOfCaptures], some (toUInt16 nCompletedCaptures))
    | _ => .blocked
  else .returned ([], some nCaptures)

/-- The channels `0 .. count - 1` whose `enabled` setting is non-zero, in ascending order: the
channels for which the bodies of the loops of lines 1198-1226 run. -/
def enabledChannels (unit : UNIT) : Nat → Option (List Nat)
  | 0 => some []
  | count + 1 =>
    (enabledChannels unit count).bind fun channels =>
      (unit.channelSettings[count]?).map fun settings =>
        if settings.enabled ≠ 0 then channels ++ [count] else channels

/-- Lines 1194-1242: allocation, buffer binding and bulk retrieval for `nCaptures` captures of
`nSamples` samples.  `nCaptures - 1` is computed in `uint32_t`.  The table of line 1195, which
has one entry per channel whatever the number of captures, is not listed. -/
def allocateAndRetrieve (unit : UNIT) (nSamples nCaptures : Int) : Option (List RetrievalStep) :=
  (enabledChannels unit unit.channelCount.toNat).map fun channels =>
    let captures := List.range nCaptures.toNat
    -- line 1196
    [allocOverflow (toUInt32 (unit.channelCount * nCaptures))]
    -- lines 1198-1204
    ++ channels.map (fun channel => allocCaptureTable channel nCaptures)
    -- lines 1206-1215
    ++ channels.flatMap (fun channel =>
        captures.map fun capture => allocBuffer channel capture nSamples)
    -- lines 1217-1226
    ++ channels.flatMap (fun channel =>
        captures.map fun capture => ps5000aSetDataBuffer channel capture nSamples)
    -- lines 1229-1242
    ++ [allocTriggerInfo nCaptures,
        ps5000aGetValuesBulk 0 (toUInt32 (nCaptures - 1)),
        ps5000aGetTriggerInfoBulk 0 (toUInt32 (nCaptures - 1))]

/-- How `collectRapidBlock` ends after the wait loop: it returns at line 1187 without results,
it runs to the end with the steps made and the reports printed, it reads outside an array, or
it waits for a key press the scripted environment does not contain. -/
inductive RapidBlockEnd where
  | noCaptures (steps : List RetrievalStep)
  | retrieved (nCaptures : Int) (steps : List RetrievalStep) (reports : List CaptureReport)
  | undefinedAccess
  | waiting
  deriving DecidableEq, Repr

/-- Lines 1175-1336 of `collectRapidBlock`.  `infoStatus` is the status of
`ps5000aGetTriggerInfoBulk` and `triggerInfo n` the `n` records the driver has filled in. -/
def retrieveAndReport (unit : UNIT) (nSamples timeIntervalNs : Int)
    (g_ready nCaptures nCompletedCaptures : Int) (keys : List Int) (infoStatus : PICO_STATUS)
    (triggerInfo : Int → List PS5000A_TRIGGER_INFO) : RapidBlockEnd :=
  match afterWait g_ready nCaptures nCompletedCaptures keys with
  | .returned (steps, none) => .noCaptures steps
  | .returned (steps, some nCaptures1) =>
    match allocateAndRetrieve unit nSamples nCaptures1,
      reportRapidBlock infoStatus (triggerInfo nCaptures1) timeIntervalNs nCaptures1 with
    | some steps1, some reports => .retrieved nCaptures1 (steps ++ steps1) reports
    | _, _ => .undefinedAccess
  | _ => .waiting

/-- A driver that fills every trigger-timing record asked for with `PICO_OK`, trigger index 500
and a counter growing by 1000 per segment. -/
def sampleRecords (n : Int) : List PS5000A_TRIGGER_INFO :=
  (List.range n.toNat).map fun capture =>
    { status := PICO_OK, triggerIndex := 500, timeStampCounter := 1000 * capture }

/-! ## `setTrigger` (lines 775-868) -/

/-- Modelled from the spec: the flag set `PS5000A_CONDITIONS_INFO` of `ps5000aApi.h` (not among
the sources), as the set of its two flags: "clear" removes the conditions installed so far,
"add" installs the conditions passed with the call. -/
structure PS5000A_CONDITIONS_INFO where
  clear : Bool
  add : Bool
  deriving DecidableEq, Repr

/-- The flag `PS5000A_CLEAR`. -/
def PS5000A_CLEAR : PS5000A_CONDITIONS_INFO := { clear := true, add := false }

/-- The flag `PS5000A_ADD`. -/
def PS5000A_ADD : PS5000A_CONDITIONS_INFO := { clear := false, add := true }

/-- The bitwise or of two flag sets, as in `PS5000A_CLEAR | PS5000A_ADD`. -/
def PS5000A_CONDITIONS_INFO.or (a b : PS5000A_CONDITIONS_INFO) : PS5000A_CONDITIONS_INFO :=
  { clear := a.clear || b.clear, add := a.add || b.add }

/-- Modelled from the spec: the struct `PS5000A_TRIGGER_CHANNEL_PROPERTIES_V2` of `ps5000aApi.h`
(not among the sources), with the fields the program sets (lines 1084-1088). -/
structure PS5000A_TRIGGER_CHANNEL_PROPERTIES_V2 where
  thresholdUpper : Int
  thresholdUpperHysteresis : Int
  thresholdLower : Int
  thresholdLowerHysteresis : Int
  channel : Int
  deriving DecidableEq, Repr

/-- Modelled from the spec: the struct `PS5000A_CONDITION` of `ps5000aApi.h` (not among the
sources), with the fields the program sets (lines 1091-1092). -/
structure PS5000A_CONDITION where
  source : Int
  condition : Int
  deriving DecidableEq, Repr

/-- Modelled from the spec: the struct `PS5000A_DIRECTION` of `ps5000aApi.h` (not among the
sources), with the fields the program sets (lines 1095-1097). -/
structure PS5000A_DIRECTION where
  source : Int
  direction : Int
  mode : Int
  deriving DecidableEq, Repr

/-- The C struct `PWQ` (lines 182-191); the arrays are carried as lists, next to their counts. -/
structure PWQ where
  pwqConditions : List PS5000A_CONDITION
  nPwqConditions : Int
  pwqDirections : List PS5000A_DIRECTION
  nPwqDirections : Int
  lower : Int
  upper : Int
  type : Int
  deriving DecidableEq, Repr

/-- The driver requests `setTrigger` makes, with their arguments (the handle apart). -/
inductive TriggerCall where
  | ps5000aSetTriggerChannelPropertiesV2
      (channelProperties : List PS5000A_TRIGGER_CHANNEL_PROPERTIES_V2)
      (nChannelProperties auxOutputEnabled : Int)
  | ps5000aSetTriggerChannelConditionsV2
      (conditions : List PS5000A_CONDITION) (nConditions : Int) (info : PS5000A_CONDITIONS_INFO)
  | ps5000aSetTriggerChannelDirectionsV2 (directions : List PS5000A_DIRECTION) (nDirections : Int)
  | ps5000aSetAutoTriggerMicroSeconds (autoTriggerMicroseconds : Int)
  | ps5000aSetTriggerDelay (delay : Int)
  | ps5000aSetPulseWidthQualifierConditions
      (conditions : List PS5000A_CONDITION) (nConditions : Int) (info : PS5000A_CONDITIONS_INFO)
  | ps5000aSetPulseWidthQualifierDirections
      (directions : List PS5000A_DIRECTION) (nDirections : Int)
  | ps5000aSetPulseWidthQualifierProperties (lower upper type : Int)
  deriving DecidableEq, Repr

open TriggerCall

/-- The arguments of `setTrigger` besides the unit. -/
structure TriggerArgs where
  channelProperties : List PS5000A_TRIGGER_CHANNEL_PROPERTIES_V2
  nChannelProperties : Int
  triggerConditions : List PS5000A_CONDITION
  nTriggerConditions : Int
  directions : List PS5000A_DIRECTION
  nDirections : Int
  pwq : PWQ
  delay : Int
  autoTriggerUs : Int
  deriving DecidableEq, Repr

/-- The C function `setTrigger` (lines 775-868).  `driver` gives the status the driver returns
to each request; the result is the returned status and the requests made, in order. -/
def setTrigger (driver : TriggerCall → PICO_STATUS) (a : TriggerArgs) :
    PICO_STATUS × List TriggerCall :=
  let info := PS5000A_CLEAR
  let pwqInfo := PS5000A_CLEAR
  let auxOutputEnabled := 0
  let call1 := ps5000aSetTriggerChannelPropertiesV2 a.channelProperties a.nChannelProperties
    auxOutputEnabled
  let status := driver call1
  if status ≠ PICO_OK then (status, [call1])
  else
    let info := if a.nTriggerConditions ≠ 0 then PS5000A_CLEAR.or PS5000A_ADD else info
    let call2 := ps5000aSetTriggerChannelConditionsV2 a.triggerConditions a.nTriggerConditions info
    let status := driver call2
    if status ≠ PICO_OK then (status, [call1, call2])
    else
      let call3 := ps5000aSetTriggerChannelDirectionsV2 a.directions a.nDirections
      let status := driver call3
      if status ≠ PICO_OK then (status, [call1, call2, call3])
      else
        let call4 := ps5000aSetAutoTriggerMicroSeconds a.autoTriggerUs
        let status := driver call4
        if status ≠ PICO_OK then (status, [call1, call2, call3, call4])
        else
          let call5 := ps5000aSetTriggerDelay a.delay
          let status := driver call5
          if status ≠ PICO_OK then (status, [call1, call2, call3, call4, call5])
          else
            let pwqInfo :=
              if a.pwq.nPwqConditions ≠ 0 then PS5000A_CLEAR.or PS5000A_ADD else pwqInfo
            let call6 := ps5000aSetPulseWidthQualifierConditions a.pwq.pwqConditions
              a.pwq.nPwqConditions pwqInfo
            let status := driver call6
            if status ≠ PICO_OK then (status, [call1, call2, call3, call4, call5, call6])
            else
              let call7 := ps5000aSetPulseWidthQualifierDirections a.pwq.pwqDirections
                a.pwq.nPwqDirections
              let status := driver call7
              if status ≠ PICO_OK then
                (status, [call1, call2, call3, call4, call5, call6, call7])
              else
                let call8 := ps5000aSetPulseWidthQualifierProperties a.pwq.lower a.pwq.upper
                  a.pwq.type
                let status := driver call8
                if status ≠ PICO_OK then
                  (status, [call1, call2, call3, call4, call5, call6, call7, call8])
                else (status, [call1, call2, call3, call4, call5, call6, call7, call8])

/-! ### Statement of the step order -/

/-- The eight steps of the trigger protocol, named by what they configure. -/
inductive TriggerStep where
  | channelProperties
  | triggerConditions
  | triggerDirections
  | autoTriggerTimeout
  | triggerDelay
  | pulseWidthConditions
  | pulseWidthDirections
  | pulseWidthProperties
  deriving DecidableEq, Repr

/-- The ordered list of the eight steps. -/
def triggerStepOrder : List TriggerStep :=
  [.channelProperties, .triggerConditions, .triggerDirections, .autoTriggerTimeout,
    .triggerDelay, .pulseWidthConditions, .pulseWidthDirections, .pulseWidthProperties]

/-- The step a driver request belongs to. -/
def TriggerCall.step : TriggerCall → TriggerStep
  | ps5000aSetTriggerChannelPropertiesV2 _ _ _ => .channelProperties
  | ps5000aSetTriggerChannelConditionsV2 _ _ _ => .triggerConditions
  | ps5000aSetTriggerChannelDirectionsV2 _ _ => .triggerDirections
  | ps5000aSetAutoTriggerMicroSeconds _ => .autoTriggerTimeout
  | ps5000aSetTriggerDelay _ => .triggerDelay
  | ps5000aSetPulseWidthQualifierConditions _ _ _ => .pulseWidthConditions
  | ps5000aSetPulseWidthQualifierDirections _ _ => .pulseWidthDirections
  | ps5000aSetPulseWidthQualifierProperties _ _ _ => .pulseWidthProperties

/-- The steps made when the steps of `order` are tried in turn and `statusOf` is the status of
each: the prefix up to and including the first step whose status is not `PICO_OK`, with that
status; all of them, with `PICO_OK`, when none fails. -/
def untilFirstFailure (statusOf : TriggerStep → PICO_STATUS) :
    List TriggerStep → PICO_STATUS × List TriggerStep
  | [] => (PICO_OK, [])
  | step :: rest =>
    if statusOf step ≠ PICO_OK then (statusOf step, [step])
    else ((untilFirstFailure statusOf rest).1, step :: (untilFirstFailure statusOf rest).2)

/-- A driver whose answer depends on the step only. -/
def stepDriver (statusOf : TriggerStep → PICO_STATUS) : TriggerCall → PICO_STATUS :=
  fun call => statusOf call.step

/-- A trigger of the shape `collectRapidBlock` passes to `setTrigger` (lines 1084-1110): one
property, one condition, one direction, an empty pulse-width qualifier, no delay and no
auto-trigger. -/
def sampleTriggerArgs : TriggerArgs :=
  { channelProperties :=
      [{ thresholdUpper := 8191, thresholdUpperHysteresis := 2560, thresholdLower := 8191,
         thresholdLowerHysteresis := 2560, channel := 4 }],
    nChannelProperties := 1,
    triggerConditions := [{ source := 4, condition := 1 }],
    nTriggerConditions := 1,
    directions := [{ source := 4, direction := 2, mode := 0 }],
    nDirections := 1,
    pwq := { pwqConditions := [], nPwqConditions := 0, pwqDirections := [], nPwqDirections := 0,
             lower := 0, upper := 0, type := 0 },
    delay := 0, autoTriggerUs := 0 }

/-- A driver that accepts every step except the trigger delay, which it rejects with code 13. -/
def delayRejected : TriggerStep → PICO_STATUS :=
  fun step => if step = .triggerDelay then .other 13 else PICO_OK

/-- The eight requests of `setTrigger` for given arguments, in order, each with the arguments
lines 792-859 give it. -/
def triggerCalls (a : TriggerArgs) : List TriggerCall :=
  [ ps5000aSetTriggerChannelPropertiesV2 a.channelProperties a.nChannelProperties 0,
    ps5000aSetTriggerChannelConditionsV2 a.triggerConditions a.nTriggerConditions
      (if a.nTriggerConditions ≠ 0 then PS5000A_CLEAR.or PS5000A_ADD else PS5000A_CLEAR),
    ps5000aSetTriggerChannelDirectionsV2 a.directions a.nDirections,
    ps5000aSetAutoTriggerMicroSeconds a.autoTriggerUs,
    ps5000aSetTriggerDelay a.delay,
    ps5000aSetPulseWidthQualifierConditions a.pwq.pwqConditions a.pwq.nPwqConditions
      (if a.pwq.nPwqConditions ≠ 0 then PS5000A_CLEAR.or PS5000A_ADD else PS5000A_CLEAR),
    ps5000aSetPulseWidthQualifierDirections a.pwq.pwqDirections a.pwq.nPwqDirections,
    ps5000aSetPulseWidthQualifierProperties a.pwq.lower a.pwq.upper a.pwq.type ]

/-! ### Statement of the power negotiation -/

/-- A key that is neither `Y` nor `N` in either case: the prompts of `changePowerSource` are
repeated after it. -/
def otherKey (key : Int) : Bool :=
  toInt8 (toupper key) != 89 && toInt8 (toupper key) != 78

/-- A four-channel unit with all channels enabled. -/
def quadUnit : UNIT :=
  { firstRange := 0, lastRange := 11, channelCount := 4, maxADCValue := 32767,
    channelSettings :=
      [ { DCcoupled := 1, range := 8, enabled := 1, analogueOffset := 0 },
        { DCcoupled := 1, range := 7, enabled := 1, analogueOffset := 0 },
        { DCcoupled := 0, range := 6, enabled := 1, analogueOffset := 0 },
        { DCcoupled := 1, range := 5, enabled := 1, analogueOffset := 0 } ],
    resolution := 0 }

/-! ## `collectRapidBlock`: arming the block run (lines 270-276, 1146-1165) -/

/-- The C function `callBackBlock` (lines 270-276); `TRUE` is 1. -/
def callBackBlock (g : Globals) (status : PICO_STATUS) : Globals :=
  if status ≠ PICO_CANCELLED then { g with g_ready := 1 } else g

/-- What the driver does with one `ps5000aRunBlock` request: the status it returns and, when it
delivers the completion notification inside the call, the status it passes to
`callBackBlock`. -/
structure RunBlockAnswer where
  status : PICO_STATUS
  callback : Option PICO_STATUS
  deriving DecidableEq, Repr

/-- The calls of the arm loop: a run request with its sample counts and timebase, and an
invocation of the power negotiator with the status it is given. -/
inductive ArmEvent where
  | ps5000aRunBlock (noOfPreTriggerSamples noOfPostTriggerSamples timebase : Int)
  | changePowerSource (status : PICO_STATUS)
  deriving DecidableEq, Repr

/-- The state in which the arm loop of `collectRapidBlock` ends. -/
structure ArmResult where
  status : PICO_STATUS
  unit : UNIT
  g : Globals
  keys : List Int
  answers : List PICO_STATUS
  events : List ArmEvent
  deriving DecidableEq, Repr

/-- The arm loop `do { ... } while (retry)` of lines 1146-1165.  The list gives the driver's
answers to successive run requests; `keys` and `answers` are the input of the power negotiator;
`events` collects the calls made so far. -/
def armBlock (noOfPreTriggerSamples noOfPostTriggerSamples timebase : Int) :
    UNIT → Globals → List ArmEvent → List RunBlockAnswer → List Int → List PICO_STATUS →
      Outcome ArmResult
  | _, _, _, [], _, _ => .blocked
  | unit, g, events, run :: runs, keys, answers =>
    -- line 1149, with the completion callback when the driver delivers it inside the call
    let g1 :=
      match run.callback with
      | some status => callBackBlock g status
      | none => g
    let events1 :=
      events ++ [.ps5000aRunBlock noOfPreTriggerSamples noOfPostTriggerSamples timebase]
    if run.status ≠ PICO_OK then
      if run.status = PICO_POWER_SUPPLY_CONNECTED ∨ run.status = PICO_POWER_SUPPLY_NOT_CONNECTED ∨
          run.status = PICO_USB3_0_DEVICE_NON_USB3_0_PORT then
        -- lines 1157-1158: negotiate, then `retry = 1`
        match changePowerSource run.status unit keys answers with
        | .returned r =>
          armBlock noOfPreTriggerSamples noOfPostTriggerSamples timebase r.unit g1
            (events1 ++ [.changePowerSource run.status]) runs r.keys r.answers
        | .exited => .exited
        | .blocked => .blocked
      else
        -- line 1162 prints the status; `retry` stays 0
        .returned
          { status := run.status, unit := unit, g := g1, keys := keys, answers := answers,
            events := events1 }
    else
      .returned
        { status := run.status, unit := unit, g := g1, keys := keys, answers := answers,
          events := events1 }

/-! ## `streamDataHandler`: the end of the polling loop (lines 665, 744-752) -/

/-- The message `streamDataHandler` prints after the loop (lines 744-752). -/
inductive CollectionReport where
  | aborted
  | complete
  deriving DecidableEq, Repr

/-- The test of line 744: `!g_autoStopped && !powerChange`. -/
def reportCollection (s : StreamState) : CollectionReport :=
  if s.g.g_autoStopped = 0 ∧ s.powerChange = 0 then .aborted else .complete

/-- The report printed when the polling loop has ended. -/
def finalReport : Outcome StreamState → Option CollectionReport
  | .returned s => some (reportCollection s)
  | _ => none

/-- The number of polls made when the loop is left: the `index` counter of line 686. -/
def finalIndex : Outcome StreamState → Option Int
  | .returned s => some s.index
  | _ => none

/-! ### Statement of the loop's termination -/

/-- The number of polls the loop performs on a scripted run: it goes on to the next poll as long
as polls remain (no key press is pending) and the callback has not signalled autostop. -/
def pollsPerformed : List Poll → Nat
  | [] => 0
  | p :: rest => if p.autoStop then 1 else 1 + pollsPerformed rest

/-- A poll during which the callback is not invoked and the call returns `status`. -/
def statusPoll (status : PICO_STATUS) (keys : List Int) (answers : List PICO_STATUS) : Poll :=
  { callback := none, status := status, keys := keys, answers := answers }

/-- The calls made by an arm loop that has returned. -/
def armEvents : Outcome ArmResult → List ArmEvent
  | .returned r => r.events
  | _ => []

/-- A poll whose callback reports `count` samples and signals autostop. -/
def stopPoll (count : Int) : Poll :=
  { callback := some
      { noOfSamples := count, startIndex := 0, overflow := 0, triggerAt := 0, triggered := 0,
        autoStop := 1 },
    status := PICO_OK, keys := [], answers := [] }

/-! ## `streamDataHandler`: arming the stream (lines 582-639) -/

/-- The calls of the arm loop of `streamDataHandler`: a run request with the arguments passed by
value (the sample interval is passed by pointer and may be updated by the driver), and an
invocation of the power negotiator with the status it is given. -/
inductive StreamArmEvent where
  | ps5000aRunStreaming (maxPreTriggerSamples maxPostTriggerSamples autoStop downSampleRatio
      overviewBufferSize : Int)
  | changePowerSource (status : PICO_STATUS)
  deriving DecidableEq, Repr

/-- The state in which the arm loop of `streamDataHandler` ends.  With a `status` other than
`PICO_OK` the function has returned at line 635. -/
structure StreamArmResult where
  status : PICO_STATUS
  unit : UNIT
  keys : List Int
  answers : List PICO_STATUS
  events : List StreamArmEvent
  deriving DecidableEq, Repr

/-- The run request of lines 619-620 with the values of lines 534 and 582-588. -/
def runStreamingRequest : StreamArmEvent :=
  .ps5000aRunStreaming 0 1000000 1 1 50000

/-- The arm loop `do { ... } while (retry)` of lines 615-639.  The list gives the driver's
answers to successive run requests; `keys` and `answers` are the input of the power negotiator;
`events` collects the calls made so far. -/
def armStreaming : UNIT → List StreamArmEvent → List PICO_STATUS → List Int →
    List PICO_STATUS → Outcome StreamArmResult
  | _, _, [], _, _ => .blocked
  | unit, events, status :: runs, keys, answers =>
    let events1 := events ++ [runStreamingRequest]
    if status ≠ PICO_OK then
      if isPowerStatus status then
        -- lines 629-630: negotiate, then `retry = 1`
        match changePowerSource status unit keys answers with
        | .returned r =>
          armStreaming r.unit (events1 ++ [.changePowerSource status]) runs r.keys r.answers
        | .exited => .exited
        | .blocked => .blocked
      else
        -- lines 634-635: print the status and return
        .returned
          { status := status, unit := unit, keys := keys, answers := answers, events := events1 }
    else
      .returned
        { status := status, unit := unit, keys := keys, answers := answers, events := events1 }

/-- The calls made by a streaming arm loop that has returned. -/
def streamArmEvents : Outcome StreamArmResult → List StreamArmEvent
  | .returned r => r.events
  | _ => []

/-! ## `collectRapidBlock`: from the arm loop to the report (lines 1146-1336) -/

/-- The wait loop of lines 1170-1173, entered with the globals as line 1168 left them.  Each
element of the list is an iteration for which `_kbhit()` reports no key, with the status passed
to `callBackBlock` if the driver delivers the completion notification during `Sleep(0)`; the
key press comes after the last element. -/
def waitLoop : Globals → List (Option PICO_STATUS) → Globals
  | g, [] => g
  | g, notification :: rest =>
    if g.g_ready ≠ 0 then g
    else
      match notification with
      | some status => waitLoop (callBackBlock g status) rest
      | none => waitLoop g rest

/-- What the environment does while `collectRapidBlock` arms, waits and retrieves. -/
structure RapidBlockScript where
  runs : List RunBlockAnswer
  powerKeys : List Int
  powerAnswers : List PICO_STATUS
  waits : List (Option PICO_STATUS)
  cancelKeys : List Int
  nCompletedCaptures : Int
  infoStatus : PICO_STATUS
  deriving DecidableEq, Repr

/-- How `collectRapidBlock` went from line 1146 on: how the arm loop ended, the ready flag when
the wait loop was left, and what followed. -/
structure RapidBlockRun where
  arm : ArmResult
  g_ready : Int
  ending : RapidBlockEnd
  deriving DecidableEq, Repr

/-- Lines 1146-1336 of `collectRapidBlock`: the arm loop, `g_ready = 0` (line 1168), the wait
loop, and the cancellation, retrieval and report of lines 1175-1336. -/
def armWaitRetrieve (unit : UNIT) (g : Globals)
    (nSamples timeIntervalNs preTrigger postTrigger timebase nCaptures : Int)
    (script : RapidBlockScript) (triggerInfo : Int → List PS5000A_TRIGGER_INFO) :
    Outcome RapidBlockRun :=
  match armBlock preTrigger postTrigger timebase unit g [] script.runs script.powerKeys
      script.powerAnswers with
  | .returned arm =>
    -- line 1168
    let g1 := { arm.g with g_ready := 0 }
    let g2 := waitLoop g1 script.waits
    .returned
      { arm := arm, g_ready := g2.g_ready,
        ending := retrieveAndReport arm.unit nSamples timeIntervalNs g2.g_ready nCaptures
          script.nCompletedCaptures script.cancelKeys script.infoStatus triggerInfo }
  | .exited => .exited
  | .blocked => .blocked

/-! ## `streamDataHandler`: teardown (lines 504-520, 734-767) -/

/-- The calls of the teardown of `streamDataHandler` that concern the device and the sample
buffers.  `freeDriverBuffer k` is `free(buffers[k])`, `freeAppBuffer k` is
`free(appBuffers[k])`, and `clearRegistration channel` is the call
`ps5000aSetDataBuffers(handle, channel, NULL, NULL, 0, 0, PS5000A_RATIO_MODE_NONE)`. -/
inductive TeardownStep where
  | ps5000aStop
  | awaitKey
  | freeDriverBuffer (index : Nat)
  | freeAppBuffer (index : Nat)
  | clearRegistration (channel : Nat)
  deriving DecidableEq, Repr

/-- The C function `clearDataBuffers` (lines 504-520): one call per enabled channel, in
ascending order. -/
def clearDataBuffers (unit : UNIT) : Option (List TeardownStep) :=
  (enabledChannels unit unit.channelCount.toNat).map fun channels =>
    channels.map .clearRegistration

/-- The four `free` calls of lines 758-762 for channel `i`. -/
def freeChannel (i : Nat) : List TeardownStep :=
  [.freeDriverBuffer (i * 2), .freeAppBuffer (i * 2), .freeDriverBuffer (i * 2 + 1),
    .freeAppBuffer (i * 2 + 1)]

/-- Lines 738-767 of `streamDataHandler`, entered with the state `s` in which the polling loop
ended: the stop request, the `_getch()` after the message "aborted", the `free` calls for the
enabled channels, and `clearDataBuffers`.  The result is `none` when a channel setting is read
outside the array. -/
def streamTeardown (unit : UNIT) (s : StreamState) : Option (List TeardownStep) :=
  (enabledChannels unit unit.channelCount.toNat).bind fun channels =>
    (clearDataBuffers unit).map fun cleared =>
      -- line 738
      [TeardownStep.ps5000aStop]
      -- lines 746-754
      ++ (if reportCollection s = .aborted then [TeardownStep.awaitKey] else [])
      -- lines 756-765
      ++ channels.flatMap freeChannel
      -- line 767
      ++ cleared

/-- A `free` call. -/
def TeardownStep.isFree : TeardownStep → Bool
  | .freeDriverBuffer _ => true
  | .freeAppBuffer _ => true
  | _ => false

/-- A call that clears a driver-side registration. -/
def TeardownStep.isClear : TeardownStep → Bool
  | .clearRegistration _ => true
  | _ => false

/-- A state in which the polling loop has ended by autostop. -/
def stoppedState (unit : UNIT) : StreamState :=
  { g := { initialGlobals with g_autoStopped := 1 }, unit := unit, totalSamples := 0,
    triggeredAt := 0, index := 1, num_of_samples := 0, powerChange := 0 }

/-! ## `collectRapidBlock`: the menu (lines 877-1015) -/

/-- Modelled from the spec: the enumerator `PS5000A_CHANNEL_A` of `ps5000aApi.h` (not among the
sources); the menu of `collectRapidBlock` lists it as "0 -> A" (line 987). -/
def PS5000A_CHANNEL_A : Nat := 0

/-- Modelled from the spec: the enumerator `PS5000A_EXTERNAL` of `ps5000aApi.h` (not among the
sources); the menu of `collectRapidBlock` lists it as "4 -> EXT" (line 991). -/
def PS5000A_EXTERNAL : Nat := 4

/-- The variables of `collectRapidBlock` the menu edits (lines 877-883). -/
structure MenuState where
  num_of_waveforms : Int
  num_of_points : Int
  num_of_points_pre_trigger : Int
  num_of_points_post_trigger : Int
  init_trigger_voltage : Int
  init_trigger_channel : Int
  deriving DecidableEq, Repr

/-- The initial values of lines 877-883. -/
def menuDefaults : MenuState :=
  { num_of_waveforms := 1000, num_of_points := 2000, num_of_points_pre_trigger := 500,
    num_of_points_post_trigger := 1500, init_trigger_voltage := 500,
    init_trigger_channel := PS5000A_EXTERNAL }

/-- The `do ... while` loop of lines 940-949 (and 952-961): the list holds the numbers read by
successive `scanf_s("%i", ...)` calls; the result is the state when the loop is left and the
numbers not yet read, or `none` when the input ends before a value is accepted.  The
subtraction is made in `int`. -/
def readPreTrigger : MenuState → List Int → Option (MenuState × List Int)
  | _, [] => none
  | m, x :: rest =>
    let pre := toInt32 x
    let m1 := { m with num_of_points_pre_trigger := pre, num_of_points_post_trigger := toInt32 (m.num_of_points - pre) }
    if pre > m1.num_of_points ∨ pre < 0 then readPreTrigger m1 rest else some (m1, rest)

/-- The `do ... while` loop of lines 964-973. -/
def readPostTrigger : MenuState → List Int → Option (MenuState × List Int)
  | _, [] => none
  | m, x :: rest =>
    let post := toInt32 x
    let m1 := { m with num_of_points_post_trigger := post, num_of_points_pre_trigger := toInt32 (m.num_of_points - post) }
    if post > m1.num_of_points ∨ post < 0 then readPostTrigger m1 rest else some (m1, rest)

/-- The `do ... while` loop of lines 978-993. -/
def readTriggerChannel : MenuState → List Int → Option (MenuState × List Int)
  | _, [] => none
  | m, x :: rest =>
    let m1 := { m with init_trigger_channel := toInt32 x }
    if m1.init_trigger_channel > 4 ∨ m1.init_trigger_channel < 0 then readTriggerChannel m1 rest
    else some (m1, rest)

/-- The test of lines 1003 and 1007, under which option V prints "Trigger Voltage out of range
(over 5V)" and asks again. -/
def triggerVoltageRejected (init_trigger_voltage : Int) : Bool :=
  init_trigger_voltage < 5000 || init_trigger_voltage > 5000

/-- The `do ... while` loop of lines 999-1007; `%hi` stores an `int16_t`. -/
def readTriggerVoltage : MenuState → List Int → Option (MenuState × List Int)
  | _, [] => none
  | m, x :: rest =>
    let m1 := { m with init_trigger_voltage := toInt16 x }
    if triggerVoltageRejected m1.init_trigger_voltage then readTriggerVoltage m1 rest
    else some (m1, rest)

/-- The `switch (ch)` of lines 933-1012: one menu operation for the key `ch`, reading its numbers
from `inputs`.  The letters are `W` 87, `P` 80, `F` 70, `L` 76, `S` 83, `C` 67, `V` 86. -/
def menuOperation (m : MenuState) (ch : Int) (inputs : List Int) :
    Option (MenuState × List Int) :=
  if ch = 87 then
    match inputs with
    | [] => none
    | x :: rest => some ({ m with num_of_waveforms := toInt32 x }, rest)
  else if ch = 80 then
    match inputs with
    | [] => none
    | x :: rest => readPreTrigger { m with num_of_points := toInt32 x } rest
  else if ch = 70 then readPreTrigger m inputs
  else if ch = 76 then readPostTrigger m inputs
  else if ch = 83 then some (m, inputs)
  else if ch = 67 then readTriggerChannel m inputs
  else if ch = 86 then readTriggerVoltage m inputs
  else some (m, inputs)

/-- The loop `while (ch != 'S')` of lines 887-1015: `keys` are the values of successive
`_getch()` calls, `inputs` the numbers read by successive `scanf_s` calls.  The result is the
state with which the function goes on, or `none` when the input ends first. -/
def menuLoop : MenuState → List Int → List Int → Option MenuState
  | _, [], _ => none
  | m, key :: keys, inputs =>
    let ch := toInt8 (toupper key)
    match menuOperation m ch inputs with
    | none => none
    | some (m1, inputs1) => if ch = 83 then some m1 else menuLoop m1 keys inputs1

/-- The relation the block run needs of the sample counts: pre-trigger and post-trigger counts
are not negative and add up to the number of points. -/
def MenuState.countsConsistent (m : MenuState) : Prop :=
  m.num_of_points_pre_trigger + m.num_of_points_post_trigger = m.num_of_points ∧
    0 ≤ m.num_of_points_pre_trigger ∧ 0 ≤ m.num_of_points_post_trigger

instance (m : MenuState) : Decidable m.countsConsistent := by
  unfold MenuState.countsConsistent
  infer_instance

/-- The states after each completed menu operation of a run of the menu loop, in order. -/
def menuTrace : MenuState → List Int → List Int → List MenuState
  | _, [], _ => []
  | m, key :: keys, inputs =>
    let ch := toInt8 (toupper key)
    match menuOperation m ch inputs with
    | none => []
    | some (m1, inputs1) => m1 :: (if ch = 83 then [] else menuTrace m1 keys inputs1)

/-! ## `setResolution` (lines 1827-1947) -/

/-- Modelled from the spec: the enumerators of `PS5000A_DEVICE_RESOLUTION` of `ps5000aApi.h`
(not among the sources), with the indices the prompt of lines 1869-1881 prints: "0: 8 bits",
"1: 12 bits", "2: 14 bits", "3: 15 bits", "4: 16 bits". -/
def PS5000A_DR_8BIT : Int := 0

/-- Modelled from the spec: "1: 12 bits" (line 1870). -/
def PS5000A_DR_12BIT : Int := 1

/-- Modelled from the spec: "2: 14 bits" (line 1871). -/
def PS5000A_DR_14BIT : Int := 2

/-- Modelled from the spec: "3: 15 bits" (line 1875). -/
def PS5000A_DR_15BIT : Int := 3

/-- Modelled from the spec: "4: 16 bits" (line 1880). -/
def PS5000A_DR_16BIT : Int := 4

/-- The loop of lines 1840-1846: the number of channels `0 .. count - 1` whose `enabled` setting
equals `TRUE`; `none` when a setting is read outside the array. -/
def numEnabledChannels (unit : UNIT) : Nat → Option Int
  | 0 => some 0
  | count + 1 =>
    (numEnabledChannels unit count).bind fun n =>
      (unit.channelSettings[count]?).map fun settings =>
        if settings.enabled = 1 then toInt16 (n + 1) else n

/-- The value of `retry` after the tests of lines 1908-1923 for the entered resolution and the
number of enabled channels: `true` when one of the three messages is printed. -/
def resolutionRetry (newResolution numEnabledChannels : Int) : Bool :=
  if newResolution = PS5000A_DR_16BIT ∧ numEnabledChannels > 1 then true
  else if newResolution = PS5000A_DR_15BIT ∧ numEnabledChannels > 2 then true
  else if newResolution < PS5000A_DR_8BIT ∧ newResolution > PS5000A_DR_16BIT then true
  else false

/-- The `do ... while (retry)` loop of lines 1886-1926 over the numbers read by successive
`scanf_s` calls: the resolution with which the loop is left and the entries refused before it,
or `none` when the input ends first. -/
def readResolution (numEnabledChannels : Int) : List Int → Option (Int × List Int)
  | [] => none
  | x :: rest =>
    let newResolution := toInt32 x
    if resolutionRetry newResolution numEnabledChannels then
      (readResolution numEnabledChannels rest).map fun r => (r.1, newResolution :: r.2)
    else some (newResolution, [])

/-- What `setResolution` did: the unit afterwards, the entries it refused, and the resolution it
passed to `ps5000aSetDeviceResolution`, if it made that call. -/
structure ResolutionResult where
  unit : UNIT
  refused : List Int
  requested : Option Int
  deriving DecidableEq, Repr

/-- The C function `setResolution` from line 1848 on, for the number of enabled channels found.
`getStatus` and `setStatus` are the statuses of `ps5000aGetDeviceResolution` and
`ps5000aSetDeviceResolution`, `value` is what `ps5000aMaximumValue` stores. -/
def setResolutionFor (unit : UNIT) (numEnabledChannels : Int) (getStatus setStatus : PICO_STATUS)
    (value : Int) (inputs : List Int) : Outcome ResolutionResult :=
  if numEnabledChannels = 0 then .returned { unit := unit, refused := [], requested := none }
  else if getStatus ≠ PICO_OK then
    .returned { unit := unit, refused := [], requested := none }
  else
    match readResolution numEnabledChannels inputs with
    | none => .blocked
    | some (newResolution, refused) =>
      if setStatus = PICO_OK then
        .returned
          { unit := { unit with resolution := newResolution, maxADCValue := toInt16 value },
            refused := refused, requested := some newResolution }
      else .returned { unit := unit, refused := refused, requested := some newResolution }

/-- The C function `setResolution` (lines 1827-1947); `none` when a channel setting is read
outside the array. -/
def setResolution (unit : UNIT) (getStatus setStatus : PICO_STATUS) (value : Int)
    (inputs : List Int) : Option (Outcome ResolutionResult) :=
  (numEnabledChannels unit unit.channelCount.toNat).map fun n =>
    setResolutionFor unit n getStatus setStatus value inputs

/-! ## Channel settings: `set_info`, `handleDevice`, `setVoltages`, `setCoupling` -/

/-- Modelled from the spec: the enumerator `PS5000A_10MV` of `PS5000A_RANGE` in `ps5000aApi.h`
(not among the sources), taken as the index of 10 mV in `inputRanges`. -/
def PS5000A_10MV : Int := 0

/-- Modelled from the spec: the enumerator `PS5000A_5V`, the index of 5000 mV in
`inputRanges`. -/
def PS5000A_5V : Int := 8

/-- Modelled from the spec: the enumerator `PS5000A_20V`, the index of 20000 mV in
`inputRanges`. -/
def PS5000A_20V : Int := 10

/-- Modelled from the spec: the enumerator `PS5000A_MAX_RANGES`, the declared length of
`inputRanges` (line 227), taken as the number of its initialisers. -/
def PS5000A_MAX_RANGES : Int := 12

/-- The assignments of `set_info` to the fields of the model (lines 1403-1405, 1427-1428);
`channelCount` is the digit read from the variant string. -/
def set_info (unit : UNIT) (channelCount : Int) : UNIT :=
  { unit with firstRange := PS5000A_10MV, lastRange := PS5000A_20V, channelCount := channelCount }

/-- An assignment to fields of `unit->channelSettings[ch]`; `none` when the index is outside the
array. -/
def updateSettings (unit : UNIT) (ch : Nat) (f : CHANNEL_SETTINGS → CHANNEL_SETTINGS) :
    Option UNIT :=
  if ch < unit.channelSettings.length then
    some { unit with channelSettings := unit.channelSettings.modify f ch }
  else none

/-- The body of the loop of lines 2151-2168 of `handleDevice` for channel `i`; `status` is the
answer of `ps5000aCurrentPowerSource`. -/
def handleDeviceChannel (status : PICO_STATUS) (unit : UNIT) (i : Nat) : Option UNIT :=
  let enabled : Int :=
    if unit.channelCount = QUAD_SCOPE ∧ status = PICO_POWER_SUPPLY_NOT_CONNECTED ∧
        (i : Int) ≥ DUAL_SCOPE then 0 else 1
  (updateSettings unit i fun s => { s with enabled := enabled }).bind fun u1 =>
    (updateSettings u1 4 fun s => { s with enabled := 1 }).bind fun u2 =>
      updateSettings u2 i fun s =>
        { s with DCcoupled := 0, range := PS5000A_5V, analogueOffset := 0 }

/-- The first `count` iterations of the loop of lines 2151-2168. -/
def handleDeviceChannels (status : PICO_STATUS) (unit : UNIT) : Nat → Option UNIT
  | 0 => some unit
  | count + 1 =>
    (handleDeviceChannels status unit count).bind fun u => handleDeviceChannel status u count

/-- The defaults `handleDevice` gives the unit (lines 2146-2168): the maximum ADC value the
driver reports and the channel settings. -/
def handleDeviceDefaults (unit : UNIT) (value : Int) (status : PICO_STATUS) : Option UNIT :=
  handleDeviceChannels status { unit with maxADCValue := toInt16 value } unit.channelCount.toNat

/-- The `do ... while` loop of lines 1629-1635 of `setVoltages` for channel `ch`: each number
read is stored in the channel's `range` (an `int16_t`) and the loop goes on while it is neither
99 nor within the unit's ranges.  The result is `none` when the input ends first or the channel
is outside the array. -/
def readRange (ch : Nat) : UNIT → List Int → Option (UNIT × List Int)
  | _, [] => none
  | unit, x :: rest =>
    match updateSettings unit ch fun s => { s with range := toInt16 x } with
    | none => none
    | some u1 =>
      if toInt16 x ≠ 99 ∧ (toInt16 x < u1.firstRange ∨ toInt16 x > u1.lastRange) then
        readRange ch u1 rest
      else some (u1, rest)

/-- The body of the `for` loop of lines 1625-1649 of `setVoltages` for channel `ch`. -/
def voltageChannel (unit : UNIT) (count : Int) (inputs : List Int) (ch : Nat) :
    Option (UNIT × Int × List Int) :=
  (readRange ch unit inputs).bind fun r =>
    (r.1.channelSettings[ch]?).bind fun s =>
      if s.range ≠ 99 then
        (updateSettings r.1 ch fun s => { s with enabled := 1 }).map fun u =>
          (u, toInt32 (count + 1), r.2)
      else
        (updateSettings r.1 ch fun s =>
          { s with enabled := 0, range := PS5000A_MAX_RANGES - 1 }).map fun u => (u, count, r.2)

/-- The first `n` iterations of the `for` loop of lines 1625-1649. -/
def voltageChannels (unit : UNIT) (count : Int) (inputs : List Int) :
    Nat → Option (UNIT × Int × List Int)
  | 0 => some (unit, count, inputs)
  | n + 1 => (voltageChannels unit count inputs n).bind fun r => voltageChannel r.1 r.2.1 r.2.2 n

/-- The `do ... while` loop of lines 1508-1513 of `setCoupling` for channel `ch`. -/
def readCoupling (ch : Nat) : UNIT → List Int → Option (UNIT × List Int)
  | _, [] => none
  | unit, x :: rest =>
    match updateSettings unit ch fun s => { s with DCcoupled := toInt16 x } with
    | none => none
    | some u1 =>
      if toInt16 x ≠ 0 ∧ toInt16 x ≠ 1 ∧ toInt16 x ≠ 99 then readCoupling ch u1 rest
      else some (u1, rest)

/-- The body of the `for` loop of lines 1504-1529 of `setCoupling` for channel `ch`. -/
def couplingChannel (unit : UNIT) (count : Int) (inputs : List Int) (ch : Nat) :
    Option (UNIT × Int × List Int) :=
  (readCoupling ch unit inputs).bind fun r =>
    (r.1.channelSettings[ch]?).bind fun s =>
      if s.DCcoupled ≠ 99 then
        (updateSettings r.1 ch fun s => { s with enabled := 1 }).map fun u =>
          (u, toInt32 (count + 1), r.2)
      else
        (updateSettings r.1 ch fun s => { s with enabled := 0, DCcoupled := 0 }).map fun u =>
          (u, count, r.2)

/-- The first `n` iterations of the `for` loop of lines 1504-1529. -/
def couplingChannels (unit : UNIT) (count : Int) (inputs : List Int) :
    Nat → Option (UNIT × Int × List Int)
  | 0 => some (unit, count, inputs)
  | n + 1 =>
    (couplingChannels unit count inputs n).bind fun r => couplingChannel r.1 r.2.1 r.2.2 n

/-- The two nested `do ... while` loops shared by `setVoltages` (lines 1616-1696) and
`setCoupling` (lines 1496-1578).  `pass` is one run of the `for` loop over the valid channels,
started with `count = 0`; the pass is repeated while no channel is enabled; then the resolution
is read from the driver (`resolutions` lists the values of successive reads) and everything is
repeated when more than two channels are enabled at 15 bit or more than one at 16 bit.  The
first argument bounds the number of passes; the result is `none` when it or the input runs
out. -/
def settingsLoop (pass : UNIT → List Int → Option (UNIT × Int × List Int)) :
    Nat → UNIT → List Int → List Int → Option UNIT
  | 0, _, _, _ => none
  | fuel + 1, unit, inputs, resolutions =>
    match pass unit inputs with
    | none => none
    | some (u, count, rest) =>
      if count = 0 then settingsLoop pass fuel u rest resolutions
      else
        match resolutions with
        | [] => none
        | resolution :: more =>
          if (resolution = PS5000A_DR_15BIT ∧ count > 2) ∨
              (resolution = PS5000A_DR_16BIT ∧ count > 1) then
            settingsLoop pass fuel u rest more
          else some u

/-- The number of channels `setVoltages` and `setCoupling` ask about (lines 1594-1606);
`powerStatus` is the answer of `ps5000aCurrentPowerSource`. -/
def numValidChannels (unit : UNIT) (powerStatus : PICO_STATUS) : Int :=
  if unit.channelCount = QUAD_SCOPE ∧ powerStatus = PICO_POWER_SUPPLY_NOT_CONNECTED then
    DUAL_SCOPE
  else toInt16 unit.channelCount

/-- The C function `setVoltages` (lines 1586-1699) on the numbers `inputs` read by successive
`scanf_s` calls.  Every pass over at least one channel reads a number, so the passes are bounded
by the length of the input; with no valid channel the loop does not end. -/
def setVoltages (unit : UNIT) (powerStatus : PICO_STATUS) (inputs resolutions : List Int) :
    Option UNIT :=
  settingsLoop
    (fun u rest => voltageChannels u 0 rest (numValidChannels unit powerStatus).toNat)
    (inputs.length + 1) unit inputs resolutions

/-- The C function `setCoupling` (lines 1468-1581), in the same way. -/
def setCoupling (unit : UNIT) (powerStatus : PICO_STATUS) (inputs resolutions : List Int) :
    Option UNIT :=
  settingsLoop
    (fun u rest => couplingChannels u 0 rest (numValidChannels unit powerStatus).toNat)
    (inputs.length + 1) unit inputs resolutions

/-- One use of the main menu's options for the channel settings, with the input it is given. -/
inductive SettingsOperation where
  | setVoltages (powerStatus : PICO_STATUS) (inputs resolutions : List Int)
  | setCoupling (powerStatus : PICO_STATUS) (inputs resolutions : List Int)
  deriving DecidableEq, Repr

/-- The unit after a sequence of `setVoltages` and `setCoupling` operations that all complete. -/
def applyOperations : UNIT → List SettingsOperation → Option UNIT
  | unit, [] => some unit
  | unit, .setVoltages powerStatus inputs resolutions :: more =>
    (setVoltages unit powerStatus inputs resolutions).bind fun u => applyOperations u more
  | unit, .setCoupling powerStatus inputs resolutions :: more =>
    (setCoupling unit powerStatus inputs resolutions).bind fun u => applyOperations u more

/-- A unit as declared, before `set_info` and `handleDevice` have run: five channel settings
(the code indexes entries 0 to 4), all fields zero. -/
def blankUnit : UNIT :=
  { firstRange := 0, lastRange := 0, channelCount := 0, maxADCValue := 0,
    channelSettings := List.replicate 5 { DCcoupled := 0, range := 0, enabled := 0, analogueOffset := 0 },
    resolution := 0 }

/-- The range index of the settings `s` is within the ranges of the unit's model. -/
def rangeValid (unit : UNIT) (s : CHANNEL_SETTINGS) : Prop :=
  unit.firstRange ≤ s.range ∧ s.range ≤ unit.lastRange

/-- The two states in which `setVoltages` leaves a channel: enabled with a range of the model, or
switched off with the range index `PS5000A_MAX_RANGES - 1`. -/
def settled (unit : UNIT) (s : CHANNEL_SETTINGS) : Prop :=
  (s.enabled = 1 ∧ rangeValid unit s) ∨ (s.enabled = 0 ∧ s.range = PS5000A_MAX_RANGES - 1)

/-- Every channel of the unit has a range index of the model or the index
`PS5000A_MAX_RANGES - 1`. -/
def rangesValidOrParked (unit : UNIT) : Prop :=
  ∀ (i : Nat) (s : CHANNEL_SETTINGS), i < unit.channelCount.toNat →
    unit.channelSettings[i]? = some s → rangeValid unit s ∨ s.range = PS5000A_MAX_RANGES - 1

/-- The two units are of the same model: same ranges and same number of channels. -/
def sameModel (unit unit1 : UNIT) : Prop :=
  unit1.firstRange = unit.firstRange ∧ unit1.lastRange = unit.lastRange ∧
    unit1.channelCount = unit.channelCount

/-- The two units are of the same model and every channel has the same range index in both. -/
def sameRanges (unit unit1 : UNIT) : Prop :=
  sameModel unit unit1 ∧
    ∀ i : Nat, (unit1.channelSettings[i]?).map (fun s => s.range) =
      (unit.channelSettings[i]?).map (fun s => s.range)

/-- The unit of a two-channel device after `set_info` and the defaults of `handleDevice`. -/
def defaultDualUnit : UNIT :=
  { firstRange := 0, lastRange := 10, channelCount := 2, maxADCValue := 32767,
    channelSettings :=
      [ { DCcoupled := 0, range := 8, enabled := 1, analogueOffset := 0 },
        { DCcoupled := 0, range := 8, enabled := 1, analogueOffset := 0 },
        { DCcoupled := 0, range := 0, enabled := 0, analogueOffset := 0 },
        { DCcoupled := 0, range := 0, enabled := 0, analogueOffset := 0 },
        { DCcoupled := 0, range := 0, enabled := 1, analogueOffset := 0 } ],
    resolution := 0 }

/-- The unit `defaultDualUnit` with channel A switched off by `setVoltages` and enabled again by
`setCoupling`: range index 11 on an enabled channel, DC coupling on both channels, channel B at
range 7. -/
def parkedRangeUnit : UNIT :=
  { firstRange := 0, lastRange := 10, channelCount := 2, maxADCValue := 32767,
    channelSettings :=
      [ { DCcoupled := 1, range := 11, enabled := 1, analogueOffset := 0 },
        { DCcoupled := 1, range := 7, enabled := 1, analogueOffset := 0 },
        { DCcoupled := 0, range := 0, enabled := 0, analogueOffset := 0 },
        { DCcoupled := 0, range := 0, enabled := 0, analogueOffset := 0 },
        { DCcoupled := 0, range := 0, enabled := 1, analogueOffset := 0 } ],
    resolution := 0 }

/-! ## The trigger of `collectStreamingTriggered` and `collectRapidBlock` -/

/-- Modelled from the spec: the enumerator `PS5000A_CONDITION_TRUE` of `ps5000aApi.h` (not among
the sources). -/
def PS5000A_CONDITION_TRUE : Int := 1

/-- Modelled from the spec: the enumerator `PS5000A_RISING` of `ps5000aApi.h` (not among the
sources). -/
def PS5000A_RISING : Int := 2

/-- Modelled from the spec: the enumerator `PS5000A_LEVEL` of `ps5000aApi.h` (not among the
sources). -/
def PS5000A_LEVEL : Int := 0

/-- The trigger voltage and threshold both functions compute (lines 1034-1037 and 1072-1081,
lines 1956-1959 and 1981-1988): `triggerVoltage` starts at 500 mV, `voltageRange` is the table
entry of the trigger channel's range converted to `int16_t`, the voltage is replaced by half the
range when it is greater than the range, and the threshold is `mv_to_adc` of the voltage.  The
result is the pair of `triggerVoltage` and `triggerThreshold`, or `none` when a read is outside
an array. -/
def triggerLevel (unit : UNIT) (triggerChannel : Nat) : Option (Int × Int) :=
  (unit.channelSettings[triggerChannel]?).bind fun settings =>
    if settings.range < 0 then none
    else
      (inputRanges[settings.range.toNat]?).bind fun range =>
        let voltageRange := toInt16 range
        let triggerVoltage :=
          if 500 > voltageRange then toInt16 (Int.tdiv voltageRange 2) else 500
        (mv_to_adc triggerVoltage settings.range unit).map fun triggerThreshold =>
          (triggerVoltage, triggerThreshold)

/-- The arguments both functions pass to `setTrigger` (lines 1084-1097 and 1110, lines 1991-2004
and 2016): one property with the threshold and a hysteresis of `256 * 10`, one condition, one
rising level direction, the zeroed pulse-width qualifier, no delay and no auto-trigger. -/
def triggerFor (triggerChannel : Nat) (triggerThreshold : Int) : TriggerArgs :=
  { channelProperties :=
      [{ thresholdUpper := triggerThreshold, thresholdUpperHysteresis := 256 * 10,
         thresholdLower := triggerThreshold, thresholdLowerHysteresis := 256 * 10,
         channel := triggerChannel }],
    nChannelProperties := 1,
    triggerConditions := [{ source := triggerChannel, condition := PS5000A_CONDITION_TRUE }],
    nTriggerConditions := 1,
    directions :=
      [{ source := triggerChannel, direction := PS5000A_RISING, mode := PS5000A_LEVEL }],
    nDirections := 1,
    pwq := { pwqConditions := [], nPwqConditions := 0, pwqDirections := [], nPwqDirections := 0,
             lower := 0, upper := 0, type := 0 },
    delay := 0, autoTriggerUs := 0 }

/-- The C function `collectStreamingTriggered` (lines 1954-2019) up to its call of `setTrigger`:
the arguments of that call, or `some none` when the function returns because channel A is not
enabled (line 1977), or `none` when a read is outside an array. -/
def collectStreamingTriggered (unit : UNIT) : Option (Option TriggerArgs) :=
  (triggerLevel unit PS5000A_CHANNEL_A).bind fun level =>
    (unit.channelSettings[PS5000A_CHANNEL_A]?).map fun settings =>
      if settings.enabled = 0 then none else some (triggerFor PS5000A_CHANNEL_A level.2)

/-- What `collectRapidBlock` has fixed when the menu is left: the arguments of its call of
`setTrigger` (line 1110), `nSamples` (line 1022), the number of captures (line 1125) and the
sample counts of the block run (line 1149). -/
structure RapidBlockPlan where
  trigger : TriggerArgs
  nSamples : Int
  nCaptures : Int
  noOfPreTriggerSamples : Int
  noOfPostTriggerSamples : Int
  deriving DecidableEq, Repr

/-- Lines 1019-1149 of `collectRapidBlock`, entered with the state `m` in which the menu was
left; `none` when a read is outside an array. -/
def rapidBlockPlan (m : MenuState) (unit : UNIT) : Option RapidBlockPlan :=
  (triggerLevel unit PS5000A_EXTERNAL).map fun level =>
    { trigger := triggerFor PS5000A_EXTERNAL level.2,
      nSamples := toUInt32 m.num_of_points,
      nCaptures := toUInt32 m.num_of_waveforms,
      noOfPreTriggerSamples := m.num_of_points_pre_trigger,
      noOfPostTriggerSamples := m.num_of_points_post_trigger }

/-- A unit whose five channel settings, the external input included, are enabled with the range
index `range`. -/
def unitWithRange (range maxADCValue : Int) : UNIT :=
  { firstRange := 0, lastRange := 10, channelCount := 4, maxADCValue := maxADCValue,
    channelSettings :=
      List.replicate 5 { DCcoupled := 1, range := range, enabled := 1, analogueOffset := 0 },
    resolution := 0 }

/-! ## Theorems -/

/-! ### Machine integers -/

theorem toInt16_of_fits {x : Int} (h1 : -32768 ≤ x) (h2 : x ≤ 32767) : toInt16 x = x := by
  unfold toInt16; omega

theorem toInt32_of_fits {x : Int} (h1 : -2147483648 ≤ x) (h2 : x ≤ 2147483647) :
    toInt32 x = x := by
  unfold toInt32; omega

/-- Every entry of `inputRanges` lies between 10 and 50000. -/
theorem inputRanges_bounds {r : Nat} {range : Int} (h : inputRanges[r]? = some range) :
    10 ≤ range ∧ range ≤ 50000 := by
  have hr : r < 12 := by
    by_contra hc
    have : inputRanges[r]? = none := List.getElem?_eq_none (by simp [inputRanges]; omega)
    simp [this] at h
  interval_cases r <;> simp [inputRanges] at h <;> omega

theorem inputRanges_some {r : Nat} (h : r ≤ 11) : ∃ range, inputRanges[r]? = some range := by
  interval_cases r <;> simp [inputRanges]

/-- Truncating division does not increase the magnitude. -/
theorem tdiv_abs_le (a b : Int) : |Int.tdiv a b| ≤ |a| := by
  rw [Int.abs_eq_natAbs, Int.abs_eq_natAbs, Int.natAbs_tdiv]
  exact_mod_cast Nat.div_le_self _ _

/-- The product of an `int16_t` value and a table entry fits 32 bits. -/
theorem mul_range_fits {a range : Int} (ha1 : -32768 ≤ a) (ha2 : a ≤ 32767)
    (hr1 : 0 ≤ range) (hr2 : range ≤ 50000) :
    -1638400000 ≤ a * range ∧ a * range ≤ 1638350000 := by
  have h1 : 0 ≤ (32767 - a) * range := mul_nonneg (by omega) hr1
  have h2 : 0 ≤ (a + 32768) * range := mul_nonneg (by omega) hr1
  constructor <;> nlinarith

/-- The product of two `int16_t` values fits 32 bits. -/
theorem mul_int16_fits {a b : Int} (ha1 : -32768 ≤ a) (ha2 : a ≤ 32767)
    (hb1 : -32768 ≤ b) (hb2 : b ≤ 32767) :
    -2147483648 ≤ a * b ∧ a * b ≤ 2147483647 := by
  have h1 : 0 ≤ (32767 - a) * (32767 - b) := mul_nonneg (by omega) (by omega)
  have h2 : 0 ≤ (a + 32768) * (b + 32768) := mul_nonneg (by omega) (by omega)
  have h3 : 0 ≤ (32767 - a) * (b + 32768) := mul_nonneg (by omega) (by omega)
  have h4 : 0 ≤ (a + 32768) * (32767 - b) := mul_nonneg (by omega) (by omega)
  constructor <;> nlinarith

/-- A truncated quotient of a 32-bit value by a non-zero 16-bit value other than the
overflowing `INT_MIN / -1` fits 32 bits. -/
theorem tdiv_fits {a b : Int} (ha1 : -2147483648 < a) (ha2 : a ≤ 2147483647) :
    -2147483648 ≤ Int.tdiv a b ∧ Int.tdiv a b ≤ 2147483647 := by
  have h := tdiv_abs_le a b
  have h1 : |a| ≤ 2147483647 := abs_le.mpr ⟨by omega, ha2⟩
  have h2 := abs_le.mp (le_trans h h1)
  omega

/-- Round trip over non-negative integers: flooring twice loses at most `M / R + 1`. -/
theorem roundTrip_nonneg (c R M : Int) (hc : 0 ≤ c) (hR : 0 < R) (hM : 0 < M) :
    0 ≤ c * R / M ∧ 0 ≤ c * R / M * M / R ∧ c * R / M * M / R ≤ c ∧
      c ≤ c * R / M * M / R + M / R + 1 := by
  have hcR : 0 ≤ c * R := mul_nonneg hc hR.le
  have hq0 : 0 ≤ c * R / M := Int.ediv_nonneg hcR hM.le
  have hqM : 0 ≤ c * R / M * M := mul_nonneg hq0 hM.le
  have ha0 : 0 ≤ c * R / M * M / R := Int.ediv_nonneg hqM hR.le
  have h1 : c * R / M * M ≤ c * R := Int.ediv_mul_le _ hM.ne'
  have h2 : c * R < (c * R / M + 1) * M := Int.lt_ediv_add_one_mul_self _ hM
  have h3 : c * R / M * M / R * R ≤ c * R / M * M := Int.ediv_mul_le _ hR.ne'
  have h4 : c * R / M * M < (c * R / M * M / R + 1) * R := Int.lt_ediv_add_one_mul_self _ hR
  have h5 : M < (M / R + 1) * R := Int.lt_ediv_add_one_mul_self _ hR
  refine ⟨hq0, ha0, ?_, ?_⟩
  · have : c * R / M * M / R * R ≤ c * R := le_trans h3 h1
    exact le_of_mul_le_mul_right this hR
  · have h6 : c * R < (c * R / M * M / R + M / R + 2) * R := by nlinarith
    have := lt_of_mul_lt_mul_right h6 hR.le
    omega

/-- A count of magnitude at most `M` scales to at most `R` millivolts. -/
theorem scaled_le_range (c R M : Int) (hcM : c ≤ M) (hR : 0 < R) (hM : 0 < M) :
    c * R / M ≤ R := by
  have h1 : c * R / M * M ≤ c * R := Int.ediv_mul_le _ hM.ne'
  have h2 : c * R ≤ M * R := mul_le_mul_of_nonneg_right hcM hR.le
  have h3 : c * R / M * M ≤ R * M := by linarith
  exact le_of_mul_le_mul_right h3 hM

/-- The round trip with truncating division, for counts of either sign. -/
theorem roundTrip_arith (code R M : Int) (hR : 0 < R) (hM : 0 < M) :
    |Int.tdiv (Int.tdiv (code * R) M * M) R| ≤ |code| ∧
      |Int.tdiv (Int.tdiv (code * R) M * M) R - code| ≤ M / R + 1 ∧
      (|code| ≤ M → |Int.tdiv (code * R) M| ≤ R) := by
  have key : ∀ c : Int, 0 ≤ c →
      Int.tdiv (c * R) M = c * R / M ∧
      Int.tdiv (Int.tdiv (c * R) M * M) R = c * R / M * M / R := by
    intro c hc
    have hcR : 0 ≤ c * R := mul_nonneg hc hR.le
    have e1 : Int.tdiv (c * R) M = c * R / M := Int.tdiv_eq_ediv hcR hM.le
    have hq0 : 0 ≤ c * R / M := Int.ediv_nonneg hcR hM.le
    refine ⟨e1, ?_⟩
    rw [e1]
    exact Int.tdiv_eq_ediv (mul_nonneg hq0 hM.le) hR.le
  rcases le_total 0 code with h | h
  · obtain ⟨e1, e2⟩ := key code h
    obtain ⟨hq0, ha0, hac, hca⟩ := roundTrip_nonneg code R M h hR hM
    rw [e2, e1, abs_of_nonneg ha0, abs_of_nonneg h, abs_of_nonneg hq0]
    refine ⟨hac, ?_, fun hcM => scaled_le_range code R M hcM hR hM⟩
    rw [abs_le]; constructor <;> omega
  · obtain ⟨c, rfl⟩ : ∃ c : Int, code = -c := ⟨-code, by ring⟩
    have hc : 0 ≤ c := by omega
    obtain ⟨e1, e2⟩ := key c hc
    obtain ⟨hq0, ha0, hac, hca⟩ := roundTrip_nonneg c R M hc hR hM
    have f1 : Int.tdiv (-c * R) M = -(c * R / M) := by
      rw [neg_mul, Int.neg_tdiv, e1]
    have f2 : Int.tdiv (Int.tdiv (-c * R) M * M) R = -(c * R / M * M / R) := by
      rw [f1, neg_mul, Int.neg_tdiv, Int.tdiv_eq_ediv (mul_nonneg hq0 hM.le) hR.le]
    rw [f2, f1, abs_neg, abs_neg, abs_neg, abs_of_nonneg ha0, abs_of_nonneg hc,
      abs_of_nonneg hq0]
    refine ⟨hac, ?_, fun hcM => scaled_le_range c R M hcM hR hM⟩
    rw [abs_le]; constructor <;> omega

/-! ### ADC counts and millivolts -/

/-- Value of `adc_to_mv` on a 16-bit raw count: no wrap-around occurs. -/
theorem adc_to_mv_eq {raw r range : Int} {unit : UNIT}
    (hraw1 : -32768 ≤ raw) (hraw2 : raw ≤ 32767) (hr : 0 ≤ r)
    (hrange : inputRanges[r.toNat]? = some range) (hM : unit.maxADCValue ≠ 0) :
    toInt32 (raw * range) = raw * range ∧
      adc_to_mv raw r unit = some (Int.tdiv (raw * range) unit.maxADCValue) := by
  have hb := inputRanges_bounds hrange
  have hp := mul_range_fits hraw1 hraw2 (by omega) hb.2
  have hw : toInt32 (raw * range) = raw * range :=
    toInt32_of_fits (by linarith [hp.1]) (by linarith [hp.2])
  have hq := tdiv_fits (a := raw * range) (b := unit.maxADCValue)
    (by linarith [hp.1]) (by linarith [hp.2])
  refine ⟨hw, ?_⟩
  have hneg : ¬ r < 0 := by omega
  simp only [adc_to_mv, hneg, if_false, hrange, hM, hw]
  rw [toInt32_of_fits hq.1 hq.2]

/-- Value of `mv_to_adc` on a 16-bit millivolt value: only the conversion of the quotient to
the `int16_t` return type remains. -/
theorem mv_to_adc_eq {mv r range : Int} {unit : UNIT}
    (hmv1 : -32768 ≤ mv) (hmv2 : mv ≤ 32767) (hr1 : 0 ≤ r) (hr2 : r ≤ 11)
    (hrange : inputRanges[r.toNat]? = some range)
    (hM1 : -32768 ≤ unit.maxADCValue) (hM2 : unit.maxADCValue ≤ 32767) :
    mv_to_adc mv r unit = some (toInt16 (Int.tdiv (mv * unit.maxADCValue) range)) := by
  have hp := mul_int16_fits hmv1 hmv2 hM1 hM2
  have hr16 : toInt16 r = r := toInt16_of_fits (by omega) (by omega)
  have hneg : ¬ r < 0 := by omega
  simp only [mv_to_adc, toInt16_of_fits hmv1 hmv2, hr16, hneg, if_false, hrange,
    toInt32_of_fits hp.1 hp.2]

/-- Claim C5. For every raw sample in the `int16_t` range, every range index `0..11` and every
non-zero `int16_t` `maxADCValue`, the 32-bit product `raw * inputRanges[r]` does not overflow and
`adc_to_mv` returns exactly the quotient of `raw * inputRanges[r]` by `maxADCValue`, truncated
toward zero and computed over the integers. -/
theorem adc_to_mv_exact (raw r : Int) (unit : UNIT)
    (hraw : -32768 ≤ raw ∧ raw ≤ 32767) (hr : 0 ≤ r ∧ r ≤ 11)
    (hM : unit.maxADCValue ≠ 0 ∧ -32768 ≤ unit.maxADCValue ∧ unit.maxADCValue ≤ 32767) :
    ∃ range, inputRanges[r.toNat]? = some range ∧
      toInt32 (raw * range) = raw * range ∧
      adc_to_mv raw r unit = some (Int.tdiv (raw * range) unit.maxADCValue) := by
  obtain ⟨range, hrange⟩ := inputRanges_some (r := r.toNat) (by omega)
  exact ⟨range, hrange, adc_to_mv_eq hraw.1 hraw.2 hr.1 hrange hM.1⟩

/-- Witness for C5: a raw count of 16384 on the 5 V range with `maxADCValue = 32767`. -/
theorem adc_to_mv_exact_witness :
    ∃ range, inputRanges[(8 : Int).toNat]? = some range ∧
      toInt32 (16384 * range) = 16384 * range ∧
      adc_to_mv 16384 8 (unitWithMax 32767)
        = some (Int.tdiv (16384 * range) (unitWithMax 32767).maxADCValue) :=
  adc_to_mv_exact 16384 8 (unitWithMax 32767) (by decide) (by decide) (by decide)

/-- Counterexample to C6 as stated: 500 mV on the 10 mV range with `maxADCValue = 32767` has
the quotient 1638350, but `mv_to_adc` returns -50, the quotient reduced to 16 bits. -/
theorem mv_to_adc_not_quotient :
    Int.tdiv (500 * (unitWithMax 32767).maxADCValue) 10 = 1638350 ∧
      mv_to_adc 500 0 (unitWithMax 32767) = some (-50) ∧
      mv_to_adc 500 0 (unitWithMax 32767)
        ≠ some (Int.tdiv (500 * (unitWithMax 32767).maxADCValue) 10) := by
  decide

/-- Claim C6, amended. For every `int16_t` millivolt value, every range index `0..11` and every
`maxADCValue` in `1..32767`, `mv_to_adc` returns the quotient of `mv * maxADCValue` by
`inputRanges[r]`, truncated toward zero, reduced to the `int16_t` return type; the result is the
quotient itself exactly when the quotient lies in `-32768..32767`, which is the case whenever
`|mv| ≤ inputRanges[r]`. -/
theorem mv_to_adc_wrapped (mv r : Int) (unit : UNIT)
    (hmv : -32768 ≤ mv ∧ mv ≤ 32767) (hr : 0 ≤ r ∧ r ≤ 11)
    (hM : 1 ≤ unit.maxADCValue ∧ unit.maxADCValue ≤ 32767) :
    ∃ range, inputRanges[r.toNat]? = some range ∧
      mv_to_adc mv r unit = some (toInt16 (Int.tdiv (mv * unit.maxADCValue) range)) ∧
      (mv_to_adc mv r unit = some (Int.tdiv (mv * unit.maxADCValue) range) ↔
        -32768 ≤ Int.tdiv (mv * unit.maxADCValue) range ∧
          Int.tdiv (mv * unit.maxADCValue) range ≤ 32767) ∧
      (|mv| ≤ range →
        mv_to_adc mv r unit = some (Int.tdiv (mv * unit.maxADCValue) range)) := by
  obtain ⟨range, hrange⟩ := inputRanges_some (r := r.toNat) (by omega)
  have hb := inputRanges_bounds hrange
  have heq := mv_to_adc_eq hmv.1 hmv.2 hr.1 hr.2 hrange (by omega) hM.2
  have hiff : mv_to_adc mv r unit = some (Int.tdiv (mv * unit.maxADCValue) range) ↔
      -32768 ≤ Int.tdiv (mv * unit.maxADCValue) range ∧
        Int.tdiv (mv * unit.maxADCValue) range ≤ 32767 := by
    rw [heq, Option.some.injEq]
    constructor
    · intro h
      rw [← h]; unfold toInt16; omega
    · intro h
      exact toInt16_of_fits h.1 h.2
  refine ⟨range, hrange, heq, hiff, fun habs => hiff.mpr ?_⟩
  have h1 := (roundTrip_arith mv unit.maxADCValue range (by omega) (by omega)).2.2 habs
  have h2 := abs_le.mp h1
  omega

/-- Witness for C6 (amended): 500 mV on the 5 V range with `maxADCValue = 32767`. -/
theorem mv_to_adc_wrapped_witness :
    ∃ range, inputRanges[(8 : Int).toNat]? = some range ∧
      mv_to_adc 500 8 (unitWithMax 32767)
        = some (toInt16 (Int.tdiv (500 * (unitWithMax 32767).maxADCValue) range)) ∧
      (mv_to_adc 500 8 (unitWithMax 32767)
          = some (Int.tdiv (500 * (unitWithMax 32767).maxADCValue) range) ↔
        -32768 ≤ Int.tdiv (500 * (unitWithMax 32767).maxADCValue) range ∧
          Int.tdiv (500 * (unitWithMax 32767).maxADCValue) range ≤ 32767) ∧
      (|(500 : Int)| ≤ range →
        mv_to_adc 500 8 (unitWithMax 32767)
          = some (Int.tdiv (500 * (unitWithMax 32767).maxADCValue) range)) :=
  mv_to_adc_wrapped 500 8 (unitWithMax 32767) (by decide) (by decide) (by decide)

/-- Range indices up to 10 have a full scale of at most 20 V; index 11 is the 50 V range. -/
theorem inputRanges_cases {r : Nat} {range : Int} (h : inputRanges[r]? = some range) :
    (r ≤ 10 ∧ range ≤ 20000) ∨ (r = 11 ∧ range = 50000) := by
  have hr : r < 12 := by
    by_contra hc
    have : inputRanges[r]? = none := List.getElem?_eq_none (by simp [inputRanges]; omega)
    simp [this] at h
  interval_cases r <;> simp [inputRanges] at h <;> omega

/-- Counterexample to C4 as stated: with `maxADCValue = 32767` on the 10 mV range the code 1000
converts to 0 mV and back to 0, a thousand counts away. -/
theorem roundTrip_off_by_1000 :
    adc_to_mv 1000 0 (unitWithMax 32767) = some 0 ∧
      ∃ adc, roundTrip 1000 0 (unitWithMax 32767) = some adc ∧ 1 < |adc - 1000| :=
  ⟨by decide, 0, by decide, by norm_num⟩

/-- Claim C4, amended. For every `maxADCValue` in `1..32767`, every range index `0..11` and every
ADC code with `-maxADCValue ≤ code ≤ maxADCValue` whose millivolt value fits the `int16_t`
parameter of `mv_to_adc` (always so for the indices `0..10`), the round trip
`mv_to_adc(adc_to_mv(code, r, unit), r, unit)` is no larger in magnitude than `code` and differs
from it by at most `maxADCValue / inputRanges[r] + 1`; it is within one count when
`inputRanges[r]` exceeds `maxADCValue`. -/
theorem roundTrip_bound (code r : Int) (unit : UNIT)
    (hM : 1 ≤ unit.maxADCValue ∧ unit.maxADCValue ≤ 32767) (hr : 0 ≤ r ∧ r ≤ 11)
    (hcode : -unit.maxADCValue ≤ code ∧ code ≤ unit.maxADCValue)
    (hfit : r ≤ 10 ∨ |Int.tdiv (code * 50000) unit.maxADCValue| ≤ 32767) :
    ∃ range adc, inputRanges[r.toNat]? = some range ∧
      roundTrip code r unit = some adc ∧
      |adc| ≤ |code| ∧
      |adc - code| ≤ unit.maxADCValue / range + 1 ∧
      (unit.maxADCValue < range → |adc - code| ≤ 1) := by
  obtain ⟨range, hrange⟩ := inputRanges_some (r := r.toNat) (by omega)
  have hb := inputRanges_bounds hrange
  have hMpos : 0 < unit.maxADCValue := by omega
  have hRpos : 0 < range := by omega
  obtain ⟨h1, h2, h3⟩ := roundTrip_arith code range unit.maxADCValue hRpos hMpos
  have hcabs : |code| ≤ unit.maxADCValue := abs_le.mpr hcode
  have hmv := (@adc_to_mv_eq code r range unit
    (by omega) (by omega) hr.1 hrange (by omega)).2
  -- the millivolt value fits the 16-bit parameter
  have hmvfit : |Int.tdiv (code * range) unit.maxADCValue| ≤ 32767 := by
    rcases inputRanges_cases hrange with ⟨_, hle⟩ | ⟨h11, h50⟩
    · exact le_trans (h3 hcabs) (by omega)
    · rcases hfit with h | h
      · omega
      · rw [h50]; exact h
  have hmv16 := abs_le.mp hmvfit
  have hadc := @mv_to_adc_eq (Int.tdiv (code * range) unit.maxADCValue) r range unit
    (by omega) hmv16.2 hr.1 hr.2 hrange (by omega) hM.2
  have hadc16 := abs_le.mp (le_trans h1 hcabs)
  rw [toInt16_of_fits (by omega) (by omega)] at hadc
  refine ⟨range, _, hrange, ?_, h1, h2, ?_⟩
  · simp only [roundTrip, hmv, Option.bind]
    exact hadc
  · intro hlt
    have : unit.maxADCValue / range = 0 := Int.ediv_eq_zero_of_lt (by omega) hlt
    rw [this] at h2
    simpa using h2

/-- Witness for C4 (amended): code 16384 on the 5 V range with `maxADCValue = 32767`. -/
theorem roundTrip_bound_witness :
    ∃ range adc, inputRanges[(8 : Int).toNat]? = some range ∧
      roundTrip 16384 8 (unitWithMax 32767) = some adc ∧
      |adc| ≤ |(16384 : Int)| ∧
      |adc - 16384| ≤ (unitWithMax 32767).maxADCValue / range + 1 ∧
      ((unitWithMax 32767).maxADCValue < range → |adc - 16384| ≤ 1) :=
  roundTrip_bound 16384 8 (unitWithMax 32767) (by decide) (by decide) (by decide)
    (Or.inl (by decide))

/-! ### Streaming callback -/

/-- Elementwise description of `memcpy_s` on a range inside both buffers. -/
theorem memcpy_s_eq (dst src : List Int) (startIndex noOfSamples : Int)
    (hs : 0 ≤ startIndex) (hn : 0 ≤ noOfSamples)
    (hd : startIndex + noOfSamples ≤ dst.length) (hsrc : startIndex + noOfSamples ≤ src.length) :
    memcpy_s dst src startIndex noOfSamples =
      some (dst.mapIdx fun i x =>
        if startIndex ≤ (i : Int) ∧ (i : Int) < startIndex + noOfSamples then src.getD i x
        else x) := by
  obtain ⟨s, rfl⟩ := Int.eq_ofNat_of_zero_le hs
  obtain ⟨n, rfl⟩ := Int.eq_ofNat_of_zero_le hn
  have hd' : s + n ≤ dst.length := by omega
  have hsrc' : s + n ≤ src.length := by omega
  have hc : (0 : Int) ≤ (s : Int) ∧ (0 : Int) ≤ (n : Int) ∧
      s + n ≤ dst.length ∧ s + n ≤ src.length := by omega
  simp only [memcpy_s, Int.toNat_ofNat, if_pos hc, Option.some.injEq]
  apply List.ext_getElem?
  intro i
  rw [List.getElem?_mapIdx]
  by_cases h1 : i < s
  · rw [List.getElem?_append_left (by simp; omega), List.getElem?_take_of_lt h1]
    have : ¬ ((s : Int) ≤ (i : Int) ∧ (i : Int) < (s : Int) + (n : Int)) := by omega
    simp only [this, if_false]
    cases dst[i]? <;> rfl
  · have hl : (List.take s dst).length = s := by simp; omega
    rw [List.getElem?_append_right (by omega), hl]
    by_cases h2 : i < s + n
    · have hl2 : (List.take n (List.drop s src)).length = n := by simp; omega
      rw [List.getElem?_append_left (by omega), List.getElem?_take_of_lt (by omega),
        List.getElem?_drop]
      have e : s + (i - s) = i := by omega
      have hc2 : (s : Int) ≤ (i : Int) ∧ (i : Int) < (s : Int) + (n : Int) := by omega
      simp only [e, hc2, and_self, if_true]
      have hi1 : i < dst.length := by omega
      have hi2 : i < src.length := by omega
      rw [List.getElem?_eq_getElem hi1, List.getElem?_eq_getElem hi2]
      simp [List.getD, List.getElem?_eq_getElem hi2]
    · have hl2 : (List.take n (List.drop s src)).length = n := by simp; omega
      rw [List.getElem?_append_right (by omega), hl2, List.getElem?_drop]
      have e : s + n + (i - s - n) = i := by omega
      have : ¬ ((s : Int) ≤ (i : Int) ∧ (i : Int) < (s : Int) + (n : Int)) := by omega
      simp only [e, this, if_false]
      cases dst[i]? <;> rfl

/-- Storing the element already present changes nothing. -/
theorem set_same {α : Type} (l : List α) (k : Nat) (h : k < l.length) : l.set k l[k] = l := by
  apply List.ext_getElem?
  intro j
  rw [List.getElem?_set]
  split
  · next hkj => subst hkj; simp [h]
  · rfl

/-- One guarded copy, inside the capacity, stores `copiedSlot` at index `k`. -/
theorem copySlot_eq (A drv : List Buffer) (k : Nat) (startIndex noOfSamples : Int)
    (hs : 0 ≤ startIndex) (hn : 0 ≤ noOfSamples) (hkA : k < A.length) (hkd : k < drv.length)
    (hfit : slotFits startIndex noOfSamples (A.getD k none) (drv.getD k none) = true) :
    copySlot A drv k startIndex noOfSamples =
      some (A.set k (copiedSlot startIndex noOfSamples (A.getD k none) (drv.getD k none))) := by
  have hA : A[k]? = some A[k] := List.getElem?_eq_getElem hkA
  have hd : drv[k]? = some drv[k] := List.getElem?_eq_getElem hkd
  have hAD : A.getD k none = A[k] := by simp [List.getD, hA]
  have hdD : drv.getD k none = drv[k] := by simp [List.getD, hd]
  rw [hAD, hdD] at hfit ⊢
  unfold copySlot
  rw [hA, hd]
  rcases hAk : A[k] with _ | dst <;> rcases hdk : drv[k] with _ | src
  · simp only [copiedSlot]; rw [← hAk, set_same A k hkA]
  · simp only [copiedSlot]; rw [← hAk, set_same A k hkA]
  · simp only [copiedSlot]; rw [← hAk, set_same A k hkA]
  · rw [hAk, hdk] at hfit
    simp only [slotFits, Bool.and_eq_true, decide_eq_true_eq] at hfit
    simp only [copiedSlot, memcpy_s_eq dst src startIndex noOfSamples hs hn hfit.1 hfit.2,
      Option.map_some']

theorem channelCopied_zero (unit : UNIT) (c : Nat) : channelCopied unit 0 c = false := by
  simp [channelCopied]

/-- Processing channel `c` adds exactly channel `c`, when enabled, to the copied channels. -/
theorem channelCopied_succ (unit : UNIT) (c x : Nat) (settings : CHANNEL_SETTINGS)
    (hc : unit.channelSettings[c]? = some settings) :
    channelCopied unit (c + 1) x =
      if x = c then (settings.enabled != 0) else channelCopied unit c x := by
  by_cases hx : x = c
  · subst hx; simp [channelCopied, hc]
  · simp only [channelCopied, hx, if_false]
    have : decide (x < c + 1) = decide (x < c) := by
      apply decide_eq_decide.mpr; omega
    rw [this]

/-- Entry `k` of the expected table. -/
theorem expected_getD (unit : UNIT) (app drv : List Buffer) (count : Nat)
    (startIndex noOfSamples : Int) (k : Nat) (hk : k < app.length) :
    (app.mapIdx (expectedSlot unit drv count startIndex noOfSamples)).getD k none =
      expectedSlot unit drv count startIndex noOfSamples k (app.getD k none) := by
  simp [List.getD, List.getElem?_mapIdx, List.getElem?_eq_getElem hk]

theorem expected_zero (unit : UNIT) (app drv : List Buffer) (startIndex noOfSamples : Int) :
    app.mapIdx (expectedSlot unit drv 0 startIndex noOfSamples) = app := by
  apply List.ext_getElem?
  intro j
  rw [List.getElem?_mapIdx]
  cases app[j]? <;> simp [expectedSlot, channelCopied_zero]

/-- The body of the channel loop takes the expected table after `c` channels to the expected
table after `c + 1` channels. -/
theorem copyChannel_step (b : BUFFER_INFO) (app drv : List Buffer) (c : Nat)
    (startIndex noOfSamples : Int) (hs : 0 ≤ startIndex) (hn : 0 ≤ noOfSamples)
    (hdrv : b.driverBuffers = some drv)
    (hc : c < b.unit.channelSettings.length)
    (h2a : 2 * c + 1 < app.length) (h2d : 2 * c + 1 < drv.length)
    (hfit : ∀ k, k < app.length →
      slotFits startIndex noOfSamples (app.getD k none) (drv.getD k none) = true) :
    copyChannel
        { b with appBuffers := some (app.mapIdx (expectedSlot b.unit drv c startIndex noOfSamples)) }
        c startIndex noOfSamples =
      some { b with appBuffers := some (app.mapIdx (expectedSlot b.unit drv (c + 1) startIndex noOfSamples)) } := by
  have hcs : b.unit.channelSettings[c]? = some b.unit.channelSettings[c] :=
    List.getElem?_eq_getElem hc
  have hsucc := fun x => channelCopied_succ b.unit c x _ hcs
  have hcc : channelCopied b.unit c c = false := by simp [channelCopied]
  simp only [copyChannel, hcs, hdrv]
  by_cases hen : b.unit.channelSettings[c].enabled = 0
  · -- disabled channel: nothing is copied and the expected table does not change
    have hfun : expectedSlot b.unit drv (c + 1) startIndex noOfSamples =
        expectedSlot b.unit drv c startIndex noOfSamples := by
      funext k slot
      simp only [expectedSlot, hsucc]
      by_cases hk : k / 2 = c
      · simp [hk, hen, hcc]
      · simp [hk]
    simp [hen, hfun]
  · -- enabled channel: the max slot, then the min slot
    have hen' : (b.unit.channelSettings[c].enabled != 0) = true := by simpa using hen
    have e0 : c * 2 / 2 = c := by omega
    have e1 : (c * 2 + 1) / 2 = c := by omega
    have hA0 := expected_getD b.unit app drv c startIndex noOfSamples (c * 2) (by omega)
    have hA1 := expected_getD b.unit app drv c startIndex noOfSamples (c * 2 + 1) (by omega)
    simp only [expectedSlot, e0, e1, hcc, Bool.false_eq_true, if_false] at hA0 hA1
    have step0 := copySlot_eq (app.mapIdx (expectedSlot b.unit drv c startIndex noOfSamples)) drv
      (c * 2) startIndex noOfSamples hs hn (by simp; omega) (by omega)
      (by rw [hA0]; exact hfit _ (by omega))
    rw [hA0] at step0
    have hA1' : ((app.mapIdx (expectedSlot b.unit drv c startIndex noOfSamples)).set (c * 2)
        (copiedSlot startIndex noOfSamples (app.getD (c * 2) none)
          (drv.getD (c * 2) none))).getD (c * 2 + 1) none = app.getD (c * 2 + 1) none := by
      rw [← hA1]
      simp [List.getD, List.getElem?_set_ne]
    have step1 := copySlot_eq
      ((app.mapIdx (expectedSlot b.unit drv c startIndex noOfSamples)).set (c * 2)
        (copiedSlot startIndex noOfSamples (app.getD (c * 2) none) (drv.getD (c * 2) none)))
      drv (c * 2 + 1) startIndex noOfSamples hs hn
      (by simp; omega) (by omega) (by rw [hA1']; exact hfit _ (by omega))
    rw [hA1'] at step1
    simp only [hen, ne_eq, not_false_eq_true, if_true, step0, Option.bind, step1, Option.map_some',
      Option.some.injEq]
    congr 2
    apply List.ext_getElem?
    intro j
    rw [List.getElem?_set, List.getElem?_set]
    have hj0 : app[c * 2]? = some (app.getD (c * 2) none) := by
      simp [List.getD, List.getElem?_eq_getElem (show c * 2 < app.length by omega)]
    have hj1 : app[c * 2 + 1]? = some (app.getD (c * 2 + 1) none) := by
      simp [List.getD, List.getElem?_eq_getElem (show c * 2 + 1 < app.length by omega)]
    have hlen : (app.mapIdx (expectedSlot b.unit drv c startIndex noOfSamples)).length
        = app.length := List.length_mapIdx
    by_cases h1 : c * 2 + 1 = j
    · subst h1
      rw [if_pos rfl, if_pos (by rw [List.length_set, hlen]; omega), List.getElem?_mapIdx, hj1]
      simp only [Option.map_some', expectedSlot, hsucc, e1, if_pos rfl, hen', if_true]
    · by_cases h0 : c * 2 = j
      · subst h0
        rw [if_neg h1, if_pos rfl, if_pos (by rw [hlen]; omega), List.getElem?_mapIdx, hj0]
        simp only [Option.map_some', expectedSlot, hsucc, e0, if_pos rfl, hen', if_true]
      · have hne : j / 2 ≠ c := by omega
        have hfun : expectedSlot b.unit drv (c + 1) startIndex noOfSamples j =
            expectedSlot b.unit drv c startIndex noOfSamples j := by
          funext slot
          simp only [expectedSlot, hsucc, hne, if_false]
        rw [if_neg h1, if_neg h0, List.getElem?_mapIdx, List.getElem?_mapIdx, hfun]

/-- The channel loop after `count` iterations holds the expected buffers. -/
theorem copyChannels_eq (b : BUFFER_INFO) (startIndex noOfSamples : Int)
    (hs : 0 ≤ startIndex) (hn : 0 ≤ noOfSamples)
    (hcap : inCapacity b startIndex noOfSamples = true) :
    ∀ count, count ≤ b.unit.channelCount.toNat →
      copyChannels startIndex noOfSamples count b =
        some (expectedBuffers b count startIndex noOfSamples) := by
  obtain ⟨unit, drvO, appO⟩ := b
  rcases appO with _ | app
  · -- no application table: nothing is copied
    simp only [inCapacity, Bool.and_true, decide_eq_true_eq] at hcap
    intro count hcount
    induction count with
    | zero => rfl
    | succ c ih =>
      have hc : c < unit.channelSettings.length := by simp only at hcount; omega
      simp only [copyChannels, ih (by omega), Option.bind, expectedBuffers, copyChannel,
        List.getElem?_eq_getElem hc]
      split <;> rfl
  · rcases drvO with _ | drv
    · simp only [inCapacity, Bool.and_true, decide_eq_true_eq] at hcap
      intro count hcount
      induction count with
      | zero => rfl
      | succ c ih =>
        have hc : c < unit.channelSettings.length := by simp only at hcount; omega
        simp only [copyChannels, ih (by omega), Option.bind, expectedBuffers, copyChannel,
          List.getElem?_eq_getElem hc]
        split <;> rfl
    · simp only [inCapacity, Bool.and_eq_true, decide_eq_true_eq, List.all_eq_true,
        List.mem_range] at hcap
      obtain ⟨hlen, ⟨ha, hd⟩, hfit⟩ := hcap
      intro count hcount
      simp only at hcount
      induction count with
      | zero =>
        simp only [copyChannels, expectedBuffers, expected_zero]
      | succ c ih =>
        simp only [copyChannels, ih (by omega), Option.bind, expectedBuffers]
        exact copyChannel_step ⟨unit, some drv, some app⟩ app drv c startIndex noOfSamples hs hn
          rfl (show c < unit.channelSettings.length by omega) (by omega) (by omega) hfit

/-- Claim C1. Buffer-copy exactness of `callBackStreaming`.  For a call with non-null buffer
information, `noOfSamples > 0` and `[startIndex, startIndex + noOfSamples)` inside the buffer
capacity, the call returns, and the buffers afterwards are `expectedBuffers`: the unit and every
driver buffer are unchanged, and the application buffers are those before with, for every
enabled channel below `channelCount` and each of its two buffers bound on both sides, the
elements of the index range replaced by the driver buffer's elements at the same indices
(`expectedSlot`, `copiedSlot`); every other element and buffer is as before.  When
`noOfSamples = 0` or the buffer information is null, no buffer changes. -/
theorem callBackStreaming_exact (a : StreamingArgs) (b : BUFFER_INFO) :
    (0 < a.noOfSamples → 0 ≤ a.startIndex →
      inCapacity b a.startIndex a.noOfSamples = true →
      callBackStreaming a (some b) =
        some (streamingFlags a,
          some (expectedBuffers b b.unit.channelCount.toNat a.startIndex a.noOfSamples))) ∧
    (expectedBuffers b b.unit.channelCount.toNat a.startIndex a.noOfSamples).driverBuffers
      = b.driverBuffers ∧
    (expectedBuffers b b.unit.channelCount.toNat a.startIndex a.noOfSamples).unit = b.unit ∧
    (a.noOfSamples = 0 → callBackStreaming a (some b) = some (streamingFlags a, some b)) ∧
    callBackStreaming a none = some (streamingFlags a, none) := by
  refine ⟨?_, ?_, ?_, ?_, rfl⟩
  · intro hn hs hcap
    have hne : a.noOfSamples ≠ 0 := by omega
    simp only [callBackStreaming, hne, ne_eq, not_false_eq_true, if_true,
      copyChannels_eq b a.startIndex a.noOfSamples hs (by omega) hcap _ (le_refl _),
      Option.map_some']
  · unfold expectedBuffers; split <;> rfl
  · unfold expectedBuffers; split <;> rfl
  · intro h0
    simp [callBackStreaming, h0]

/-- Witness for C1: two samples from index 1 on `sampleBuffers`.  Channel A's two buffers get
the driver's elements at indices 1 and 2; channel B (disabled) keeps its buffers. -/
theorem callBackStreaming_exact_witness :
    callBackStreaming sampleArgs (some sampleBuffers) =
        some (streamingFlags sampleArgs,
          some (expectedBuffers sampleBuffers sampleBuffers.unit.channelCount.toNat
            sampleArgs.startIndex sampleArgs.noOfSamples)) ∧
      (expectedBuffers sampleBuffers sampleBuffers.unit.channelCount.toNat
          sampleArgs.startIndex sampleArgs.noOfSamples).appBuffers =
        some [some [0, 12, 13, 0], some [1, 22, 23, 1], some [2, 2, 2, 2], none] :=
  ⟨(callBackStreaming_exact sampleArgs sampleBuffers).1 (by decide) (by decide) (by decide),
    by decide⟩

/-! ### Polling loop of `streamDataHandler` -/

theorem toInt32_add_toInt32 (x y : Int) : toInt32 (toInt32 x + y) = toInt32 (x + y) := by
  unfold toInt32; omega

theorem toUInt32_toInt32_add (x y : Int) : toUInt32 (toInt32 x + y) = toUInt32 (x + y) := by
  unfold toUInt32 toInt32; omega

/-- The undervoltage case never changes the unit. -/
theorem undervoltageCase_unit (unit : UNIT) :
    ∀ (keys : List Int) (requests answers : List PICO_STATUS) (r : PowerResult),
      undervoltageCase unit requests keys answers = .returned r → r.unit = unit := by
  intro keys
  induction keys with
  | nil => intro requests answers r h; simp [undervoltageCase] at h
  | cons key keys ih =>
    intro requests answers r h
    unfold undervoltageCase at h
    split at h
    · simp at h
    · rcases answers with _ | ⟨status, answers⟩
      · simp at h
      · simp only at h
        split at h
        · exact ih _ _ _ h
        · simp only [Outcome.returned.injEq] at h
          rw [← h]

/-- A poll whose negotiation comes back leaves the accounting of lines 688-702 applied to the
state with the callback's flags; unit, running total and trigger index are untouched before. -/
theorem pollBody_returned (s : StreamState) (p : Poll) (h : p.negotiated s.unit = true) :
    ∃ s2, pollBody s p = .returned (accountSamples s2) ∧
      s2.g = (match p.callback with
        | some a => streamingFlags a
        | none => { s.g with g_ready := 0 }) ∧
      s2.unit = s.unit ∧ s2.totalSamples = s.totalSamples ∧ s2.triggeredAt = s.triggeredAt := by
  unfold pollBody
  by_cases hp : isPowerStatus p.status = true
  · by_cases hu : p.status = PICO_POWER_SUPPLY_UNDERVOLTAGE
    · simp only [Poll.negotiated, hu, if_true] at h
      simp only [hp, hu, if_true]
      rcases hr : changePowerSource PICO_POWER_SUPPLY_UNDERVOLTAGE s.unit p.keys p.answers
        with r | _ | _
      · have hunit : r.unit = s.unit := by
          simp only [changePowerSource] at hr
          exact undervoltageCase_unit _ _ _ _ _ hr
        exact ⟨_, rfl, rfl, hunit, rfl, rfl⟩
      · rw [hr] at h; simp at h
      · rw [hr] at h; simp at h
    · simp only [hp, hu, if_true, if_false]
      exact ⟨_, rfl, rfl, rfl, rfl, rfl⟩
  · simp only [hp, if_false]
    exact ⟨_, rfl, rfl, rfl, rfl, rfl⟩

/-- A poll that reports a positive sample count adds it to the running total; when it also
reports a trigger, the trigger index becomes the running total before the poll plus the offset. -/
theorem pollBody_positive (s : StreamState) (p : Poll) (h : p.negotiated s.unit = true)
    (hc : 0 < p.count) :
    ∃ s1, pollBody s p = .returned s1 ∧ s1.unit = s.unit ∧
      s1.g.g_autoStopped = (if p.autoStop then s1.g.g_autoStopped else 0) ∧
      s1.totalSamples = toInt32 (s.totalSamples + p.count) ∧
      s1.triggeredAt =
        (if p.triggered then toUInt32 (s.totalSamples + p.triggerAt) else s.triggeredAt) := by
  obtain ⟨s2, hs2, hg, hu, ht, htr⟩ := pollBody_returned s p h
  rcases hcb : p.callback with _ | a
  · simp [Poll.count, hcb] at hc
  · simp only [Poll.count, hcb] at hc
    rw [hcb] at hg
    simp only at hg
    have hready : s2.g.g_ready ≠ 0 ∧ s2.g.g_sampleCount > 0 := by
      rw [hg]; simp only [streamingFlags]; exact ⟨by decide, hc⟩
    have hacc : accountSamples s2 =
        { s2 with
          triggeredAt :=
            if s2.g.g_trig ≠ 0 then toUInt32 (s2.totalSamples + s2.g.g_trigAt)
            else s2.triggeredAt
          totalSamples := toInt32 (s2.totalSamples + s2.g.g_sampleCount)
          num_of_samples :=
            if s2.g.g_trig ≠ 0 then toInt32 (s2.num_of_samples + 1) else s2.num_of_samples } := by
      unfold accountSamples; rw [if_pos hready]
    refine ⟨accountSamples s2, hs2, ?_, ?_, ?_, ?_⟩
    · rw [hacc]; exact hu
    · rw [hacc]
      simp only [hg, streamingFlags, Poll.autoStop, hcb]
      by_cases ha : a.autoStop = 0 <;> simp [ha]
    · rw [hacc]
      simp only [hg, streamingFlags, Poll.count, hcb, ht]
    · rw [hacc]
      simp only [hg, streamingFlags, Poll.triggered, Poll.triggerAt, hcb, ht, htr]
      by_cases ha : a.triggered = 0 <;> simp [ha]

/-- A poll that reports no trigger leaves the trigger index as it is. -/
theorem pollBody_no_trigger (s : StreamState) (p : Poll) (h : p.negotiated s.unit = true)
    (ht : p.triggered = false) :
    ∃ s1, pollBody s p = .returned s1 ∧ s1.unit = s.unit ∧ s1.triggeredAt = s.triggeredAt := by
  obtain ⟨s2, hs2, hg, hu, _, htr⟩ := pollBody_returned s p h
  refine ⟨accountSamples s2, hs2, ?_, ?_⟩
  · unfold accountSamples; split <;> exact hu
  · have hno : s2.g.g_ready ≠ 0 ∧ s2.g.g_sampleCount > 0 → s2.g.g_trig = 0 := by
      intro hr
      rcases hcb : p.callback with _ | a
      · rw [hcb] at hg; simp only at hg; rw [hg] at hr; simp at hr
      · rw [hcb] at hg; simp only at hg
        simp only [Poll.triggered, hcb, bne_eq_false_iff_eq] at ht
        rw [hg]; exact ht
    unfold accountSamples
    split
    · next hr => simp only [hno hr, ne_eq, not_true_eq_false, if_false]; exact htr
    · exact htr

/-- The polls before the last trigger report: each is performed, and the running total grows by
the sum of their counts (modulo 2^32). -/
theorem pollLoop_collect (unit : UNIT) :
    ∀ (before : List Poll) (s : StreamState) (rest : List Poll),
      s.unit = unit → s.g.g_autoStopped = 0 →
      (∀ p ∈ before, 0 < p.count ∧ p.autoStop = false ∧ p.negotiated unit = true) →
      ∃ s1, pollLoop s (before ++ rest) = pollLoop s1 rest ∧ s1.unit = unit ∧
        s1.g.g_autoStopped = 0 ∧
        toUInt32 s1.totalSamples = toUInt32 (s.totalSamples + (before.map Poll.count).sum) := by
  intro before
  induction before with
  | nil =>
    intro s rest hu ha _
    exact ⟨s, rfl, hu, ha, by simp⟩
  | cons p before ih =>
    intro s rest hu ha hall
    obtain ⟨hc, hauto, hneg⟩ := hall p (List.mem_cons_self _ _)
    obtain ⟨s1, hs1, hu1, ha1, ht1, _⟩ := pollBody_positive s p (by rw [hu]; exact hneg) hc
    rw [hauto] at ha1
    simp only [Bool.false_eq_true, if_false] at ha1
    obtain ⟨s2, hs2, hu2, ha2, ht2⟩ := ih s1 rest (hu1.trans hu) ha1
      (fun q hq => hall q (List.mem_cons_of_mem _ hq))
    refine ⟨s2, ?_, hu2, ha2, ?_⟩
    · simp only [List.cons_append, pollLoop, ha, ne_eq, not_true_eq_false, if_false, hs1]
      exact hs2
    · rw [ht2, ht1, List.map_cons, List.sum_cons]
      unfold toUInt32 toInt32; omega

/-- Polls that report no trigger leave the trigger index as it is, however the loop ends. -/
theorem pollLoop_no_trigger (unit : UNIT) :
    ∀ (after : List Poll) (s : StreamState),
      s.unit = unit →
      (∀ p ∈ after, p.triggered = false ∧ p.negotiated unit = true) →
      ∃ s1, pollLoop s after = .returned s1 ∧ s1.triggeredAt = s.triggeredAt := by
  intro after
  induction after with
  | nil => intro s _ _; exact ⟨s, rfl, rfl⟩
  | cons p after ih =>
    intro s hu hall
    by_cases ha : s.g.g_autoStopped = 0
    · obtain ⟨ht, hneg⟩ := hall p (List.mem_cons_self _ _)
      obtain ⟨s1, hs1, hu1, htr1⟩ := pollBody_no_trigger s p (by rw [hu]; exact hneg) ht
      obtain ⟨s2, hs2, htr2⟩ := ih s1 (hu1.trans hu)
        (fun q hq => hall q (List.mem_cons_of_mem _ hq))
      refine ⟨s2, ?_, htr2.trans htr1⟩
      simp only [pollLoop, ha, ne_eq, not_true_eq_false, if_false, hs1]
      exact hs2
    · exact ⟨s, by simp only [pollLoop, ne_eq, ha, not_false_eq_true, if_true], rfl⟩

/-- The trigger index after the loop is the one computed at the last poll that reports a
trigger: the sum of the counts before it plus its offset, modulo 2^32. -/
theorem pollLoop_last_trigger (g : Globals) (unit : UNIT) (before after : List Poll) (pk : Poll)
    (hbefore : ∀ p ∈ before, 0 < p.count ∧ p.autoStop = false ∧ p.negotiated unit = true)
    (hk : 0 < pk.count ∧ pk.triggered = true ∧ pk.negotiated unit = true)
    (hafter : ∀ p ∈ after, p.triggered = false ∧ p.negotiated unit = true) :
    ∃ s, pollLoop (streamStart g unit) (before ++ pk :: after) = .returned s ∧
      s.triggeredAt = ((before.map Poll.count).sum + pk.triggerAt) % 4294967296 := by
  obtain ⟨s1, hs1, hu1, ha1, ht1⟩ := pollLoop_collect unit before (streamStart g unit)
    (pk :: after) rfl rfl hbefore
  obtain ⟨s2, hs2, hu2, _, _, htr2⟩ := pollBody_positive s1 pk (by rw [hu1]; exact hk.2.2) hk.1
  obtain ⟨s3, hs3, htr3⟩ := pollLoop_no_trigger unit after s2 (hu2.trans hu1) hafter
  refine ⟨s3, ?_, ?_⟩
  · rw [hs1]
    simp only [pollLoop, ha1, ne_eq, not_true_eq_false, if_false, hs2]
    exact hs3
  · rw [htr3, htr2, hk.2.1]
    simp only [if_true]
    simp only [streamStart, zero_add] at ht1
    unfold toUInt32 at ht1 ⊢
    omega

/-- Claim C2. Trigger-offset accounting in the polling loop of `streamDataHandler`.  For every
sequence of polls whose callbacks report positive sample counts `c1, c2, ...`, with a trigger
reported on exactly one call `k` (offset `o`) and every earlier call performed (no autostop
before call `k`), the loop ends and `triggeredAt` is `c1 + ... + c_(k-1) + o` in 32-bit unsigned
arithmetic: the offset is added to the running total before call `k`'s own count is. -/
theorem triggeredAt_accounting (g : Globals) (unit : UNIT) (before after : List Poll) (pk : Poll)
    (hbefore : ∀ p ∈ before, 0 < p.count ∧ p.triggered = false ∧ p.autoStop = false)
    (hk : 0 < pk.count ∧ pk.triggered = true)
    (hafter : ∀ p ∈ after, 0 < p.count ∧ p.triggered = false)
    (hneg : ∀ p ∈ before ++ pk :: after, p.negotiated unit = true) :
    ∃ s, pollLoop (streamStart g unit) (before ++ pk :: after) = .returned s ∧
      s.triggeredAt = ((before.map Poll.count).sum + pk.triggerAt) % 4294967296 := by
  apply pollLoop_last_trigger
  · intro p hp
    exact ⟨(hbefore p hp).1, (hbefore p hp).2.2,
      hneg p (List.mem_append_left _ hp)⟩
  · exact ⟨hk.1, hk.2, hneg pk (List.mem_append_right _ (List.mem_cons_self _ _))⟩
  · intro p hp
    exact ⟨(hafter p hp).2,
      hneg p (List.mem_append_right _ (List.mem_cons_of_mem _ hp))⟩

/-- Witness for C2: counts 10, 20, then 5 with a trigger at offset 3, then 7: the trigger index
is 10 + 20 + 3 = 33. -/
theorem triggeredAt_accounting_witness :
    (∃ s, pollLoop (streamStart initialGlobals sampleUnit)
        ([samplePoll 10 none, samplePoll 20 none] ++ samplePoll 5 (some 3) :: [samplePoll 7 none])
          = .returned s ∧
        s.triggeredAt =
          (([samplePoll 10 none, samplePoll 20 none].map Poll.count).sum
            + (samplePoll 5 (some 3)).triggerAt) % 4294967296) ∧
      (([samplePoll 10 none, samplePoll 20 none].map Poll.count).sum
        + (samplePoll 5 (some 3)).triggerAt) % 4294967296 = 33 :=
  ⟨triggeredAt_accounting initialGlobals sampleUnit [samplePoll 10 none, samplePoll 20 none]
      [samplePoll 7 none] (samplePoll 5 (some 3)) (by decide) (by decide) (by decide) (by decide),
    by decide⟩

/-- Counterexample to C3 as stated: two polls of 10 samples, the first reporting a trigger at
offset 3 and the second one at offset 5.  After the first call `triggeredAt` is 3; the second
report overwrites it with 10 + 5 = 15. -/
theorem triggeredAt_overwritten :
    finalTriggeredAt (pollLoop (streamStart initialGlobals sampleUnit)
        [samplePoll 10 (some 3)]) = some 3 ∧
      finalTriggeredAt (pollLoop (streamStart initialGlobals sampleUnit)
        [samplePoll 10 (some 3), samplePoll 10 (some 5)]) = some 15 := by
  decide

/-- Claim C3, amended. The absolute trigger index is recomputed on every call that reports a
trigger with a positive sample count.  For every sequence of polls with positive sample counts
in which call `k` is the last one that reports a trigger (earlier calls may report triggers
too, none signals autostop), the loop ends and `triggeredAt` is the value computed on call `k`:
the running total before that call plus that call's offset, in 32-bit unsigned arithmetic. -/
theorem triggeredAt_last_report (g : Globals) (unit : UNIT) (before after : List Poll)
    (pk : Poll)
    (hbefore : ∀ p ∈ before, 0 < p.count ∧ p.autoStop = false)
    (hk : 0 < pk.count ∧ pk.triggered = true)
    (hafter : ∀ p ∈ after, 0 < p.count ∧ p.triggered = false)
    (hneg : ∀ p ∈ before ++ pk :: after, p.negotiated unit = true) :
    ∃ s, pollLoop (streamStart g unit) (before ++ pk :: after) = .returned s ∧
      s.triggeredAt = ((before.map Poll.count).sum + pk.triggerAt) % 4294967296 := by
  apply pollLoop_last_trigger
  · intro p hp
    exact ⟨(hbefore p hp).1, (hbefore p hp).2, hneg p (List.mem_append_left _ hp)⟩
  · exact ⟨hk.1, hk.2, hneg pk (List.mem_append_right _ (List.mem_cons_self _ _))⟩
  · intro p hp
    exact ⟨(hafter p hp).2,
      hneg p (List.mem_append_right _ (List.mem_cons_of_mem _ hp))⟩

/-- Witness for C3 (amended): triggers reported on the first call (offset 3) and on the second
(offset 5), 10 samples each, then 7 samples without a trigger: the trigger index is 15. -/
theorem triggeredAt_last_report_witness :
    (∃ s, pollLoop (streamStart initialGlobals sampleUnit)
        ([samplePoll 10 (some 3)] ++ samplePoll 10 (some 5) :: [samplePoll 7 none])
          = .returned s ∧
        s.triggeredAt =
          (([samplePoll 10 (some 3)].map Poll.count).sum
            + (samplePoll 10 (some 5)).triggerAt) % 4294967296) ∧
      (([samplePoll 10 (some 3)].map Poll.count).sum
        + (samplePoll 10 (some 5)).triggerAt) % 4294967296 = 15 :=
  ⟨triggeredAt_last_report initialGlobals sampleUnit [samplePoll 10 (some 3)]
      [samplePoll 7 none] (samplePoll 10 (some 5)) (by decide) (by decide) (by decide)
      (by decide),
    by decide⟩

/-! ### `collectRapidBlock`: segment set-up -/

/-- Claim C7. Segment count negotiation in `collectRapidBlock`: for every requested waveform count
`w` (taken as a 32-bit unsigned value) and every device-reported `maxSegments`, the one
memory-segmentation request is made with `min(w, maxSegments)` segments; so with `maxSegments`
whenever `w > maxSegments`, and with exactly 500 for 1000 waveforms on a device reporting 500. -/
theorem segmentSetup_segments (num_of_waveforms maxSegments : Int) :
    (∀ n, SegmentCall.ps5000aMemorySegments n ∈ (segmentSetup num_of_waveforms maxSegments).calls ↔
      n = min (toUInt32 num_of_waveforms) maxSegments) ∧
    (toUInt32 num_of_waveforms > maxSegments →
      SegmentCall.ps5000aMemorySegments maxSegments
        ∈ (segmentSetup num_of_waveforms maxSegments).calls) ∧
    (segmentSetup 1000 500).nSegments = 500 ∧
    SegmentCall.ps5000aMemorySegments 500 ∈ (segmentSetup 1000 500).calls := by
  have hmin : (if toUInt32 num_of_waveforms > maxSegments then maxSegments
      else toUInt32 num_of_waveforms) = min (toUInt32 num_of_waveforms) maxSegments := by
    split
    · next h => exact (min_eq_right (le_of_lt h)).symm
    · next h => exact (min_eq_left (not_lt.mp h)).symm
  refine ⟨?_, ?_, by decide, by decide⟩
  · intro n
    simp only [segmentSetup, hmin, List.mem_cons, SegmentCall.ps5000aMemorySegments.injEq,
      List.mem_singleton, reduceCtorEq, or_false, List.not_mem_nil]
  · intro h
    simp only [segmentSetup, if_pos h, List.mem_cons, true_or]

/-- Witness for C7: 1000 waveforms on a device reporting 500 segments. -/
theorem segmentSetup_segments_witness :
    SegmentCall.ps5000aMemorySegments 500 ∈ (segmentSetup 1000 500).calls :=
  (segmentSetup_segments 1000 500).2.1 (by decide)

/-- Claim C8, failing input. With 1000 waveforms requested and `maxSegments = 500` the memory is
cut into 500 segments, yet 1000 captures are requested from the device: `nCaptures` is taken
from `num_of_waveforms` without the cap applied to `nSegments`. -/
theorem segmentSetup_captures_uncapped :
    (segmentSetup 1000 500).calls =
        [.ps5000aMemorySegments 500, .ps5000aSetNoOfCaptures 1000] ∧
      (segmentSetup 1000 500).nCaptures ≠ min (toUInt32 1000) 500 := by
  decide

/-! ### `collectRapidBlock`: elapsed time between triggers -/

/-- The product of 64-bit unsigned operands is the exact product reduced modulo 2^64. -/
theorem toUInt64_mul (x t : Int) : toUInt64 (toUInt64 x * toUInt64 t) = toUInt64 (x * t) := by
  unfold toUInt64
  exact (Int.mul_emod x t 18446744073709551616).symm

/-- With a record for the capture and its predecessor, the loop body prints a report. -/
theorem reportCapture_some (triggerInfo : List PS5000A_TRIGGER_INFO) (timeIntervalNs : Int)
    (c : Nat) (hc : c < triggerInfo.length) :
    ∃ r, reportCapture triggerInfo timeIntervalNs c = some r := by
  unfold reportCapture
  rw [List.getElem?_eq_getElem hc]
  simp only
  split
  · exact ⟨_, rfl⟩
  · split
    · rw [List.getElem?_eq_getElem (show c - 1 < triggerInfo.length by omega)]
      exact ⟨_, rfl⟩
    · exact ⟨_, rfl⟩

/-- The reports of the first `count` iterations: one per capture, in ascending order, each the
one the loop body prints for that capture. -/
theorem reportCaptures_spec (triggerInfo : List PS5000A_TRIGGER_INFO) (timeIntervalNs : Int) :
    ∀ count, count ≤ triggerInfo.length →
      ∃ log, reportCaptures triggerInfo timeIntervalNs count = some log ∧
        log.length = count ∧
        ∀ c, c < count →
          ∃ r, log[c]? = some r ∧ reportCapture triggerInfo timeIntervalNs c = some r := by
  intro count
  induction count with
  | zero => intro _; exact ⟨[], rfl, rfl, fun c hc => absurd hc (Nat.not_lt_zero c)⟩
  | succ n ih =>
    intro hn
    obtain ⟨log, hlog, hlen, hall⟩ := ih (by omega)
    obtain ⟨r, hr⟩ := reportCapture_some triggerInfo timeIntervalNs n (by omega)
    refine ⟨log ++ [r], ?_, by simp [hlen], ?_⟩
    · simp only [reportCaptures, hlog, hr, Option.bind, Option.map_some']
    · intro c hc
      by_cases hcn : c < n
      · rw [List.getElem?_append_left (by omega)]
        exact hall c hcn
      · have hcn' : c = n := by omega
        subst hcn'
        rw [List.getElem?_append_right (by omega), hlen]
        exact ⟨r, by simp, hr⟩

/-- Claim C9. Elapsed time between segment triggers in `collectRapidBlock`.  The reporting loop
visits the captures in ascending index order and prints one report per capture.  For capture 0
no elapsed time is computed, whatever its status; for every capture `c ≥ 1` whose trigger-timing
status is `PICO_OK` the elapsed time reported is
`(timeStampCounter[c] - timeStampCounter[c-1]) * timeIntervalNs` in 64-bit unsigned
arithmetic. -/
theorem elapsed_time_reported (triggerInfo : List PS5000A_TRIGGER_INFO)
    (timeIntervalNs nCaptures : Int) (hlen : nCaptures.toNat ≤ triggerInfo.length) :
    ∃ log, reportRapidBlock PICO_OK triggerInfo timeIntervalNs nCaptures = some log ∧
      log.length = nCaptures.toNat ∧
      ∀ c info, c < nCaptures.toNat → triggerInfo[c]? = some info →
        (c = 0 → log[c]? = some { capture := 0, elapsed := none }) ∧
        (∀ previous, 1 ≤ c → info.status = PICO_OK → triggerInfo[c - 1]? = some previous →
          log[c]? = some
            { capture := c,
              elapsed := some (((info.timeStampCounter - previous.timeStampCounter)
                * timeIntervalNs) % 18446744073709551616) }) := by
  obtain ⟨log, hlog, hl, hall⟩ :=
    reportCaptures_spec triggerInfo timeIntervalNs nCaptures.toNat hlen
  refine ⟨log, by simp only [reportRapidBlock, if_true, hlog], hl, ?_⟩
  intro c info hc hinfo
  obtain ⟨r, hr, hrep⟩ := hall c hc
  constructor
  · intro h0
    subst h0
    simp only [reportCapture, hinfo, if_true, Option.some.injEq] at hrep
    rw [hr, ← hrep]; rfl
  · intro previous h1 hok hprev
    have hne : ¬ c = 0 := by omega
    have hgt : c > 0 ∧ info.status = PICO_OK := ⟨by omega, hok⟩
    simp only [reportCapture, hinfo, hne, if_false, hgt, and_self, if_true, hprev,
      Option.some.injEq, toUInt64_mul] at hrep
    rw [hr, ← hrep]; rfl

/-- Witness for C9: the three records of `sampleTriggerInfo` with 8 ns per tick. -/
theorem elapsed_time_reported_witness :
    reportRapidBlock PICO_OK sampleTriggerInfo 8 3 =
        some [ { capture := 0, elapsed := none }, { capture := 1, elapsed := some 1200 },
               { capture := 2, elapsed := some 1800 } ] ∧
      ∃ log, reportRapidBlock PICO_OK sampleTriggerInfo 8 3 = some log ∧
        log.length = (3 : Int).toNat ∧
        ∀ c info, c < (3 : Int).toNat → sampleTriggerInfo[c]? = some info →
          (c = 0 → log[c]? = some { capture := 0, elapsed := none }) ∧
          (∀ previous, 1 ≤ c → info.status = PICO_OK →
            sampleTriggerInfo[c - 1]? = some previous →
            log[c]? = some
              { capture := c,
                elapsed := some (((info.timeStampCounter - previous.timeStampCounter)
                  * 8) % 18446744073709551616) }) :=
  ⟨by decide, elapsed_time_reported sampleTriggerInfo 8 3 (by decide)⟩

/-- Counterexample to C10 as stated: segment 0 of `sampleTriggerInfo` has a status other than
`PICO_OK`, and the elapsed time of capture 1 is computed all the same, with segment 0's counter
as the previous side: (250 - 100) * 8 = 1200. -/
theorem elapsed_uses_not_ok_previous :
    (sampleTriggerInfo[0]?).map (fun info => info.status) = some (PICO_STATUS.other 16) ∧
      (reportRapidBlock PICO_OK sampleTriggerInfo 8 3).bind (fun log => log[1]?) =
        some { capture := 1, elapsed := some 1200 } := by
  decide

/-- Claim C10, amended. For every capture index `c`, an elapsed time is computed for `c` exactly
when `c ≥ 1` and the trigger-timing status of segment `c` is `PICO_OK`.  The status of segment
`c - 1` is not examined: a segment whose status is not `PICO_OK` is never the current side of a
computed difference, but it is the previous side of the next segment's difference when that
segment is `PICO_OK`. -/
theorem elapsed_iff_current_ok (triggerInfo : List PS5000A_TRIGGER_INFO)
    (timeIntervalNs nCaptures : Int) (hlen : nCaptures.toNat ≤ triggerInfo.length) :
    ∃ log, reportRapidBlock PICO_OK triggerInfo timeIntervalNs nCaptures = some log ∧
      ∀ c info, c < nCaptures.toNat → triggerInfo[c]? = some info →
        ∃ r, log[c]? = some r ∧ r.capture = c ∧
          (r.elapsed.isSome = true ↔ 1 ≤ c ∧ info.status = PICO_OK) := by
  obtain ⟨log, hlog, hl, hall⟩ :=
    reportCaptures_spec triggerInfo timeIntervalNs nCaptures.toNat hlen
  refine ⟨log, by simp only [reportRapidBlock, if_true, hlog], ?_⟩
  intro c info hc hinfo
  obtain ⟨r, hr, hrep⟩ := hall c hc
  refine ⟨r, hr, ?_⟩
  have hprev : ∃ previous, triggerInfo[c - 1]? = some previous :=
    ⟨_, List.getElem?_eq_getElem (show c - 1 < triggerInfo.length by omega)⟩
  obtain ⟨previous, hprev⟩ := hprev
  simp only [reportCapture, hinfo, hprev] at hrep
  by_cases h0 : c = 0
  · simp only [h0, if_true, Option.some.injEq] at hrep
    rw [← hrep]; simp [h0]
  · by_cases hok : info.status = PICO_OK
    · have hgt : c > 0 ∧ info.status = PICO_OK := ⟨by omega, hok⟩
      simp only [h0, if_false, hgt, and_self, if_true, Option.some.injEq] at hrep
      rw [← hrep]
      exact ⟨rfl, by simp; exact ⟨by omega, hok⟩⟩
    · have hgt : ¬ (c > 0 ∧ info.status = PICO_OK) := fun h => hok h.2
      simp only [h0, if_false, hgt, Option.some.injEq] at hrep
      rw [← hrep]
      exact ⟨rfl, by simp; intro _; exact hok⟩

/-- Witness for C10 (amended): the three records of `sampleTriggerInfo`. -/
theorem elapsed_iff_current_ok_witness :
    ∃ log, reportRapidBlock PICO_OK sampleTriggerInfo 8 3 = some log ∧
      ∀ c info, c < (3 : Int).toNat → sampleTriggerInfo[c]? = some info →
        ∃ r, log[c]? = some r ∧ r.capture = c ∧
          (r.elapsed.isSome = true ↔ 1 ≤ c ∧ info.status = PICO_OK) :=
  elapsed_iff_current_ok sampleTriggerInfo 8 3 (by decide)

/-! ### `collectRapidBlock`: timebase negotiation -/

example : negotiateTimebase (alwaysAnswers (.other 5)) 10 0 8 = none := by decide

/-- While the device rejects the indices `t0, ..., t0 + k - 1` as invalid and accepts
`t0 + k`, the loop ends after `k + 1` queries with `timebase = t0 + k`. -/
theorem negotiateTimebase_reaches (device : Nat → Int → PICO_STATUS) :
    ∀ (k : Nat) (n : Nat) (t0 : Int) (fuel : Nat),
      0 ≤ t0 → t0 + k < 4294967296 →
      (∀ t, t0 ≤ t → t < t0 + k → ∀ m, device m t = PICO_INVALID_TIMEBASE) →
      (∀ m, device m (t0 + k) = PICO_OK) →
      k < fuel →
      negotiateTimebase device fuel n t0 = some (t0 + k, n + k + 1) := by
  intro k
  induction k with
  | zero =>
    intro n t0 fuel _ _ _ hok hfuel
    obtain ⟨f, rfl⟩ : ∃ f, fuel = f + 1 := ⟨fuel - 1, by omega⟩
    have h := hok n
    simp only [Nat.cast_zero, add_zero] at h
    simp [negotiateTimebase, h]
  | succ k ih =>
    intro n t0 fuel h0 hlt hinv hok hfuel
    obtain ⟨f, rfl⟩ : ∃ f, fuel = f + 1 := ⟨fuel - 1, by omega⟩
    have h := hinv t0 (le_refl _) (by push_cast; omega) n
    have hw : toUInt32 (t0 + 1) = t0 + 1 := by
      unfold toUInt32; push_cast at hlt; omega
    have hrec := ih (n + 1) (t0 + 1) f (by omega) (by push_cast at hlt ⊢; omega)
      (fun t h1 h2 m => hinv t (by omega) (by push_cast at h2 ⊢; omega) m)
      (fun m => by have := hok m; push_cast at this ⊢; rw [← this]; congr 1; ring)
      (by omega)
    simp only [negotiateTimebase, h, if_true, hw, ne_eq, reduceCtorEq, not_false_eq_true]
    rw [hrec]
    congr 1
    ext
    · push_cast; ring
    · simp; ring

example : allocateAndRetrieve sampleUnit 2000 2 = some [allocOverflow 4, allocCaptureTable 0 2, allocBuffer 0 0 2000, allocBuffer 0 1 2000, ps5000aSetDataBuffer 0 0 2000, ps5000aSetDataBuffer 0 1 2000, allocTriggerInfo 2, ps5000aGetValuesBulk 0 1, ps5000aGetTriggerInfoBulk 0 1] := by decide


/-- Claim C12.  Timebase negotiation in `collectRapidBlock`: for every starting timebase `t0`
and every device that answers each candidate index with `PICO_OK` or `PICO_INVALID_TIMEBASE`
and accepts an index `t ≥ t0`, the loop ends (after `queries` queries, for every larger bound on
their number) with `timebase` the smallest accepted index that is at least `t0`; the timebase
is never decremented, so the final value is at least `t0`. -/
theorem timebase_smallest_accepted (accepts : Int → PICO_STATUS) (t0 t : Int)
    (ht0 : 0 ≤ t0)
    (hdev : ∀ i, accepts i = PICO_OK ∨ accepts i = PICO_INVALID_TIMEBASE)
    (hge : t0 ≤ t) (hlt : t < 4294967296) (hacc : accepts t = PICO_OK) :
    ∃ timebase queries,
      (∀ fuel, queries ≤ fuel →
        negotiateTimebase (fun _ i => accepts i) fuel 0 t0 = some (timebase, queries)) ∧
      t0 ≤ timebase ∧ accepts timebase = PICO_OK ∧
      ∀ i, t0 ≤ i → accepts i = PICO_OK → timebase ≤ i := by
  have hex : ∃ k : Nat, accepts (t0 + k) = PICO_OK :=
    ⟨(t - t0).toNat, by rw [Int.toNat_of_nonneg (by omega)]; simpa using hacc⟩
  let k := Nat.find hex
  have hk : accepts (t0 + k) = PICO_OK := Nat.find_spec hex
  have hmin : ∀ j : Nat, j < k → accepts (t0 + j) ≠ PICO_OK := fun j hj => Nat.find_min hex hj
  have hkle : (k : Int) ≤ t - t0 := by
    have : k ≤ (t - t0).toNat :=
      Nat.find_min' hex (by rw [Int.toNat_of_nonneg (by omega)]; simpa using hacc)
    omega
  refine ⟨t0 + k, k + 1, ?_, by omega, hk, ?_⟩
  · intro fuel hfuel
    have h := negotiateTimebase_reaches (fun _ i => accepts i) k 0 t0 fuel ht0 (by omega)
      (fun i h1 h2 _ => by
        obtain ⟨j, rfl⟩ : ∃ j : Nat, i = t0 + j := ⟨(i - t0).toNat, by omega⟩
        rcases hdev (t0 + j) with h | h
        · exact absurd h (hmin j (by omega))
        · exact h)
      (fun _ => hk) (by omega)
    simpa using h
  · intro i hi hok
    obtain ⟨j, rfl⟩ : ∃ j : Nat, i = t0 + j := ⟨(i - t0).toNat, by omega⟩
    have : k ≤ j := Nat.find_min' hex hok
    omega

/-- Witness for C12: from timebase 8 on a device that accepts the indices from 11 on, the loop
ends with `timebase = 11`. -/
theorem timebase_smallest_accepted_witness :
    negotiateTimebase (acceptsFrom 11) 10 0 8 = some (11, 4) ∧
      ∃ timebase queries,
        (∀ fuel, queries ≤ fuel →
          negotiateTimebase (fun _ i => acceptsFrom 11 0 i) fuel 0 8 = some (timebase, queries)) ∧
        8 ≤ timebase ∧ acceptsFrom 11 0 timebase = PICO_OK ∧
        ∀ i, 8 ≤ i → acceptsFrom 11 0 i = PICO_OK → timebase ≤ i :=
  ⟨by decide,
    timebase_smallest_accepted (acceptsFrom 11 0) 8 20 (by decide)
      (fun i => by unfold acceptsFrom; split <;> simp) (by decide) (by decide) (by decide)⟩

/-- A status that is neither `PICO_OK` nor `PICO_INVALID_TIMEBASE` makes the loop repeat the
query with the same timebase. -/
theorem negotiateTimebase_repeats (device : Nat → Int → PICO_STATUS) (fuel n : Nat)
    (timebase : Int) (h1 : device n timebase ≠ PICO_OK)
    (h2 : device n timebase ≠ PICO_INVALID_TIMEBASE) :
    negotiateTimebase device (fuel + 1) n timebase =
      negotiateTimebase device fuel (n + 1) timebase := by
  simp only [negotiateTimebase, h2, if_false, ne_eq, h1, not_false_eq_true, if_true]

/-- Claim C13, failing input.  A device that answers every timebase query with a status other
than `PICO_OK` and `PICO_INVALID_TIMEBASE` (here code 13): after the first answer the loop is
not left, and it is still running after any number of queries, with the timebase unchanged; the
operation is never aborted. -/
theorem timebase_loop_never_aborts :
    ∀ fuel n, negotiateTimebase (alwaysAnswers (.other 13)) fuel n 8 = none := by
  intro fuel
  induction fuel with
  | zero => intro n; rfl
  | succ f ih =>
    intro n
    rw [negotiateTimebase_repeats _ _ _ _ (by simp [alwaysAnswers]) (by simp [alwaysAnswers])]
    exact ih (n + 1)

/-! ### `collectRapidBlock`: cancellation and retrieval -/

/-- After a cancellation with `m` completed captures, `0 < m < 65536`, the capture count used
from line 1194 on is `m`; with `m = 0` the function returns at line 1187. -/
theorem afterWait_cancelled (nCaptures m : Int) (k1 k2 : Int) (keys : List Int) :
    (0 < m → m < 65536 →
      afterWait 0 nCaptures m (k1 :: k2 :: keys)
        = .returned ([ps5000aStop, ps5000aGetNoOfCaptures], some m)) ∧
    afterWait 0 nCaptures 0 (k1 :: k2 :: keys)
      = .returned ([ps5000aStop, ps5000aGetNoOfCaptures], none) := by
  constructor
  · intro h1 h2
    have hne : m ≠ 0 := by omega
    have hw : toUInt16 m = m := by unfold toUInt16; omega
    simp [afterWait, hne, hw]
  · simp [afterWait]

/-- Claim C11, failing input.  The wait loop ends by cancellation with 100000 captures requested
and the device reports 65538 completed captures: line 1191 keeps only the low 16 bits, so
memory is allocated, buffers are bound, values and trigger records are retrieved (segments
0..1) and reports are printed for 2 captures, not for 65538. -/
theorem cancelled_captures_truncated :
    retrieveAndReport sampleUnit 2000 8 0 100000 65538 [32, 32] PICO_OK sampleRecords =
      .retrieved 2
        [ps5000aStop, ps5000aGetNoOfCaptures, allocOverflow 4, allocCaptureTable 0 2,
          allocBuffer 0 0 2000, allocBuffer 0 1 2000, ps5000aSetDataBuffer 0 0 2000,
          ps5000aSetDataBuffer 0 1 2000, allocTriggerInfo 2, ps5000aGetValuesBulk 0 1,
          ps5000aGetTriggerInfoBulk 0 1]
        [{ capture := 0, elapsed := none }, { capture := 1, elapsed := some 8000 }] := by
  decide

/-! ### `setTrigger` -/

/-- Claim C14.  Step order and first-failure abort of `setTrigger`: for every assignment of
statuses to the eight driver steps (channel properties, trigger conditions, trigger directions,
auto-trigger timeout, trigger delay, pulse-width-qualifier conditions, directions and
properties) and all arguments, the driver requests made are exactly the prefix of that ordered
list up to and including the first step whose status is not `PICO_OK` (all eight when none
fails), and the returned status is that step's status, or `PICO_OK` when every step
succeeds. -/
theorem setTrigger_first_failure (statusOf : TriggerStep → PICO_STATUS) (a : TriggerArgs) :
    (setTrigger (stepDriver statusOf) a).2.map TriggerCall.step
        = (untilFirstFailure statusOf triggerStepOrder).2 ∧
      (setTrigger (stepDriver statusOf) a).1
        = (untilFirstFailure statusOf triggerStepOrder).1 := by
  by_cases h1 : statusOf .channelProperties = PICO_OK
  · by_cases h2 : statusOf .triggerConditions = PICO_OK
    · by_cases h3 : statusOf .triggerDirections = PICO_OK
      · by_cases h4 : statusOf .autoTriggerTimeout = PICO_OK
        · by_cases h5 : statusOf .triggerDelay = PICO_OK
          · by_cases h6 : statusOf .pulseWidthConditions = PICO_OK
            · by_cases h7 : statusOf .pulseWidthDirections = PICO_OK
              · by_cases h8 : statusOf .pulseWidthProperties = PICO_OK
                · simp [setTrigger, stepDriver, TriggerCall.step, untilFirstFailure, triggerStepOrder, h1, h2, h3, h4, h5, h6, h7, h8]
                · simp [setTrigger, stepDriver, TriggerCall.step, untilFirstFailure, triggerStepOrder, h1, h2, h3, h4, h5, h6, h7, h8]
              · simp [setTrigger, stepDriver, TriggerCall.step, untilFirstFailure, triggerStepOrder, h1, h2, h3, h4, h5, h6, h7]
            · simp [setTrigger, stepDriver, TriggerCall.step, untilFirstFailure, triggerStepOrder, h1, h2, h3, h4, h5, h6]
          · simp [setTrigger, stepDriver, TriggerCall.step, untilFirstFailure, triggerStepOrder, h1, h2, h3, h4, h5]
        · simp [setTrigger, stepDriver, TriggerCall.step, untilFirstFailure, triggerStepOrder, h1, h2, h3, h4]
      · simp [setTrigger, stepDriver, TriggerCall.step, untilFirstFailure, triggerStepOrder, h1, h2, h3]
    · simp [setTrigger, stepDriver, TriggerCall.step, untilFirstFailure, triggerStepOrder, h1, h2]
  · simp [setTrigger, stepDriver, TriggerCall.step, untilFirstFailure, triggerStepOrder, h1]


/-- The requests `setTrigger` makes are the first `k` of its eight requests, for some `k ≥ 1`;
more than one when the channel properties are accepted. -/
theorem setTrigger_calls_take (driver : TriggerCall → PICO_STATUS) (a : TriggerArgs) :
    ∃ k, 1 ≤ k ∧ (setTrigger driver a).2 = (triggerCalls a).take k ∧
      (driver (ps5000aSetTriggerChannelPropertiesV2 a.channelProperties a.nChannelProperties 0)
        = PICO_OK → 2 ≤ k) := by
  unfold setTrigger triggerCalls
  dsimp only
  set c1 := ps5000aSetTriggerChannelPropertiesV2 a.channelProperties a.nChannelProperties 0
  set c2 := ps5000aSetTriggerChannelConditionsV2 a.triggerConditions a.nTriggerConditions
    (if a.nTriggerConditions ≠ 0 then PS5000A_CLEAR.or PS5000A_ADD else PS5000A_CLEAR)
  set c3 := ps5000aSetTriggerChannelDirectionsV2 a.directions a.nDirections
  set c4 := ps5000aSetAutoTriggerMicroSeconds a.autoTriggerUs
  set c5 := ps5000aSetTriggerDelay a.delay
  set c6 := ps5000aSetPulseWidthQualifierConditions a.pwq.pwqConditions a.pwq.nPwqConditions
    (if a.pwq.nPwqConditions ≠ 0 then PS5000A_CLEAR.or PS5000A_ADD else PS5000A_CLEAR)
  set c7 := ps5000aSetPulseWidthQualifierDirections a.pwq.pwqDirections a.pwq.nPwqDirections
  set c8 := ps5000aSetPulseWidthQualifierProperties a.pwq.lower a.pwq.upper a.pwq.type
  by_cases h1 : driver c1 = PICO_OK
  · by_cases h2 : driver c2 = PICO_OK
    · by_cases h3 : driver c3 = PICO_OK
      · by_cases h4 : driver c4 = PICO_OK
        · by_cases h5 : driver c5 = PICO_OK
          · by_cases h6 : driver c6 = PICO_OK
            · by_cases h7 : driver c7 = PICO_OK
              · exact ⟨8, by omega, by by_cases h8 : driver c8 = PICO_OK <;>
                  simp [h1, h2, h3, h4, h5, h6, h7, h8], fun _ => by omega⟩
              · exact ⟨7, by omega, by simp [h1, h2, h3, h4, h5, h6, h7], fun _ => by omega⟩
            · exact ⟨6, by omega, by simp [h1, h2, h3, h4, h5, h6], fun _ => by omega⟩
          · exact ⟨5, by omega, by simp [h1, h2, h3, h4, h5], fun _ => by omega⟩
        · exact ⟨4, by omega, by simp [h1, h2, h3, h4], fun _ => by omega⟩
      · exact ⟨3, by omega, by simp [h1, h2, h3], fun _ => by omega⟩
    · exact ⟨2, by omega, by simp [h1, h2], fun _ => by omega⟩
  · exact ⟨1, by omega, by simp [h1], fun h => absurd h h1⟩

/-- An element of the first `k` entries stands at an index below `k`. -/
theorem getElem?_take_mem {α : Type} (l : List α) (k i : Nat) (x : α) (hi : i < k)
    (hx : l[i]? = some x) : x ∈ l.take k := by
  have h : (l.take k)[i]? = some x := by rw [List.getElem?_take_of_lt hi]; exact hx
  exact List.getElem?_mem h

/-- Claim C15.  Condition modes of `setTrigger`: whatever the driver answers, a
trigger-conditions request is made with the "clear" flag, and with the "add" flag exactly when
`nTriggerConditions` is non-zero (clear-and-add, else clear-only); independently, a
pulse-width-qualifier-conditions request is made with the "clear" flag, and with the "add" flag
exactly when `pwq->nPwqConditions` is non-zero.  The first request is made whenever the channel
properties were accepted, the second whenever the five steps before it were (six requests or
more are made). -/
theorem setTrigger_condition_modes (driver : TriggerCall → PICO_STATUS) (a : TriggerArgs) :
    (∀ conditions n info,
      ps5000aSetTriggerChannelConditionsV2 conditions n info ∈ (setTrigger driver a).2 →
        info.clear = true ∧ (info.add = true ↔ a.nTriggerConditions ≠ 0)) ∧
    (∀ conditions n info,
      ps5000aSetPulseWidthQualifierConditions conditions n info ∈ (setTrigger driver a).2 →
        info.clear = true ∧ (info.add = true ↔ a.pwq.nPwqConditions ≠ 0)) ∧
    (driver (ps5000aSetTriggerChannelPropertiesV2 a.channelProperties a.nChannelProperties 0)
        = PICO_OK →
      ∃ info, ps5000aSetTriggerChannelConditionsV2 a.triggerConditions a.nTriggerConditions info
        ∈ (setTrigger driver a).2) ∧
    (6 ≤ (setTrigger driver a).2.length →
      ∃ info, ps5000aSetPulseWidthQualifierConditions a.pwq.pwqConditions a.pwq.nPwqConditions
        info ∈ (setTrigger driver a).2) := by
  obtain ⟨k, hk1, hcalls, hk2⟩ := setTrigger_calls_take driver a
  rw [hcalls]
  have hmode : ∀ (n : Int) (info : PS5000A_CONDITIONS_INFO),
      info = (if n ≠ 0 then PS5000A_CLEAR.or PS5000A_ADD else PS5000A_CLEAR) →
      info.clear = true ∧ (info.add = true ↔ n ≠ 0) := by
    intro n info h
    subst h
    by_cases hn : n = 0 <;> simp [hn, PS5000A_CLEAR, PS5000A_ADD, PS5000A_CONDITIONS_INFO.or]
  refine ⟨?_, ?_, ?_, ?_⟩
  · intro conditions n info hmem
    have h := List.mem_of_mem_take hmem
    simp only [triggerCalls, List.mem_cons, reduceCtorEq, false_or,
      TriggerCall.ps5000aSetTriggerChannelConditionsV2.injEq, List.mem_singleton, or_false,
      List.not_mem_nil] at h
    exact hmode _ _ h.2.2
  · intro conditions n info hmem
    have h := List.mem_of_mem_take hmem
    simp only [triggerCalls, List.mem_cons, reduceCtorEq, false_or,
      TriggerCall.ps5000aSetPulseWidthQualifierConditions.injEq, List.mem_singleton, or_false,
      List.not_mem_nil] at h
    exact hmode _ _ h.2.2
  · intro h
    exact ⟨_, getElem?_take_mem (triggerCalls a) k 1 _ (hk2 h) rfl⟩
  · intro h
    have hk6 : 6 ≤ k := by
      rw [List.length_take] at h
      omega
    exact ⟨_, getElem?_take_mem (triggerCalls a) k 5 _ (by omega) rfl⟩

/-- Witness for C15: `sampleTriggerArgs` (one trigger condition, no pulse-width-qualifier
condition) on a driver that accepts every step: the trigger conditions are sent clear-and-add,
the pulse-width-qualifier conditions clear-only. -/
theorem setTrigger_condition_modes_witness :
    (∃ info, ps5000aSetTriggerChannelConditionsV2 sampleTriggerArgs.triggerConditions
        sampleTriggerArgs.nTriggerConditions info
          ∈ (setTrigger (stepDriver fun _ => PICO_OK) sampleTriggerArgs).2) ∧
      ps5000aSetTriggerChannelConditionsV2 [{ source := 4, condition := 1 }] 1
          { clear := true, add := true }
        ∈ (setTrigger (stepDriver fun _ => PICO_OK) sampleTriggerArgs).2 ∧
      ps5000aSetPulseWidthQualifierConditions [] 0 { clear := true, add := false }
        ∈ (setTrigger (stepDriver fun _ => PICO_OK) sampleTriggerArgs).2 :=
  ⟨(setTrigger_condition_modes (stepDriver fun _ => PICO_OK) sampleTriggerArgs).2.2.1 rfl,
    by decide, by decide⟩

/-! ### Power-source negotiation -/


/-- Keys that are neither `Y` nor `N` only repeat the prompt of the supply-not-connected case. -/
theorem supplyNotConnectedCase_skip (status : PICO_STATUS) (unit : UNIT) :
    ∀ (ignored : List Int) (keys : List Int) (answers : List PICO_STATUS),
      (∀ k ∈ ignored, otherKey k = true) →
      supplyNotConnectedCase status unit (ignored ++ keys) answers
        = supplyNotConnectedCase status unit keys answers := by
  intro ignored
  induction ignored with
  | nil => intro keys answers _; rfl
  | cons k ignored ih =>
    intro keys answers h
    have hk := h k (List.mem_cons_self _ _)
    simp only [otherKey, Bool.and_eq_true, bne_iff_ne, ne_eq] at hk
    rw [List.cons_append]
    conv_lhs => unfold supplyNotConnectedCase
    simp only [hk.1, hk.2, if_false]
    exact ih keys answers (fun q hq => h q (List.mem_cons_of_mem _ hq))

/-- Disabling channels C and D changes the `enabled` setting at the indices 2 and 3 only. -/
theorem disable_C_D (unit : UNIT) :
    disableChannel (disableChannel unit PS5000A_CHANNEL_C) PS5000A_CHANNEL_D =
      { unit with channelSettings := unit.channelSettings.mapIdx fun i settings =>
          if i = 2 ∨ i = 3 then { settings with enabled := 0 } else settings } := by
  simp only [disableChannel, PS5000A_CHANNEL_C, PS5000A_CHANNEL_D]
  congr 1
  apply List.ext_getElem?
  intro i
  rw [List.getElem?_modify, List.getElem?_modify, List.getElem?_mapIdx]
  cases unit.channelSettings[i]? with
  | none => rfl
  | some settings =>
    by_cases h2 : 2 = i
    · subst h2; simp
    · by_cases h3 : 3 = i
      · subst h3; simp
      · have h : ¬ (i = 2 ∨ i = 3) := by omega
        simp [h2, h3, h]

/-- Claim C16.  `changePowerSource` in the supply-not-connected state, at the first key that is
`Y` or `N` (keys before it only repeat the prompt).  When the caller accepts and the driver
answers `PICO_OK`: on a four-channel unit the `enabled` settings of channels C and D become 0
and every other field of the unit is unchanged; on any other unit the unit is unchanged.  When
the caller declines: no request is made to the driver (no answer is consumed), the unit is
unchanged and the returned status is the supply-not-connected status passed in. -/
theorem changePowerSource_not_connected (unit : UNIT) (ignored keys : List Int) (key : Int)
    (answers : List PICO_STATUS) (hignored : ∀ k ∈ ignored, otherKey k = true) :
    (toInt8 (toupper key) = 89 → unit.channelCount = QUAD_SCOPE →
      changePowerSource PICO_POWER_SUPPLY_NOT_CONNECTED unit (ignored ++ key :: keys)
          (PICO_OK :: answers) =
        .returned
          { status := PICO_OK,
            unit := { unit with channelSettings := unit.channelSettings.mapIdx fun i settings =>
              if i = 2 ∨ i = 3 then { settings with enabled := 0 } else settings },
            keys := keys, answers := answers,
            requests := [PICO_POWER_SUPPLY_NOT_CONNECTED] }) ∧
    (toInt8 (toupper key) = 89 → unit.channelCount ≠ QUAD_SCOPE →
      changePowerSource PICO_POWER_SUPPLY_NOT_CONNECTED unit (ignored ++ key :: keys)
          (PICO_OK :: answers) =
        .returned
          { status := PICO_OK, unit := unit, keys := keys, answers := answers,
            requests := [PICO_POWER_SUPPLY_NOT_CONNECTED] }) ∧
    (toInt8 (toupper key) = 78 →
      changePowerSource PICO_POWER_SUPPLY_NOT_CONNECTED unit (ignored ++ key :: keys) answers =
        .returned
          { status := PICO_POWER_SUPPLY_NOT_CONNECTED, unit := unit, keys := keys,
            answers := answers, requests := [] }) := by
  refine ⟨?_, ?_, ?_⟩
  · intro hy hq
    simp only [changePowerSource]
    rw [supplyNotConnectedCase_skip _ _ _ _ _ hignored]
    simp only [supplyNotConnectedCase, hy, if_true, hq, and_self, disable_C_D]
  · intro hy hq
    simp only [changePowerSource]
    rw [supplyNotConnectedCase_skip _ _ _ _ _ hignored]
    simp only [supplyNotConnectedCase, hy, if_true, hq, and_false, if_false, reduceCtorEq]
  · intro hn
    simp only [changePowerSource]
    rw [supplyNotConnectedCase_skip _ _ _ _ _ hignored]
    simp only [supplyNotConnectedCase, hn, if_true]
    rw [if_neg (by decide)]

/-- Witness for C16: on `quadUnit` the keys `x`, `y` with the driver answering `PICO_OK` leave
channels C and D disabled and everything else as it was. -/
theorem changePowerSource_not_connected_witness :
    changePowerSource PICO_POWER_SUPPLY_NOT_CONNECTED quadUnit ([120] ++ 121 :: []) (PICO_OK :: [])
      = .returned
          { status := PICO_OK,
            unit := { quadUnit with channelSettings := quadUnit.channelSettings.mapIdx fun i settings =>
              if i = 2 ∨ i = 3 then { settings with enabled := 0 } else settings },
            keys := [], answers := [],
            requests := [PICO_POWER_SUPPLY_NOT_CONNECTED] } ∧
      (quadUnit.channelSettings.mapIdx fun i settings =>
          if i = 2 ∨ i = 3 then { settings with enabled := 0 } else settings) =
        [ { DCcoupled := 1, range := 8, enabled := 1, analogueOffset := 0 },
          { DCcoupled := 1, range := 7, enabled := 1, analogueOffset := 0 },
          { DCcoupled := 0, range := 6, enabled := 0, analogueOffset := 0 },
          { DCcoupled := 1, range := 5, enabled := 0, analogueOffset := 0 } ] :=
  ⟨(changePowerSource_not_connected quadUnit [120] [] 121 [] (by decide)).1 (by decide)
      (by decide),
    by decide⟩

/-- The undervoltage case with the driver answering "request invalid" `j` times and then `st`:
it returns `st` after `j + 1` requests. -/
theorem undervoltageCase_first_other (unit : UNIT) (st : PICO_STATUS) (rest : List PICO_STATUS)
    (hst : st ≠ PICO_POWER_SUPPLY_REQUEST_INVALID) :
    ∀ (j : Nat) (keys : List Int) (requests : List PICO_STATUS),
      j < keys.length → (∀ k ∈ keys.take (j + 1), toInt8 k ≠ 27) →
      undervoltageCase unit requests keys
          (List.replicate j PICO_POWER_SUPPLY_REQUEST_INVALID ++ st :: rest) =
        .returned
          { status := st, unit := unit, keys := keys.drop (j + 1), answers := rest,
            requests := requests ++ List.replicate (j + 1) PICO_POWER_SUPPLY_CONNECTED } := by
  intro j
  induction j with
  | zero =>
    intro keys requests hlen hesc
    rcases keys with _ | ⟨key, keys⟩
    · simp at hlen
    · have hk : toInt8 key ≠ 27 := hesc key (by simp)
      simp [undervoltageCase, hk, hst]
  | succ j ih =>
    intro keys requests hlen hesc
    rcases keys with _ | ⟨key, keys⟩
    · simp at hlen
    · have hk : toInt8 key ≠ 27 := hesc key (by simp)
      have hrec := ih keys (requests ++ [PICO_POWER_SUPPLY_CONNECTED])
        (by simp at hlen; omega)
        (fun k hk' => hesc k (by rw [List.take_succ_cons]; exact List.mem_cons_of_mem _ hk'))
      have happ : ∀ (xs ys : List PICO_STATUS), xs.append ys = xs ++ ys := fun _ _ => rfl
      simp only [List.replicate_succ, List.cons_append, undervoltageCase, hk, if_false, if_true,
        happ, hrec, List.drop_succ_cons, List.append_assoc, List.singleton_append,
        List.nil_append]

/-- While the driver keeps answering "request invalid", the undervoltage case does not
return. -/
theorem undervoltageCase_keeps_asking (unit : UNIT) :
    ∀ (keys : List Int) (n : Nat) (requests : List PICO_STATUS) (r : PowerResult),
      undervoltageCase unit requests keys
        (List.replicate n PICO_POWER_SUPPLY_REQUEST_INVALID) ≠ .returned r := by
  intro keys
  induction keys with
  | nil => intro n requests r; simp [undervoltageCase]
  | cons key keys ih =>
    intro n requests r
    unfold undervoltageCase
    split
    · simp
    · rcases n with _ | n
      · simp
      · simp only [List.replicate_succ, if_true]
        exact ih n _ r

/-- Counterexample to C17 as stated: at the undervoltage prompt a key other than Esc is
pressed and the driver answers `PICO_POWER_SUPPLY_UNDERVOLTAGE` again: the function returns,
with that status, which is not `PICO_OK`. -/
theorem undervoltage_returns_not_ok :
    changePowerSource PICO_POWER_SUPPLY_UNDERVOLTAGE sampleUnit [32]
        [PICO_POWER_SUPPLY_UNDERVOLTAGE] =
      .returned
        { status := PICO_POWER_SUPPLY_UNDERVOLTAGE, unit := sampleUnit, keys := [], answers := [],
          requests := [PICO_POWER_SUPPLY_CONNECTED] } := by
  decide

/-- Claim C17, amended.  `changePowerSource` in the undervoltage state asks the driver again
only while it answers `PICO_POWER_SUPPLY_REQUEST_INVALID`.  For every sequence of key presses
without Esc and every sequence of driver answers: when the first answer other than "request
invalid" is `st`, the function returns `st` (which is `PICO_OK` when the supply is detected, and
may be any other status), having asked once per earlier answer; and it does not return while
the driver keeps answering "request invalid". -/
theorem undervoltage_until_other_answer (unit : UNIT) (keys : List Int) (j : Nat)
    (st : PICO_STATUS) (rest : List PICO_STATUS)
    (hkeys : j < keys.length) (hesc : ∀ k ∈ keys.take (j + 1), toInt8 k ≠ 27)
    (hst : st ≠ PICO_POWER_SUPPLY_REQUEST_INVALID) :
    changePowerSource PICO_POWER_SUPPLY_UNDERVOLTAGE unit keys
        (List.replicate j PICO_POWER_SUPPLY_REQUEST_INVALID ++ st :: rest) =
      .returned
        { status := st, unit := unit, keys := keys.drop (j + 1), answers := rest,
          requests := List.replicate (j + 1) PICO_POWER_SUPPLY_CONNECTED } ∧
    ∀ (n : Nat) (r : PowerResult),
      changePowerSource PICO_POWER_SUPPLY_UNDERVOLTAGE unit keys
        (List.replicate n PICO_POWER_SUPPLY_REQUEST_INVALID) ≠ .returned r := by
  constructor
  · have h := undervoltageCase_first_other unit st rest hst j keys [] hkeys hesc
    simpa [changePowerSource] using h
  · intro n r
    simpa [changePowerSource] using undervoltageCase_keeps_asking unit keys n [] r

/-- Witness for C17 (amended): two "request invalid" answers, then `PICO_OK`, with three key
presses other than Esc. -/
theorem undervoltage_until_other_answer_witness :
    changePowerSource PICO_POWER_SUPPLY_UNDERVOLTAGE sampleUnit [32, 32, 13, 32]
        (List.replicate 2 PICO_POWER_SUPPLY_REQUEST_INVALID ++ PICO_OK :: []) =
      .returned
        { status := PICO_OK, unit := sampleUnit, keys := [32, 32, 13, 32].drop (2 + 1),
          answers := [], requests := List.replicate (2 + 1) PICO_POWER_SUPPLY_CONNECTED } :=
  (undervoltage_until_other_answer sampleUnit [32, 32, 13, 32] 2 PICO_OK [] (by decide)
    (by decide) (by decide)).1

/-! ### Power negotiation from the two pipelines -/

/-- Counterexample to C18 as stated.  A streaming poll returns supply-not-connected on
`quadUnit` while the caller would accept (`y`) and the driver would answer `PICO_OK`: the
negotiator, had it been called, would have disabled channels C and D, but the poll leaves the
unit as it was and only sets `powerChange`.  And a block-run request that returns undervoltage
ends the arm loop with that status without any call of the negotiator. -/
theorem negotiator_not_called :
    (∃ r, changePowerSource PICO_POWER_SUPPLY_NOT_CONNECTED quadUnit [121] [PICO_OK]
        = .returned r ∧ r.unit ≠ quadUnit) ∧
      pollBody (streamStart initialGlobals quadUnit)
          (statusPoll PICO_POWER_SUPPLY_NOT_CONNECTED [121] [PICO_OK]) =
        .returned
          { g := initialGlobals, unit := quadUnit, totalSamples := 0, triggeredAt := 0,
            index := 1, num_of_samples := 0, powerChange := 1 } ∧
      armBlock 500 1500 8 sampleUnit initialGlobals []
          [{ status := PICO_POWER_SUPPLY_UNDERVOLTAGE, callback := none }] [32] [PICO_OK] =
        .returned
          { status := PICO_POWER_SUPPLY_UNDERVOLTAGE, unit := sampleUnit, g := initialGlobals,
            keys := [32], answers := [PICO_OK], events := [.ps5000aRunBlock 500 1500 8] } := by
  refine ⟨⟨_, rfl, by decide⟩, by decide, by decide⟩

/-- Claim C18, amended.  From the streaming poll loop the power negotiator is called only when
the poll returns undervoltage: then the body's outcome is the negotiator's (its unit, its exit),
and for supply-connected, supply-not-connected and USB3-on-non-USB3-port the body only sets
`powerChange`, consulting neither keys nor driver.  From the arm loop of `collectRapidBlock` the
negotiator is called, with the status returned and before the run request is repeated, when the
block-run call returns supply-connected, supply-not-connected or USB3-on-non-USB3-port. -/
theorem negotiator_calls (s : StreamState) (p : Poll)
    (pre post timebase : Int) (unit : UNIT) (g : Globals) (events : List ArmEvent)
    (run : RunBlockAnswer) (runs : List RunBlockAnswer) (keys : List Int)
    (answers : List PICO_STATUS) :
    (p.status = PICO_POWER_SUPPLY_UNDERVOLTAGE →
      pollBody s p =
        match changePowerSource PICO_POWER_SUPPLY_UNDERVOLTAGE s.unit p.keys p.answers with
        | .returned r =>
          .returned (accountSamples
            { s with
              g := (match p.callback with
                | some a => streamingFlags a
                | none => { s.g with g_ready := 0 })
              unit := r.unit, powerChange := 1, index := toInt32 (s.index + 1) })
        | .exited => .exited
        | .blocked => .blocked) ∧
    (p.status = PICO_POWER_SUPPLY_CONNECTED ∨ p.status = PICO_POWER_SUPPLY_NOT_CONNECTED ∨
        p.status = PICO_USB3_0_DEVICE_NON_USB3_0_PORT →
      pollBody s p =
        .returned (accountSamples
          { s with
            g := (match p.callback with
              | some a => streamingFlags a
              | none => { s.g with g_ready := 0 })
            powerChange := 1, index := toInt32 (s.index + 1) })) ∧
    (run.status = PICO_POWER_SUPPLY_CONNECTED ∨ run.status = PICO_POWER_SUPPLY_NOT_CONNECTED ∨
        run.status = PICO_USB3_0_DEVICE_NON_USB3_0_PORT →
      armBlock pre post timebase unit g events (run :: runs) keys answers =
        match changePowerSource run.status unit keys answers with
        | .returned r =>
          armBlock pre post timebase r.unit
            (match run.callback with
              | some status => callBackBlock g status
              | none => g)
            (events ++ [.ps5000aRunBlock pre post timebase, .changePowerSource run.status])
            runs r.keys r.answers
        | .exited => .exited
        | .blocked => .blocked) := by
  refine ⟨?_, ?_, ?_⟩
  · intro h
    simp only [pollBody, h, isPowerStatus, decide_True, Bool.or_true, if_true]
    cases changePowerSource PICO_POWER_SUPPLY_UNDERVOLTAGE s.unit p.keys p.answers <;> rfl
  · intro h
    rcases h with h | h | h <;>
      simp [pollBody, h, isPowerStatus]
  · intro h
    have hne : run.status ≠ PICO_OK := by
      rcases h with h | h | h <;> rw [h] <;> decide
    simp only [armBlock, hne, ne_eq, not_false_eq_true, if_true, h, List.append_assoc,
      List.singleton_append]

/-- Witness for C18 (amended): a block-run request answered with supply-not-connected on
`quadUnit`, accepted with `y`, then a successful run request: the negotiator is called between
the two requests. -/
theorem negotiator_calls_witness :
    armBlock 500 1500 8 quadUnit initialGlobals []
        ({ status := PICO_POWER_SUPPLY_NOT_CONNECTED, callback := none }
          :: [{ status := PICO_OK, callback := none }]) [121] [PICO_OK] =
      (match changePowerSource PICO_POWER_SUPPLY_NOT_CONNECTED quadUnit [121] [PICO_OK] with
        | .returned r =>
          armBlock 500 1500 8 r.unit initialGlobals
            ([] ++ [.ps5000aRunBlock 500 1500 8,
              .changePowerSource PICO_POWER_SUPPLY_NOT_CONNECTED])
            [{ status := PICO_OK, callback := none }] r.keys r.answers
        | .exited => .exited
        | .blocked => .blocked) ∧
      armEvents (armBlock 500 1500 8 quadUnit initialGlobals []
          ({ status := PICO_POWER_SUPPLY_NOT_CONNECTED, callback := none }
            :: [{ status := PICO_OK, callback := none }]) [121] [PICO_OK]) =
          [.ps5000aRunBlock 500 1500 8, .changePowerSource PICO_POWER_SUPPLY_NOT_CONNECTED,
            .ps5000aRunBlock 500 1500 8] :=
  ⟨(negotiator_calls (streamStart initialGlobals quadUnit) (samplePoll 1 none) 500 1500 8
      quadUnit initialGlobals [] { status := PICO_POWER_SUPPLY_NOT_CONNECTED, callback := none }
      [{ status := PICO_OK, callback := none }] [121] [PICO_OK]).2.2 (Or.inr (Or.inl rfl)),
    by decide⟩

/-! ### The end of the polling loop -/

/-- The accounting of lines 688-702 touches neither the globals nor the unit, the poll counter
or the power-change flag. -/
theorem accountSamples_frame (s : StreamState) :
    (accountSamples s).g = s.g ∧ (accountSamples s).unit = s.unit ∧
      (accountSamples s).index = s.index ∧ (accountSamples s).powerChange = s.powerChange := by
  unfold accountSamples
  split <;> exact ⟨rfl, rfl, rfl, rfl⟩

/-- One iteration of the polling loop: the poll counter grows by one, `powerChange` is set by a
power-related status, and `g_autoStopped` is what the callback, if invoked, says. -/
theorem pollBody_flags (s : StreamState) (p : Poll) (h : p.negotiated s.unit = true) :
    ∃ s1, pollBody s p = .returned s1 ∧ s1.unit = s.unit ∧
      s1.index = toInt32 (s.index + 1) ∧
      s1.powerChange = (if isPowerStatus p.status then 1 else s.powerChange) ∧
      s1.g.g_autoStopped =
        (match p.callback with
          | some a => a.autoStop
          | none => s.g.g_autoStopped) := by
  have hg : ∀ g0 : Globals,
      (match p.callback with
        | some a => streamingFlags a
        | none => { g0 with g_ready := 0 }).g_autoStopped =
      (match p.callback with
        | some a => a.autoStop
        | none => g0.g_autoStopped) := by
    intro g0; cases p.callback <;> rfl
  unfold pollBody
  by_cases hp : isPowerStatus p.status = true
  · by_cases hu : p.status = PICO_POWER_SUPPLY_UNDERVOLTAGE
    · simp only [Poll.negotiated, hu, if_true] at h
      simp only [hp, hu, if_true]
      rcases hr : changePowerSource PICO_POWER_SUPPLY_UNDERVOLTAGE s.unit p.keys p.answers
        with r | _ | _
      · have hunit : r.unit = s.unit := by
          simp only [changePowerSource] at hr
          exact undervoltageCase_unit _ _ _ _ _ hr
        refine ⟨_, rfl, ?_, ?_, ?_, ?_⟩
        · rw [(accountSamples_frame _).2.1]; exact hunit
        · rw [(accountSamples_frame _).2.2.1]
        · rw [(accountSamples_frame _).2.2.2]; simp [isPowerStatus]
        · rw [(accountSamples_frame _).1]; exact hg s.g
      · rw [hr] at h; simp at h
      · rw [hr] at h; simp at h
    · simp only [hp, hu, if_true, if_false]
      refine ⟨_, rfl, ?_, ?_, ?_, ?_⟩
      · rw [(accountSamples_frame _).2.1]
      · rw [(accountSamples_frame _).2.2.1]
      · rw [(accountSamples_frame _).2.2.2]
      · rw [(accountSamples_frame _).1]; exact hg s.g
  · simp only [hp, if_false, Bool.false_eq_true]
    refine ⟨_, rfl, ?_, ?_, ?_, ?_⟩
    · rw [(accountSamples_frame _).2.1]
    · rw [(accountSamples_frame _).2.2.1]
    · rw [(accountSamples_frame _).2.2.2]
    · rw [(accountSamples_frame _).1]; exact hg s.g

/-- Once autostop is signalled no further poll is made. -/
theorem pollLoop_stopped (s : StreamState) (polls : List Poll) (h : s.g.g_autoStopped ≠ 0) :
    pollLoop s polls = .returned s := by
  cases polls with
  | nil => rfl
  | cons p rest => simp only [pollLoop, h, ne_eq, not_false_eq_true, if_true]

/-- The state in which the polling loop ends: the poll counter, the autostop flag and the
power-change flag in terms of the polls performed. -/
theorem pollLoop_performed (unit : UNIT) :
    ∀ (polls : List Poll) (s : StreamState),
      s.unit = unit → s.g.g_autoStopped = 0 → toInt32 s.index = s.index →
      (∀ p ∈ polls, p.negotiated unit = true) →
      ∃ s1, pollLoop s polls = .returned s1 ∧
        s1.index = toInt32 (s.index + pollsPerformed polls) ∧
        (s1.g.g_autoStopped ≠ 0 ↔
          ∃ p ∈ polls.take (pollsPerformed polls), p.autoStop = true) ∧
        (s1.powerChange ≠ 0 ↔ s.powerChange ≠ 0 ∨
          ∃ p ∈ polls.take (pollsPerformed polls), isPowerStatus p.status = true) := by
  intro polls
  induction polls with
  | nil =>
    intro s _ ha hidx _
    refine ⟨s, rfl, ?_, ?_, ?_⟩
    · simp only [pollsPerformed, Nat.cast_zero, add_zero]; exact hidx.symm
    · simp [pollsPerformed, ha]
    · simp [pollsPerformed]
  | cons p rest ih =>
    intro s hu ha hidx hall
    obtain ⟨s1, hs1, hu1, hi1, hp1, ha1⟩ :=
      pollBody_flags s p (by rw [hu]; exact hall p (List.mem_cons_self _ _))
    have hloop : pollLoop s (p :: rest) = pollLoop s1 rest := by
      simp only [pollLoop, ha, ne_eq, not_true_eq_false, if_false, hs1]
    have hpow1 : s1.powerChange ≠ 0 ↔ s.powerChange ≠ 0 ∨ isPowerStatus p.status = true := by
      rw [hp1]
      by_cases hps : isPowerStatus p.status = true <;> simp [hps]
    by_cases hauto : p.autoStop = true
    · have hstop : s1.g.g_autoStopped ≠ 0 := by
        rw [ha1]
        rcases hcb : p.callback with _ | a
        · simp [Poll.autoStop, hcb] at hauto
        · simpa [Poll.autoStop, hcb] using hauto
      refine ⟨s1, by rw [hloop, pollLoop_stopped s1 rest hstop], ?_, ?_, ?_⟩
      · simp only [pollsPerformed, hauto, if_true, Nat.cast_one]; exact hi1
      · simp [pollsPerformed, hauto, hstop]
      · simp only [pollsPerformed, hauto, if_true, List.take_succ_cons, List.take_zero,
          List.mem_singleton, exists_eq_left]
        exact hpow1
    · have hgo : s1.g.g_autoStopped = 0 := by
        rw [ha1]
        rcases hcb : p.callback with _ | a
        · exact ha
        · simpa [Poll.autoStop, hcb] using hauto
      obtain ⟨s2, hs2, hi2, ha2, hp2⟩ := ih s1 (hu1.trans hu) hgo
        (by rw [hi1]; unfold toInt32; omega)
        (fun q hq => hall q (List.mem_cons_of_mem _ hq))
      have hpp : pollsPerformed (p :: rest) = pollsPerformed rest + 1 := by
        simp only [pollsPerformed, hauto, Bool.false_eq_true, if_false]; omega
      refine ⟨s2, by rw [hloop, hs2], ?_, ?_, ?_⟩
      · rw [hi2, hi1, hpp]
        push_cast
        unfold toInt32; omega
      · rw [ha2, hpp, List.take_succ_cons]
        simp [hauto]
      · rw [hp2, hpow1, hpp, List.take_succ_cons]
        simp only [List.mem_cons, exists_eq_or_imp]
        exact or_assoc

/-- Counterexample to C19 as stated: the first poll returns supply-not-connected, which nobody
resolves (the negotiator is not even called), and the loop goes on: a second poll is made and
its 10 samples are counted. -/
theorem poll_after_power_condition :
    pollLoop (streamStart initialGlobals sampleUnit)
        [statusPoll PICO_POWER_SUPPLY_NOT_CONNECTED [] [], samplePoll 10 none] =
      .returned
        { g := { initialGlobals with g_ready := 1, g_sampleCount := 10 }, unit := sampleUnit,
          totalSamples := 10, triggeredAt := 0, index := 2, num_of_samples := 0,
          powerChange := 1 } := by
  decide

/-- Claim C19, amended.  The polling loop of `streamDataHandler` performs another poll exactly
when no key press is pending and the device has not signalled autostop.  For every scripted run
(with power negotiations that come back) the loop ends, and the number of polls made, counted
by `index`, is `pollsPerformed`: all polls up to the key press, or up to and including the
first one whose callback signals autostop.  The status a poll returns plays no part: a
power-related condition, resolved or not, does not end the loop. -/
theorem polls_until_key_or_autostop (g : Globals) (unit : UNIT) (polls : List Poll)
    (hneg : ∀ p ∈ polls, p.negotiated unit = true) :
    ∃ s, pollLoop (streamStart g unit) polls = .returned s ∧
      s.index = toInt32 (pollsPerformed polls) := by
  obtain ⟨s, hs, hi, _, _⟩ := pollLoop_performed unit polls (streamStart g unit) rfl rfl
    (show toInt32 (0 : Int) = 0 by decide) hneg
  refine ⟨s, hs, ?_⟩
  rw [hi]
  simp [streamStart]

/-- Witness for C19 (amended): a poll returning supply-not-connected, a poll of 10 samples, a
poll that signals autostop and one more scripted poll: three polls are made. -/
theorem polls_until_key_or_autostop_witness :
    (∃ s, pollLoop (streamStart initialGlobals sampleUnit)
        [statusPoll PICO_POWER_SUPPLY_NOT_CONNECTED [] [], samplePoll 10 none, stopPoll 5,
          samplePoll 7 none] = .returned s ∧
      s.index = toInt32 (pollsPerformed
        [statusPoll PICO_POWER_SUPPLY_NOT_CONNECTED [] [], samplePoll 10 none, stopPoll 5,
          samplePoll 7 none])) ∧
      toInt32 (pollsPerformed
        [statusPoll PICO_POWER_SUPPLY_NOT_CONNECTED [] [], samplePoll 10 none, stopPoll 5,
          samplePoll 7 none]) = 3 :=
  ⟨polls_until_key_or_autostop initialGlobals sampleUnit
      [statusPoll PICO_POWER_SUPPLY_NOT_CONNECTED [] [], samplePoll 10 none, stopPoll 5,
        samplePoll 7 none] (by decide),
    by decide⟩

/-- Counterexample to C20 as stated: one poll returns supply-not-connected, then a key is
pressed.  The device has not signalled autostop and nothing was negotiated, yet the collection
is reported as complete. -/
theorem cancelled_run_reported_complete :
    finalReport (pollLoop (streamStart initialGlobals sampleUnit)
        [statusPoll PICO_POWER_SUPPLY_NOT_CONNECTED [] []]) = some .complete ∧
      pollsPerformed [statusPoll PICO_POWER_SUPPLY_NOT_CONNECTED [] []] = 1 ∧
      (statusPoll PICO_POWER_SUPPLY_NOT_CONNECTED [] []).autoStop = false := by
  decide

/-- Claim C20, amended.  After the polling loop the session reports an aborted collection
exactly when the device did not signal autostop and no poll made returned a power-related
status (line 744); in every other case it reports a completed collection.  So a run ended by a
user cancel without autostop is reported as aborted only when no power-related status was seen
during the run; when one was seen it is reported as complete, negotiated or not. -/
theorem report_aborted_iff (g : Globals) (unit : UNIT) (polls : List Poll)
    (hneg : ∀ p ∈ polls, p.negotiated unit = true) :
    ∃ s, pollLoop (streamStart g unit) polls = .returned s ∧
      (reportCollection s = .aborted ↔
        ∀ p ∈ polls.take (pollsPerformed polls),
          p.autoStop = false ∧ isPowerStatus p.status = false) := by
  obtain ⟨s, hs, _, ha, hp⟩ := pollLoop_performed unit polls (streamStart g unit) rfl rfl
    (show toInt32 (0 : Int) = 0 by decide) hneg
  refine ⟨s, hs, ?_⟩
  have hp0 : (streamStart g unit).powerChange = 0 := rfl
  rw [hp0] at hp
  simp only [ne_eq, not_true_eq_false, false_or] at hp
  have hrep : reportCollection s = .aborted ↔ s.g.g_autoStopped = 0 ∧ s.powerChange = 0 := by
    unfold reportCollection
    split
    · next h => simp [h]
    · next h => simp [h]
  rw [hrep]
  constructor
  · rintro ⟨h1, h2⟩ p hp'
    constructor
    · by_contra hc
      exact (ha.mpr ⟨p, hp', by simpa using hc⟩) h1
    · by_contra hc
      exact (hp.mpr ⟨p, hp', by simpa using hc⟩) h2
  · intro h
    constructor
    · by_contra hc
      obtain ⟨p, hp', hpa⟩ := ha.mp hc
      rw [(h p hp').1] at hpa
      exact Bool.false_ne_true hpa
    · by_contra hc
      obtain ⟨p, hp', hpa⟩ := hp.mp hc
      rw [(h p hp').2] at hpa
      exact Bool.false_ne_true hpa

/-- Witness for C20 (amended): two polls of samples and a key press, no autostop and no
power-related status: the collection is reported as aborted. -/
theorem report_aborted_iff_witness :
    (∃ s, pollLoop (streamStart initialGlobals sampleUnit) [samplePoll 10 none, samplePoll 7 none]
        = .returned s ∧
      (reportCollection s = .aborted ↔
        ∀ p ∈ [samplePoll 10 none, samplePoll 7 none].take
            (pollsPerformed [samplePoll 10 none, samplePoll 7 none]),
          p.autoStop = false ∧ isPowerStatus p.status = false)) ∧
      finalReport (pollLoop (streamStart initialGlobals sampleUnit)
        [samplePoll 10 none, samplePoll 7 none]) = some .aborted :=
  ⟨report_aborted_iff initialGlobals sampleUnit [samplePoll 10 none, samplePoll 7 none]
      (by decide),
    by decide⟩

/-! ### Arm loops: retry after power negotiation -/

/-- Claim C21, counterexample.  The block-run request fails with "power supply not connected",
the caller declines (key `n`) and the negotiator returns that same non-OK status; the run
request is issued again all the same, in `collectRapidBlock` and in `streamDataHandler`. -/
theorem arm_retried_after_decline :
    changePowerSource PICO_POWER_SUPPLY_NOT_CONNECTED quadUnit [110] [] =
        .returned
          { status := PICO_POWER_SUPPLY_NOT_CONNECTED, unit := quadUnit, keys := [],
            answers := [], requests := [] } ∧
      armEvents (armBlock 500 1500 8 quadUnit initialGlobals []
          [⟨PICO_POWER_SUPPLY_NOT_CONNECTED, none⟩, ⟨PICO_OK, none⟩] [110] []) =
        [.ps5000aRunBlock 500 1500 8, .changePowerSource PICO_POWER_SUPPLY_NOT_CONNECTED,
          .ps5000aRunBlock 500 1500 8] ∧
      streamArmEvents
          (armStreaming quadUnit [] [PICO_POWER_SUPPLY_NOT_CONNECTED, PICO_OK] [110] []) =
        [runStreamingRequest, .changePowerSource PICO_POWER_SUPPLY_NOT_CONNECTED,
          runStreamingRequest] := by
  decide

/-- Claim C21, amended.  When the run request fails with a negotiated power condition and the
negotiator returns, with whatever status, both arm loops go round again: the run request is
issued once more from the state the negotiator left, so with `PICO_OK` as the next answer the
loop ends armed after exactly the calls run, negotiate, run. -/
theorem arm_retries_after_every_negotiation (pre post timebase : Int) (unit : UNIT) (g : Globals)
    (blockEvents : List ArmEvent) (streamEvents : List StreamArmEvent) (status : PICO_STATUS)
    (blockRuns : List RunBlockAnswer) (streamRuns : List PICO_STATUS) (keys : List Int)
    (answers : List PICO_STATUS) (r : PowerResult)
    (hneg : changePowerSource status unit keys answers = .returned r) :
    ((status = PICO_POWER_SUPPLY_CONNECTED ∨ status = PICO_POWER_SUPPLY_NOT_CONNECTED ∨
          status = PICO_USB3_0_DEVICE_NON_USB3_0_PORT) →
        armBlock pre post timebase unit g blockEvents
            (⟨status, none⟩ :: ⟨PICO_OK, none⟩ :: blockRuns) keys answers =
          .returned
            { status := PICO_OK, unit := r.unit, g := g, keys := r.keys, answers := r.answers,
              events := blockEvents ++ [.ps5000aRunBlock pre post timebase] ++
                [.changePowerSource status] ++ [.ps5000aRunBlock pre post timebase] }) ∧
      (isPowerStatus status = true →
        armStreaming unit streamEvents (status :: PICO_OK :: streamRuns) keys answers =
          .returned
            { status := PICO_OK, unit := r.unit, keys := r.keys, answers := r.answers,
              events := streamEvents ++ [runStreamingRequest] ++ [.changePowerSource status] ++
                [runStreamingRequest] }) := by
  constructor
  · intro hs
    have hne : status ≠ PICO_OK := by
      rcases hs with h | h | h <;> simp [h]
    simp [armBlock, hne, hs, hneg]
  · intro hs
    have hne : status ≠ PICO_OK := by
      intro h
      rw [h] at hs
      revert hs
      decide
    simp [armStreaming, hne, hs, hneg]

/-- Witness for `arm_retries_after_every_negotiation`: the caller declines the change of power
source and the next run request is answered `PICO_OK`. -/
theorem arm_retries_after_every_negotiation_witness :
    armBlock 500 1500 8 quadUnit initialGlobals []
        (⟨PICO_POWER_SUPPLY_NOT_CONNECTED, none⟩ :: ⟨PICO_OK, none⟩ :: []) [110] [] =
      .returned
        { status := PICO_OK, unit := quadUnit, g := initialGlobals, keys := [], answers := [],
          events := [] ++ [.ps5000aRunBlock 500 1500 8] ++
            [.changePowerSource PICO_POWER_SUPPLY_NOT_CONNECTED] ++
            [.ps5000aRunBlock 500 1500 8] } :=
  (arm_retries_after_every_negotiation 500 1500 8 quadUnit initialGlobals [] []
    PICO_POWER_SUPPLY_NOT_CONNECTED [] [] [110] []
    { status := PICO_POWER_SUPPLY_NOT_CONNECTED, unit := quadUnit, keys := [], answers := [],
      requests := [] } (by decide)).1 (by decide)

/-! ### `collectRapidBlock`: after the arm loop -/

/-- With no notification in any iteration the wait loop leaves the globals as they were. -/
theorem waitLoop_idle (g : Globals) (n : Nat) : waitLoop g (List.replicate n none) = g := by
  induction n with
  | zero => rfl
  | succ k ih =>
    simp only [List.replicate, waitLoop]
    split_ifs
    · rfl
    · exact ih

/-- Claim C22, failing input.  The block-run request is answered with a status that is neither
`PICO_OK` nor a negotiated power condition.  The arm loop ends after that one request, and
`collectRapidBlock` goes on: it waits (here until a key is pressed), stops the device, asks for
the number of completed captures, binds buffers and retrieves and reports the two captures the
device says it has. -/
theorem arm_failure_falls_through (status : PICO_STATUS) (hok : status ≠ PICO_OK)
    (hpower : ¬ (status = PICO_POWER_SUPPLY_CONNECTED ∨ status = PICO_POWER_SUPPLY_NOT_CONNECTED ∨
      status = PICO_USB3_0_DEVICE_NON_USB3_0_PORT)) :
    armWaitRetrieve sampleUnit initialGlobals 2000 8 500 1500 8 2
        { runs := [⟨status, none⟩], powerKeys := [], powerAnswers := [], waits := [none, none],
          cancelKeys := [32, 32], nCompletedCaptures := 2, infoStatus := PICO_OK }
        sampleRecords =
      .returned
        { arm :=
            { status := status, unit := sampleUnit, g := initialGlobals, keys := [],
              answers := [], events := [.ps5000aRunBlock 500 1500 8] },
          g_ready := 0,
          ending :=
            .retrieved 2
              [ps5000aStop, ps5000aGetNoOfCaptures, allocOverflow 4, allocCaptureTable 0 2,
                allocBuffer 0 0 2000, allocBuffer 0 1 2000, ps5000aSetDataBuffer 0 0 2000,
                ps5000aSetDataBuffer 0 1 2000, allocTriggerInfo 2, ps5000aGetValuesBulk 0 1,
                ps5000aGetTriggerInfoBulk 0 1]
              [{ capture := 0, elapsed := none }, { capture := 1, elapsed := some 8000 }] } := by
  have hend : retrieveAndReport sampleUnit 2000 8 0 2 2 [32, 32] PICO_OK sampleRecords =
      .retrieved 2
        [ps5000aStop, ps5000aGetNoOfCaptures, allocOverflow 4, allocCaptureTable 0 2,
          allocBuffer 0 0 2000, allocBuffer 0 1 2000, ps5000aSetDataBuffer 0 0 2000,
          ps5000aSetDataBuffer 0 1 2000, allocTriggerInfo 2, ps5000aGetValuesBulk 0 1,
          ps5000aGetTriggerInfoBulk 0 1]
        [{ capture := 0, elapsed := none }, { capture := 1, elapsed := some 8000 }] := by
    decide
  have hwait : (waitLoop { initialGlobals with g_ready := 0 } [none, none]).g_ready = 0 := by
    decide
  simp only [armWaitRetrieve, armBlock, hok, hpower, ne_eq, not_false_eq_true, if_true, if_false,
    List.nil_append, hwait, hend]

/-- Witness for `arm_failure_falls_through`: the driver answers the run request with status
code 13. -/
theorem arm_failure_falls_through_witness :
    armWaitRetrieve sampleUnit initialGlobals 2000 8 500 1500 8 2
        { runs := [⟨.other 13, none⟩], powerKeys := [], powerAnswers := [],
          waits := [none, none], cancelKeys := [32, 32], nCompletedCaptures := 2,
          infoStatus := PICO_OK }
        sampleRecords =
      .returned
        { arm :=
            { status := .other 13, unit := sampleUnit, g := initialGlobals, keys := [],
              answers := [], events := [.ps5000aRunBlock 500 1500 8] },
          g_ready := 0,
          ending :=
            .retrieved 2
              [ps5000aStop, ps5000aGetNoOfCaptures, allocOverflow 4, allocCaptureTable 0 2,
                allocBuffer 0 0 2000, allocBuffer 0 1 2000, ps5000aSetDataBuffer 0 0 2000,
                ps5000aSetDataBuffer 0 1 2000, allocTriggerInfo 2, ps5000aGetValuesBulk 0 1,
                ps5000aGetTriggerInfoBulk 0 1]
              [{ capture := 0, elapsed := none }, { capture := 1, elapsed := some 8000 }] } :=
  arm_failure_falls_through (.other 13) (by decide) (by decide)

/-- Claim C27, failing input.  The driver delivers the completion notification inside the
block-run call, with a status other than `PICO_CANCELLED`: `callBackBlock` sets the ready flag,
line 1168 clears it, and with no further notification the wait loop, however long it runs, ends
only by the key press with the flag clear; the cancellation path follows (stop, number of
completed captures) and the capture is handled as an aborted one. -/
theorem completion_inside_run_is_lost (status : PICO_STATUS) (hc : status ≠ PICO_CANCELLED)
    (n : Nat) :
    armWaitRetrieve sampleUnit initialGlobals 2000 8 500 1500 8 2
        { runs := [⟨PICO_OK, some status⟩], powerKeys := [], powerAnswers := [],
          waits := List.replicate n none, cancelKeys := [32, 32], nCompletedCaptures := 2,
          infoStatus := PICO_OK }
        sampleRecords =
      .returned
        { arm :=
            { status := PICO_OK, unit := sampleUnit, g := { initialGlobals with g_ready := 1 },
              keys := [], answers := [], events := [.ps5000aRunBlock 500 1500 8] },
          g_ready := 0,
          ending :=
            .retrieved 2
              [ps5000aStop, ps5000aGetNoOfCaptures, allocOverflow 4, allocCaptureTable 0 2,
                allocBuffer 0 0 2000, allocBuffer 0 1 2000, ps5000aSetDataBuffer 0 0 2000,
                ps5000aSetDataBuffer 0 1 2000, allocTriggerInfo 2, ps5000aGetValuesBulk 0 1,
                ps5000aGetTriggerInfoBulk 0 1]
              [{ capture := 0, elapsed := none }, { capture := 1, elapsed := some 8000 }] } := by
  have hend : retrieveAndReport sampleUnit 2000 8 0 2 2 [32, 32] PICO_OK sampleRecords =
      .retrieved 2
        [ps5000aStop, ps5000aGetNoOfCaptures, allocOverflow 4, allocCaptureTable 0 2,
          allocBuffer 0 0 2000, allocBuffer 0 1 2000, ps5000aSetDataBuffer 0 0 2000,
          ps5000aSetDataBuffer 0 1 2000, allocTriggerInfo 2, ps5000aGetValuesBulk 0 1,
          ps5000aGetTriggerInfoBulk 0 1]
        [{ capture := 0, elapsed := none }, { capture := 1, elapsed := some 8000 }] := by
    decide
  simp only [armWaitRetrieve, armBlock, callBackBlock, hc, ne_eq, not_true_eq_false,
    not_false_eq_true, if_true, if_false, List.nil_append, waitLoop_idle, hend]

/-- Witness for `completion_inside_run_is_lost`: the notification carries `PICO_OK` and the wait
loop runs three times before the key press. -/
theorem completion_inside_run_is_lost_witness :
    armWaitRetrieve sampleUnit initialGlobals 2000 8 500 1500 8 2
        { runs := [⟨PICO_OK, some PICO_OK⟩], powerKeys := [], powerAnswers := [],
          waits := List.replicate 3 none, cancelKeys := [32, 32], nCompletedCaptures := 2,
          infoStatus := PICO_OK }
        sampleRecords =
      .returned
        { arm :=
            { status := PICO_OK, unit := sampleUnit, g := { initialGlobals with g_ready := 1 },
              keys := [], answers := [], events := [.ps5000aRunBlock 500 1500 8] },
          g_ready := 0,
          ending :=
            .retrieved 2
              [ps5000aStop, ps5000aGetNoOfCaptures, allocOverflow 4, allocCaptureTable 0 2,
                allocBuffer 0 0 2000, allocBuffer 0 1 2000, ps5000aSetDataBuffer 0 0 2000,
                ps5000aSetDataBuffer 0 1 2000, allocTriggerInfo 2, ps5000aGetValuesBulk 0 1,
                ps5000aGetTriggerInfoBulk 0 1]
              [{ capture := 0, elapsed := none }, { capture := 1, elapsed := some 8000 }] } :=
  completion_inside_run_is_lost PICO_OK (by decide) 3

/-! ### `streamDataHandler`: teardown order -/

/-- Claim C23, counterexample.  With channel A enabled the teardown frees the two driver buffers
of channel A (and the two application buffers) before `clearDataBuffers` clears the channel's
registration: the `free` calls are at positions 1-4, the clearing call at position 5. -/
theorem buffers_freed_before_cleared :
    streamTeardown sampleUnit (stoppedState sampleUnit) =
      some [.ps5000aStop, .freeDriverBuffer 0, .freeAppBuffer 0, .freeDriverBuffer 1,
        .freeAppBuffer 1, .clearRegistration 0] := by
  decide

/-- Claim C23, amended.  On every path through the teardown of `streamDataHandler` the stop
request is the first call, so it precedes every `free`, and every `free` call precedes every
call that clears a driver-side registration: the registrations are cleared after the buffers
have been released, with the device stopped. -/
theorem teardown_order (unit : UNIT) (s : StreamState) (steps : List TeardownStep)
    (h : streamTeardown unit s = some steps) :
    steps[0]? = some .ps5000aStop ∧
      (∀ (i : Nat) (a : TeardownStep), steps[i]? = some a → a.isFree = true → 0 < i) ∧
      (∀ (i j : Nat) (a b : TeardownStep), steps[i]? = some a → a.isFree = true →
        steps[j]? = some b →
        b.isClear = true → i < j) := by
  unfold streamTeardown clearDataBuffers at h
  cases hch : enabledChannels unit unit.channelCount.toNat with
  | none => simp [hch] at h
  | some channels =>
    simp only [hch, Option.map_some', Option.some_bind, Option.some.injEq] at h
    have hP : ∀ x ∈ ([TeardownStep.ps5000aStop] ++
        (if reportCollection s = .aborted then [TeardownStep.awaitKey] else [])) ++
        channels.flatMap freeChannel, x.isClear = false := by
      intro x hx
      simp only [List.mem_append, List.mem_singleton, List.mem_flatMap] at hx
      rcases hx with (hx | hx) | ⟨c, _, hx⟩
      · rw [hx]; rfl
      · split_ifs at hx
        · simp only [List.mem_singleton] at hx
          rw [hx]; rfl
        · simp at hx
      · simp only [freeChannel, List.mem_cons, List.mem_singleton, List.not_mem_nil,
          or_false] at hx
        rcases hx with hx | hx | hx | hx <;> rw [hx] <;> rfl
    have hC : ∀ x ∈ channels.map TeardownStep.clearRegistration, x.isFree = false := by
      intro x hx
      simp only [List.mem_map] at hx
      obtain ⟨c, _, hx⟩ := hx
      rw [← hx]; rfl
    set P := ([TeardownStep.ps5000aStop] ++
        (if reportCollection s = .aborted then [TeardownStep.awaitKey] else [])) ++
        channels.flatMap freeChannel with hPdef
    set C := channels.map TeardownStep.clearRegistration with hCdef
    have hfree : ∀ (i : Nat) (a : TeardownStep), steps[i]? = some a → a.isFree = true → i < P.length := by
      intro i a hi ha
      by_contra hlt
      rw [← h, List.getElem?_append_right (not_lt.mp hlt)] at hi
      have := hC a (List.getElem?_mem hi)
      rw [this] at ha
      exact Bool.false_ne_true ha
    have hclear : ∀ (j : Nat) (b : TeardownStep), steps[j]? = some b → b.isClear = true → P.length ≤ j := by
      intro j b hj hb
      by_contra hlt
      rw [← h, List.getElem?_append_left (not_le.mp hlt)] at hj
      have := hP b (List.getElem?_mem hj)
      rw [this] at hb
      exact Bool.false_ne_true hb
    refine ⟨?_, ?_, ?_⟩
    · rw [← h, hPdef]
      simp
    · intro i a hi ha
      rcases Nat.eq_zero_or_pos i with h0 | h0
      · exfalso
        rw [h0, ← h, hPdef] at hi
        simp at hi
        rw [← hi] at ha
        exact Bool.false_ne_true ha
      · exact h0
    · intro i j a b hi ha hj hb
      exact lt_of_lt_of_le (hfree i a hi ha) (hclear j b hj hb)

/-- Witness for `teardown_order` on a unit with channel A enabled. -/
theorem teardown_order_witness :
    streamTeardown sampleUnit (stoppedState sampleUnit) =
        some [.ps5000aStop, .freeDriverBuffer 0, .freeAppBuffer 0, .freeDriverBuffer 1,
          .freeAppBuffer 1, .clearRegistration 0] ∧
      ([.ps5000aStop, .freeDriverBuffer 0, .freeAppBuffer 0, .freeDriverBuffer 1,
          .freeAppBuffer 1, .clearRegistration 0] : List TeardownStep)[0]? =
        some .ps5000aStop :=
  ⟨by decide,
    (teardown_order sampleUnit (stoppedState sampleUnit)
      [.ps5000aStop, .freeDriverBuffer 0, .freeAppBuffer 0, .freeDriverBuffer 1,
        .freeAppBuffer 1, .clearRegistration 0] (by decide)).1⟩

/-! ### `collectRapidBlock`: the menu -/

/-- The loop of options P and F leaves consistent counts. -/
theorem readPreTrigger_counts : ∀ (inputs : List Int) (m m1 : MenuState) (rest : List Int),
    toInt32 m.num_of_points = m.num_of_points → readPreTrigger m inputs = some (m1, rest) →
      m1.countsConsistent ∧ toInt32 m1.num_of_points = m1.num_of_points := by
  intro inputs
  induction inputs with
  | nil => intro m m1 rest _ h; simp [readPreTrigger] at h
  | cons x xs ih =>
    intro m m1 rest hp h
    simp only [readPreTrigger] at h
    split_ifs at h with hc
    · refine ih _ m1 rest ?_ h
      exact hp
    · simp only [Option.some.injEq, Prod.mk.injEq] at h
      rw [← h.1]
      refine ⟨?_, hp⟩
      simp only [MenuState.countsConsistent]
      unfold toInt32 at *
      omega

/-- The loop of option L leaves consistent counts. -/
theorem readPostTrigger_counts : ∀ (inputs : List Int) (m m1 : MenuState) (rest : List Int),
    toInt32 m.num_of_points = m.num_of_points → readPostTrigger m inputs = some (m1, rest) →
      m1.countsConsistent ∧ toInt32 m1.num_of_points = m1.num_of_points := by
  intro inputs
  induction inputs with
  | nil => intro m m1 rest _ h; simp [readPostTrigger] at h
  | cons x xs ih =>
    intro m m1 rest hp h
    simp only [readPostTrigger] at h
    split_ifs at h with hc
    · refine ih _ m1 rest ?_ h
      exact hp
    · simp only [Option.some.injEq, Prod.mk.injEq] at h
      rw [← h.1]
      refine ⟨?_, hp⟩
      simp only [MenuState.countsConsistent]
      unfold toInt32 at *
      omega

/-- The loop of option C leaves the counts as they are. -/
theorem readTriggerChannel_counts : ∀ (inputs : List Int) (m m1 : MenuState) (rest : List Int),
    readTriggerChannel m inputs = some (m1, rest) →
      m1.num_of_points = m.num_of_points ∧
        m1.num_of_points_pre_trigger = m.num_of_points_pre_trigger ∧
        m1.num_of_points_post_trigger = m.num_of_points_post_trigger := by
  intro inputs
  induction inputs with
  | nil => intro m m1 rest h; simp [readTriggerChannel] at h
  | cons x xs ih =>
    intro m m1 rest h
    simp only [readTriggerChannel] at h
    split_ifs at h with hc
    · have h2 := ih _ m1 rest h
      exact h2
    · simp only [Option.some.injEq, Prod.mk.injEq] at h
      rw [← h.1]
      exact ⟨rfl, rfl, rfl⟩

/-- The loop of option V leaves the counts as they are. -/
theorem readTriggerVoltage_counts : ∀ (inputs : List Int) (m m1 : MenuState) (rest : List Int),
    readTriggerVoltage m inputs = some (m1, rest) →
      m1.num_of_points = m.num_of_points ∧
        m1.num_of_points_pre_trigger = m.num_of_points_pre_trigger ∧
        m1.num_of_points_post_trigger = m.num_of_points_post_trigger := by
  intro inputs
  induction inputs with
  | nil => intro m m1 rest h; simp [readTriggerVoltage] at h
  | cons x xs ih =>
    intro m m1 rest h
    simp only [readTriggerVoltage] at h
    split_ifs at h with hc
    · have h2 := ih _ m1 rest h
      exact h2
    · simp only [Option.some.injEq, Prod.mk.injEq] at h
      rw [← h.1]
      exact ⟨rfl, rfl, rfl⟩

/-- Every completed menu operation keeps the counts consistent. -/
theorem menuOperation_counts (m m1 : MenuState) (ch : Int) (inputs rest : List Int)
    (hc : m.countsConsistent) (hp : toInt32 m.num_of_points = m.num_of_points)
    (h : menuOperation m ch inputs = some (m1, rest)) :
    m1.countsConsistent ∧ toInt32 m1.num_of_points = m1.num_of_points := by
  have htt : ∀ x : Int, toInt32 (toInt32 x) = toInt32 x := by
    intro x; unfold toInt32; omega
  unfold menuOperation at h
  split_ifs at h
  · cases inputs with
    | nil => simp at h
    | cons x xs =>
      simp only [Option.some.injEq, Prod.mk.injEq] at h
      rw [← h.1]
      exact ⟨hc, hp⟩
  · cases inputs with
    | nil => simp at h
    | cons x xs => exact readPreTrigger_counts xs _ m1 rest (htt x) h
  · exact readPreTrigger_counts inputs m m1 rest hp h
  · exact readPostTrigger_counts inputs m m1 rest hp h
  · simp only [Option.some.injEq, Prod.mk.injEq] at h
    rw [← h.1]
    exact ⟨hc, hp⟩
  · obtain ⟨h1, h2, h3⟩ := readTriggerChannel_counts inputs m m1 rest h
    simp only [MenuState.countsConsistent, h1, h2, h3]
    exact ⟨hc, hp⟩
  · obtain ⟨h1, h2, h3⟩ := readTriggerVoltage_counts inputs m m1 rest h
    simp only [MenuState.countsConsistent, h1, h2, h3]
    exact ⟨hc, hp⟩
  · simp only [Option.some.injEq, Prod.mk.injEq] at h
    rw [← h.1]
    exact ⟨hc, hp⟩

/-- Every state of a run of the menu that starts from consistent counts has consistent counts,
and so has the state with which the loop is left. -/
theorem menuTrace_counts : ∀ (keys inputs : List Int) (m0 m : MenuState),
    m0.countsConsistent → toInt32 m0.num_of_points = m0.num_of_points →
      (m ∈ menuTrace m0 keys inputs ∨ menuLoop m0 keys inputs = some m) →
      m.countsConsistent ∧ toInt32 m.num_of_points = m.num_of_points := by
  intro keys
  induction keys with
  | nil =>
    intro inputs m0 m _ _ h
    simp [menuTrace, menuLoop] at h
  | cons key keys ih =>
    intro inputs m0 m hc hp h
    simp only [menuTrace, menuLoop] at h
    cases hop : menuOperation m0 (toInt8 (toupper key)) inputs with
    | none => simp [hop] at h
    | some r =>
      obtain ⟨m1, inputs1⟩ := r
      have h1 := menuOperation_counts m0 m1 _ inputs inputs1 hc hp hop
      simp only [hop] at h
      by_cases hs : toInt8 (toupper key) = 83
      · simp only [hs, if_true, List.mem_singleton, Option.some.injEq] at h
        rcases h with h | h
        · rw [h]; exact h1
        · rw [← h]; exact h1
      · simp only [hs, if_false, List.mem_cons] at h
        rcases h with (h | h) | h
        · rw [h]; exact h1
        · exact ih inputs1 m1 m h1.1 h1.2 (Or.inl h)
        · exact ih inputs1 m1 m h1.1 h1.2 (Or.inr h)

/-- Claim C24.  In every run of the menu of `collectRapidBlock` from the defaults, the state
after each completed menu operation, and the state with which the menu is left, satisfies
`num_of_points_pre_trigger + num_of_points_post_trigger = num_of_points` with both counts not
negative; the counts passed to the block run add up to `nSamples`, the number of points as
`uint32_t`. -/
theorem menu_counts_sum (keys inputs : List Int) (m : MenuState)
    (h : m ∈ menuTrace menuDefaults keys inputs ∨ menuLoop menuDefaults keys inputs = some m) :
    m.countsConsistent ∧
      m.num_of_points_pre_trigger + m.num_of_points_post_trigger =
        toUInt32 m.num_of_points := by
  have h1 := menuTrace_counts keys inputs menuDefaults m (by decide) (by decide) h
  refine ⟨h1.1, ?_⟩
  obtain ⟨⟨hsum, hpre, hpost⟩, hfit⟩ := h1
  rw [hsum]
  unfold toInt32 at hfit
  unfold toUInt32
  omega

/-- Witness for `menu_counts_sum`: the keys `p`, `l`, `c`, `v`, `w`, `x`, `s` with their
numbers; the menu is left with 3000 points, 2500 before and 500 after the trigger. -/
theorem menu_counts_sum_witness :
    menuLoop menuDefaults [112, 108, 99, 118, 119, 120, 115]
        [3000, 4000, -1, 1000, 5000, 500, 7, 2, 500, 5000, 10] =
      some
        { num_of_waveforms := 10, num_of_points := 3000, num_of_points_pre_trigger := 2500,
          num_of_points_post_trigger := 500, init_trigger_voltage := 5000,
          init_trigger_channel := 2 } ∧
      (2500 : Int) + 500 = toUInt32 3000 :=
  ⟨by decide,
    (menu_counts_sum [112, 108, 99, 118, 119, 120, 115]
      [3000, 4000, -1, 1000, 5000, 500, 7, 2, 500, 5000, 10]
      { num_of_waveforms := 10, num_of_points := 3000, num_of_points_pre_trigger := 2500,
        num_of_points_post_trigger := 500, init_trigger_voltage := 5000,
        init_trigger_channel := 2 } (Or.inr (by decide))).2⟩


/-- Claim C29, failing input.  Option V rejects every trigger voltage other than 5000 mV: the
entries 500, 0, -5000, 4999 and 5001 are each answered with the out-of-range message and a new
prompt, although four of them are within 5 V, and only the entry 5000 ends the loop; in general
the test of the loop lets a voltage through exactly when it equals 5000. -/
theorem trigger_voltage_only_5000 :
    readTriggerVoltage menuDefaults [500, 0, -5000, 4999, 5001, 5000, 7] =
        some ({ menuDefaults with init_trigger_voltage := 5000 }, [7]) ∧
      triggerVoltageRejected 500 = true ∧
      (∀ v : Int, triggerVoltageRejected v = false ↔ v = 5000) := by
  refine ⟨by decide, by decide, ?_⟩
  intro v
  simp only [triggerVoltageRejected, Bool.or_eq_false_iff, decide_eq_false_iff_not, not_lt]
  omega

/-! ### `setResolution` -/

/-- Claim C25, failing input.  With one channel enabled the entry 7, which is none of the five
resolution indices, is accepted at once and passed to `ps5000aSetDeviceResolution` (and stored
in the unit when the driver answers `PICO_OK`); so is -1.  In general the loop asks again
exactly for 16 bit with more than one channel and for 15 bit with more than two: its third
test, for an index out of bounds, never holds. -/
theorem resolution_out_of_bounds_accepted :
    setResolution sampleUnit PICO_OK PICO_OK 32767 [7] =
        some (.returned
          { unit := { sampleUnit with resolution := 7 }, refused := [], requested := some 7 }) ∧
      setResolution quadUnit PICO_OK (.other 13) 32767 [4, 3, -1] =
        some (.returned { unit := quadUnit, refused := [4, 3], requested := some (-1) }) ∧
      (∀ r n : Int, resolutionRetry r n = true ↔
        (r = PS5000A_DR_16BIT ∧ n > 1) ∨ (r = PS5000A_DR_15BIT ∧ n > 2)) := by
  refine ⟨by decide, by decide, ?_⟩
  intro r n
  unfold resolutionRetry PS5000A_DR_16BIT PS5000A_DR_15BIT PS5000A_DR_8BIT
  split_ifs with h1 h2 h3
  · simp [h1]
  · simp [h2]
  · omega
  · simp only [Bool.false_eq_true, false_iff]
    tauto

/-! ### Channel settings -/

/-- What an assignment to the settings of one channel changes. -/
theorem updateSettings_get (u u1 : UNIT) (ch : Nat) (f : CHANNEL_SETTINGS → CHANNEL_SETTINGS)
    (h : updateSettings u ch f = some u1) :
    sameModel u u1 ∧ ch < u.channelSettings.length ∧
      ∀ i : Nat, u1.channelSettings[i]? =
        if ch = i then (u.channelSettings[i]?).map f else u.channelSettings[i]? := by
  unfold updateSettings at h
  split_ifs at h with hlt
  simp only [Option.some.injEq] at h
  subst h
  refine ⟨⟨rfl, rfl, rfl⟩, hlt, ?_⟩
  intro i
  simp only [List.getElem?_modify]
  by_cases hi : ch = i
  · simp [hi]
  · cases hget : u.channelSettings[i]? <;> simp [hi]

/-- The relation "same model" is transitive. -/
theorem sameModel_trans {u u1 u2 : UNIT} (h1 : sameModel u u1) (h2 : sameModel u1 u2) :
    sameModel u u2 :=
  ⟨h2.1.trans h1.1, h2.2.1.trans h1.2.1, h2.2.2.trans h1.2.2⟩

/-- The loop that reads a range changes the settings of its channel only, and leaves there the
value 99 or a range of the model. -/
theorem readRange_get (ch : Nat) : ∀ (inputs : List Int) (u u1 : UNIT) (rest : List Int),
    readRange ch u inputs = some (u1, rest) →
      sameModel u u1 ∧ (∀ i : Nat, i ≠ ch → u1.channelSettings[i]? = u.channelSettings[i]?) ∧
        ∃ s, u1.channelSettings[ch]? = some s ∧ (s.range = 99 ∨ rangeValid u s) := by
  intro inputs
  induction inputs with
  | nil => intro u u1 rest h; simp [readRange] at h
  | cons x xs ih =>
    intro u u1 rest h
    simp only [readRange] at h
    cases hup : updateSettings u ch (fun s => { s with range := toInt16 x }) with
    | none => simp [hup] at h
    | some u2 =>
      obtain ⟨hm, hlt, hget⟩ := updateSettings_get u u2 ch _ hup
      simp only [hup] at h
      split_ifs at h with hc
      · obtain ⟨hm2, hframe, s, hs, hr⟩ := ih u2 u1 rest h
        refine ⟨sameModel_trans hm hm2, ?_, s, hs, ?_⟩
        · intro i hi
          rw [hframe i hi, hget i, if_neg (Ne.symm hi)]
        · rcases hr with hr | hr
          · exact Or.inl hr
          · right
            unfold rangeValid at *
            rw [← hm.1, ← hm.2.1]
            exact hr
      · simp only [Option.some.injEq, Prod.mk.injEq] at h
        obtain ⟨h1, _⟩ := h
        subst h1
        refine ⟨hm, ?_, ?_⟩
        · intro i hi
          rw [hget i, if_neg (Ne.symm hi)]
        · obtain ⟨s0, hs0⟩ : ∃ s0, u.channelSettings[ch]? = some s0 :=
            ⟨u.channelSettings[ch], List.getElem?_eq_getElem hlt⟩
          refine ⟨{ s0 with range := toInt16 x }, ?_, ?_⟩
          · rw [hget ch, if_pos rfl, hs0]
            rfl
          · simp only [rangeValid]
            rw [hm.1, hm.2.1] at hc
            by_cases h99 : toInt16 x = 99
            · exact Or.inl h99
            · right
              simp only [ne_eq, h99, not_false_eq_true, true_and, not_or, not_lt] at hc
              exact hc

/-- One iteration of the `for` loop of `setVoltages` changes the settings of its channel only
and leaves the channel settled. -/
theorem voltageChannel_get (u : UNIT) (count : Int) (inputs : List Int) (ch : Nat)
    (r : UNIT × Int × List Int) (h : voltageChannel u count inputs ch = some r) :
    sameModel u r.1 ∧ (∀ i : Nat, i ≠ ch → r.1.channelSettings[i]? = u.channelSettings[i]?) ∧
      ∃ s, r.1.channelSettings[ch]? = some s ∧ settled u s := by
  unfold voltageChannel at h
  cases hread : readRange ch u inputs with
  | none => simp [hread] at h
  | some p =>
    obtain ⟨u1, rest⟩ := p
    obtain ⟨hm1, hframe1, s1, hs1, hr1⟩ := readRange_get ch inputs u u1 rest hread
    simp only [hread, Option.some_bind, hs1] at h
    split_ifs at h with h99
    · cases hup : updateSettings u1 ch (fun s => { s with enabled := 1 }) with
      | none => simp [hup] at h
      | some u2 =>
        obtain ⟨hm2, _, hget⟩ := updateSettings_get u1 u2 ch _ hup
        simp only [hup, Option.map_some', Option.some.injEq] at h
        subst h
        refine ⟨sameModel_trans hm1 hm2, ?_, { s1 with enabled := 1 }, ?_, ?_⟩
        · intro i hi
          show u2.channelSettings[i]? = _
          rw [hget i, if_neg (Ne.symm hi), hframe1 i hi]
        · show u2.channelSettings[ch]? = _
          rw [hget ch, if_pos rfl, hs1]
          rfl
        · left
          rcases hr1 with hr1 | hr1
          · exact absurd hr1 h99
          · exact ⟨rfl, hr1⟩
    · cases hup : updateSettings u1 ch
          (fun s => { s with enabled := 0, range := PS5000A_MAX_RANGES - 1 }) with
      | none => simp [hup] at h
      | some u2 =>
        obtain ⟨hm2, _, hget⟩ := updateSettings_get u1 u2 ch _ hup
        simp only [hup, Option.map_some', Option.some.injEq] at h
        subst h
        refine ⟨sameModel_trans hm1 hm2, ?_,
          { s1 with enabled := 0, range := PS5000A_MAX_RANGES - 1 }, ?_, ?_⟩
        · intro i hi
          show u2.channelSettings[i]? = _
          rw [hget i, if_neg (Ne.symm hi), hframe1 i hi]
        · show u2.channelSettings[ch]? = _
          rw [hget ch, if_pos rfl, hs1]
          rfl
        · right
          exact ⟨rfl, rfl⟩

/-- A pass of the `for` loop of `setVoltages` over the first `n` channels leaves each of them
settled and the others as they were. -/
theorem voltageChannels_get (u : UNIT) (count : Int) (inputs : List Int) :
    ∀ (n : Nat) (r : UNIT × Int × List Int), voltageChannels u count inputs n = some r →
      sameModel u r.1 ∧
        (∀ i : Nat, n ≤ i → r.1.channelSettings[i]? = u.channelSettings[i]?) ∧
        ∀ i : Nat, i < n → ∃ s, r.1.channelSettings[i]? = some s ∧ settled u s := by
  intro n
  induction n with
  | zero =>
    intro r h
    simp only [voltageChannels, Option.some.injEq] at h
    subst h
    exact ⟨⟨rfl, rfl, rfl⟩, fun _ _ => rfl, fun i hi => absurd hi (Nat.not_lt_zero i)⟩
  | succ k ih =>
    intro r h
    simp only [voltageChannels] at h
    cases hprev : voltageChannels u count inputs k with
    | none => simp [hprev] at h
    | some p =>
      obtain ⟨hm1, hframe1, hdone1⟩ := ih p hprev
      simp only [hprev, Option.some_bind] at h
      obtain ⟨hm2, hframe2, s, hs, hset⟩ := voltageChannel_get p.1 p.2.1 p.2.2 k r h
      have hsettled : ∀ s : CHANNEL_SETTINGS, settled p.1 s → settled u s := by
        intro s hs
        unfold settled rangeValid at *
        rw [← hm1.1, ← hm1.2.1]
        exact hs
      refine ⟨sameModel_trans hm1 hm2, ?_, ?_⟩
      · intro i hi
        rw [hframe2 i (by omega), hframe1 i (by omega)]
      · intro i hi
        by_cases hik : i = k
        · subst hik
          exact ⟨s, hs, hsettled s hset⟩
        · obtain ⟨s1, hs1, hset1⟩ := hdone1 i (by omega)
          exact ⟨s1, by rw [hframe2 i hik, hs1], hset1⟩

/-- A transitive relation that holds between the unit before and after every pass holds between
the unit before and after the nested loops. -/
theorem settingsLoop_post (pass : UNIT → List Int → Option (UNIT × Int × List Int))
    (R : UNIT → UNIT → Prop) (htrans : ∀ a b c : UNIT, R a b → R b c → R a c)
    (hpass : ∀ (u : UNIT) (inputs : List Int) (r : UNIT × Int × List Int),
      pass u inputs = some r → R u r.1) :
    ∀ (fuel : Nat) (u : UNIT) (inputs resolutions : List Int) (u1 : UNIT),
      settingsLoop pass fuel u inputs resolutions = some u1 → R u u1 := by
  intro fuel
  induction fuel with
  | zero => intro u inputs resolutions u1 h; simp [settingsLoop] at h
  | succ k ih =>
    intro u inputs resolutions u1 h
    simp only [settingsLoop] at h
    cases hp : pass u inputs with
    | none => simp [hp] at h
    | some r =>
      obtain ⟨u2, count, rest⟩ := r
      have hR := hpass u inputs (u2, count, rest) hp
      simp only [hp] at h
      split_ifs at h with hc
      · exact htrans _ _ _ hR (ih u2 rest resolutions u1 h)
      · cases resolutions with
        | nil => simp at h
        | cons resolution more =>
          simp only at h
          split_ifs at h with hretry
          · exact htrans _ _ _ hR (ih u2 rest more u1 h)
          · simp only [Option.some.injEq] at h
            rw [← h]
            exact hR

/-- When `setVoltages` completes, the unit is of the same model, every channel it asked about is
settled and the settings of the other channels are as they were. -/
theorem setVoltages_get (u u1 : UNIT) (powerStatus : PICO_STATUS) (inputs resolutions : List Int)
    (h : setVoltages u powerStatus inputs resolutions = some u1) :
    sameModel u u1 ∧
      (∀ i : Nat, (numValidChannels u powerStatus).toNat ≤ i →
        u1.channelSettings[i]? = u.channelSettings[i]?) ∧
      ∀ i : Nat, i < (numValidChannels u powerStatus).toNat →
        ∃ s, u1.channelSettings[i]? = some s ∧ settled u s := by
  unfold setVoltages at h
  refine settingsLoop_post _
    (fun a b => sameModel a b ∧
      (∀ i : Nat, (numValidChannels u powerStatus).toNat ≤ i →
        b.channelSettings[i]? = a.channelSettings[i]?) ∧
      ∀ i : Nat, i < (numValidChannels u powerStatus).toNat →
        ∃ s, b.channelSettings[i]? = some s ∧ settled a s)
    ?_ ?_ _ u inputs resolutions u1 h
  · rintro a b c ⟨hm1, hf1, _⟩ ⟨hm2, hf2, hd2⟩
    refine ⟨sameModel_trans hm1 hm2, fun i hi => by rw [hf2 i hi, hf1 i hi], ?_⟩
    intro i hi
    obtain ⟨s, hs, hset⟩ := hd2 i hi
    refine ⟨s, hs, ?_⟩
    unfold settled rangeValid at *
    rw [← hm1.1, ← hm1.2.1]
    exact hset
  · intro a inputs1 r hr
    exact voltageChannels_get a 0 inputs1 _ r hr

/-- The relation "same ranges" is transitive. -/
theorem sameRanges_trans (a b c : UNIT) (h1 : sameRanges a b) (h2 : sameRanges b c) :
    sameRanges a c :=
  ⟨sameModel_trans h1.1 h2.1, fun i => by rw [h2.2 i, h1.2 i]⟩

/-- An assignment that leaves the field `range` alone leaves every range as it was. -/
theorem updateSettings_sameRanges (u u1 : UNIT) (ch : Nat)
    (f : CHANNEL_SETTINGS → CHANNEL_SETTINGS) (h : updateSettings u ch f = some u1)
    (hf : ∀ s, (f s).range = s.range) : sameRanges u u1 := by
  obtain ⟨hm, _, hget⟩ := updateSettings_get u u1 ch f h
  refine ⟨hm, ?_⟩
  intro i
  rw [hget i]
  split_ifs
  · cases u.channelSettings[i]? with
    | none => rfl
    | some s => simp [hf s]
  · rfl

/-- The loop that reads a coupling leaves every range as it was. -/
theorem readCoupling_sameRanges (ch : Nat) :
    ∀ (inputs : List Int) (u u1 : UNIT) (rest : List Int),
      readCoupling ch u inputs = some (u1, rest) → sameRanges u u1 := by
  intro inputs
  induction inputs with
  | nil => intro u u1 rest h; simp [readCoupling] at h
  | cons x xs ih =>
    intro u u1 rest h
    simp only [readCoupling] at h
    cases hup : updateSettings u ch (fun s => { s with DCcoupled := toInt16 x }) with
    | none => simp [hup] at h
    | some u2 =>
      have h2 := updateSettings_sameRanges u u2 ch _ hup (fun _ => rfl)
      simp only [hup] at h
      split_ifs at h with hc
      · exact sameRanges_trans _ _ _ h2 (ih u2 u1 rest h)
      · simp only [Option.some.injEq, Prod.mk.injEq] at h
        rw [← h.1]
        exact h2

/-- One iteration of the `for` loop of `setCoupling` leaves every range as it was. -/
theorem couplingChannel_sameRanges (u : UNIT) (count : Int) (inputs : List Int) (ch : Nat)
    (r : UNIT × Int × List Int) (h : couplingChannel u count inputs ch = some r) :
    sameRanges u r.1 := by
  unfold couplingChannel at h
  cases hread : readCoupling ch u inputs with
  | none => simp [hread] at h
  | some p =>
    obtain ⟨u1, rest⟩ := p
    have h1 := readCoupling_sameRanges ch inputs u u1 rest hread
    simp only [hread, Option.some_bind] at h
    cases hs : u1.channelSettings[ch]? with
    | none => simp [hs] at h
    | some s =>
      simp only [hs, Option.some_bind] at h
      split_ifs at h with h99
      · cases hup : updateSettings u1 ch (fun s => { s with enabled := 1 }) with
        | none => simp [hup] at h
        | some u2 =>
          simp only [hup, Option.map_some', Option.some.injEq] at h
          rw [← h]
          exact sameRanges_trans _ _ _ h1
            (updateSettings_sameRanges u1 u2 ch _ hup (fun _ => rfl))
      · cases hup : updateSettings u1 ch (fun s => { s with enabled := 0, DCcoupled := 0 }) with
        | none => simp [hup] at h
        | some u2 =>
          simp only [hup, Option.map_some', Option.some.injEq] at h
          rw [← h]
          exact sameRanges_trans _ _ _ h1
            (updateSettings_sameRanges u1 u2 ch _ hup (fun _ => rfl))

/-- A pass of the `for` loop of `setCoupling` leaves every range as it was. -/
theorem couplingChannels_sameRanges (u : UNIT) (count : Int) (inputs : List Int) :
    ∀ (n : Nat) (r : UNIT × Int × List Int), couplingChannels u count inputs n = some r →
      sameRanges u r.1 := by
  intro n
  induction n with
  | zero =>
    intro r h
    simp only [couplingChannels, Option.some.injEq] at h
    rw [← h]
    exact ⟨⟨rfl, rfl, rfl⟩, fun _ => rfl⟩
  | succ k ih =>
    intro r h
    simp only [couplingChannels] at h
    cases hprev : couplingChannels u count inputs k with
    | none => simp [hprev] at h
    | some p =>
      simp only [hprev, Option.some_bind] at h
      exact sameRanges_trans _ _ _ (ih p hprev)
        (couplingChannel_sameRanges p.1 p.2.1 p.2.2 k r h)

/-- When `setCoupling` completes, every channel has the range it had. -/
theorem setCoupling_sameRanges (u u1 : UNIT) (powerStatus : PICO_STATUS)
    (inputs resolutions : List Int)
    (h : setCoupling u powerStatus inputs resolutions = some u1) : sameRanges u u1 := by
  unfold setCoupling at h
  exact settingsLoop_post _ sameRanges sameRanges_trans
    (fun a inputs1 r hr => couplingChannels_sameRanges a 0 inputs1 _ r hr) _ u inputs
    resolutions u1 h

/-- One iteration of the loop of `handleDevice` gives its channel the range `PS5000A_5V` and
leaves the ranges of the other channels as they were. -/
theorem handleDeviceChannel_get (status : PICO_STATUS) (u u1 : UNIT) (i : Nat)
    (h : handleDeviceChannel status u i = some u1) :
    sameModel u u1 ∧
      (∀ j : Nat, j ≠ i → (u1.channelSettings[j]?).map (fun s => s.range) =
        (u.channelSettings[j]?).map (fun s => s.range)) ∧
      ∃ s, u1.channelSettings[i]? = some s ∧ s.range = PS5000A_5V := by
  unfold handleDeviceChannel at h
  simp only at h
  cases ha : updateSettings u i (fun s => { s with enabled :=
      if u.channelCount = QUAD_SCOPE ∧ status = PICO_POWER_SUPPLY_NOT_CONNECTED ∧
        (i : Int) ≥ DUAL_SCOPE then 0 else 1 }) with
  | none => simp [ha] at h
  | some ua =>
    have hra := updateSettings_sameRanges u ua i _ ha (fun _ => rfl)
    simp only [ha, Option.some_bind] at h
    cases hb : updateSettings ua 4 (fun s => { s with enabled := 1 }) with
    | none => simp [hb] at h
    | some ub =>
      have hrb := updateSettings_sameRanges ua ub 4 _ hb (fun _ => rfl)
      simp only [hb, Option.some_bind] at h
      obtain ⟨hm, hlt, hget⟩ := updateSettings_get ub u1 i _ h
      have hab := sameRanges_trans _ _ _ hra hrb
      refine ⟨sameModel_trans hab.1 hm, ?_, ?_⟩
      · intro j hj
        rw [hget j, if_neg (Ne.symm hj), hab.2 j]
      · obtain ⟨s0, hs0⟩ : ∃ s0, ub.channelSettings[i]? = some s0 :=
          ⟨ub.channelSettings[i], List.getElem?_eq_getElem hlt⟩
        refine ⟨{ s0 with DCcoupled := 0, range := PS5000A_5V, analogueOffset := 0 }, ?_, rfl⟩
        rw [hget i, if_pos rfl, hs0]
        rfl

/-- The first `count` iterations of the loop of `handleDevice` give the first `count` channels
the range `PS5000A_5V`. -/
theorem handleDeviceChannels_get (status : PICO_STATUS) (u : UNIT) :
    ∀ (count : Nat) (u1 : UNIT), handleDeviceChannels status u count = some u1 →
      sameModel u u1 ∧
        ∀ i : Nat, i < count → ∃ s, u1.channelSettings[i]? = some s ∧ s.range = PS5000A_5V := by
  intro count
  induction count with
  | zero =>
    intro u1 h
    simp only [handleDeviceChannels, Option.some.injEq] at h
    rw [← h]
    exact ⟨⟨rfl, rfl, rfl⟩, fun i hi => absurd hi (Nat.not_lt_zero i)⟩
  | succ k ih =>
    intro u1 h
    simp only [handleDeviceChannels] at h
    cases hprev : handleDeviceChannels status u k with
    | none => simp [hprev] at h
    | some p =>
      obtain ⟨hm1, hdone⟩ := ih p hprev
      simp only [hprev, Option.some_bind] at h
      obtain ⟨hm2, hframe, s, hs, hr⟩ := handleDeviceChannel_get status p u1 k h
      refine ⟨sameModel_trans hm1 hm2, ?_⟩
      intro i hi
      by_cases hik : i = k
      · subst hik
        exact ⟨s, hs, hr⟩
      · obtain ⟨s1, hs1, hr1⟩ := hdone i (by omega)
        have hmap := hframe i hik
        rw [hs1] at hmap
        cases hu1 : u1.channelSettings[i]? with
        | none => simp [hu1] at hmap
        | some s2 =>
          simp only [hu1, Option.map_some', Option.some.injEq] at hmap
          exact ⟨s2, rfl, hmap.trans hr1⟩

/-- The invariant is kept by every sequence of `setVoltages` and `setCoupling` operations. -/
theorem applyOperations_ranges : ∀ (operations : List SettingsOperation) (u u1 : UNIT),
    rangesValidOrParked u → applyOperations u operations = some u1 →
      rangesValidOrParked u1 := by
  intro operations
  induction operations with
  | nil =>
    intro u u1 hinv h
    simp only [applyOperations, Option.some.injEq] at h
    rw [← h]
    exact hinv
  | cons op more ih =>
    intro u u1 hinv h
    cases op with
    | setVoltages powerStatus inputs resolutions =>
      simp only [applyOperations] at h
      cases hv : setVoltages u powerStatus inputs resolutions with
      | none => simp [hv] at h
      | some u2 =>
        simp only [hv, Option.some_bind] at h
        refine ih u2 u1 ?_ h
        obtain ⟨hm, hframe, hdone⟩ := setVoltages_get u u2 powerStatus inputs resolutions hv
        intro i s hi hs
        unfold rangeValid
        rw [hm.1, hm.2.1]
        by_cases hlt : i < (numValidChannels u powerStatus).toNat
        · obtain ⟨s1, hs1, hset⟩ := hdone i hlt
          rw [hs1] at hs
          simp only [Option.some.injEq] at hs
          subst hs
          rcases hset with ⟨_, hr⟩ | ⟨_, hr⟩
          · exact Or.inl hr
          · exact Or.inr hr
        · rw [hframe i (not_lt.mp hlt)] at hs
          rw [hm.2.2] at hi
          exact hinv i s hi hs
    | setCoupling powerStatus inputs resolutions =>
      simp only [applyOperations] at h
      cases hv : setCoupling u powerStatus inputs resolutions with
      | none => simp [hv] at h
      | some u2 =>
        simp only [hv, Option.some_bind] at h
        refine ih u2 u1 ?_ h
        obtain ⟨hm, hsame⟩ := setCoupling_sameRanges u u2 powerStatus inputs resolutions hv
        intro i s hi hs
        have hmap := hsame i
        rw [hs] at hmap
        cases hu : u.channelSettings[i]? with
        | none => simp [hu] at hmap
        | some s0 =>
          simp only [hu, Option.map_some', Option.some.injEq] at hmap
          rw [hm.2.2] at hi
          have h0 := hinv i s0 hi hu
          unfold rangeValid at *
          rw [hm.1, hm.2.1, hmap]
          exact h0

/-- Claim C26, counterexample.  From the defaults of a two-channel device, `setVoltages` with
the entries 8 and 99 switches channel B off and gives it the range index 11, above the unit's
`lastRange` of 10; and after `setVoltages` with the entries 99 and 7 has switched channel A off,
`setCoupling` with the entries 5 (asked again), 1 and 1 enables channel A with that range index
11 still in place. -/
theorem range_parked_above_lastRange :
    handleDeviceDefaults (set_info blankUnit 2) 32767 PICO_OK = some defaultDualUnit ∧
      (applyOperations defaultDualUnit [.setVoltages PICO_OK [8, 99] [0]]).map
          (fun u => (u.lastRange, u.channelSettings[1]?)) =
        some (10, some { DCcoupled := 0, range := 11, enabled := 0, analogueOffset := 0 }) ∧
      applyOperations defaultDualUnit
          [.setVoltages PICO_OK [99, 7] [0], .setCoupling PICO_OK [5, 1, 1] [0]] =
        some parkedRangeUnit := by
  decide

/-- Claim C26, amended.  In every state reached from the defaults of `handleDevice` by a
sequence of `setVoltages` and `setCoupling` operations, every channel has a range index within
`[firstRange, lastRange]` or equal to `PS5000A_MAX_RANGES - 1`, the index `setVoltages` gives a
channel it switches off; and whenever `setVoltages` completes in such a state, every channel it
asked about is either enabled with a range index within `[firstRange, lastRange]` or switched
off with the index `PS5000A_MAX_RANGES - 1`. -/
theorem ranges_valid_or_parked (unit u0 u1 : UNIT) (channelCount value : Int)
    (status : PICO_STATUS) (operations : List SettingsOperation)
    (h0 : handleDeviceDefaults (set_info unit channelCount) value status = some u0)
    (h1 : applyOperations u0 operations = some u1) :
    rangesValidOrParked u1 ∧
      ∀ (powerStatus : PICO_STATUS) (inputs resolutions : List Int) (u2 : UNIT),
        setVoltages u1 powerStatus inputs resolutions = some u2 →
          ∀ i : Nat, i < (numValidChannels u1 powerStatus).toNat →
            ∃ s, u2.channelSettings[i]? = some s ∧ settled u2 s := by
  constructor
  · refine applyOperations_ranges operations u0 u1 ?_ h1
    unfold handleDeviceDefaults at h0
    obtain ⟨hm, hdone⟩ := handleDeviceChannels_get status _ _ u0 h0
    intro i s hi hs
    rw [hm.2.2] at hi
    obtain ⟨s1, hs1, hr⟩ := hdone i hi
    rw [hs1] at hs
    simp only [Option.some.injEq] at hs
    subst hs
    left
    unfold rangeValid
    rw [hm.1, hm.2.1, hr]
    show PS5000A_10MV ≤ PS5000A_5V ∧ PS5000A_5V ≤ PS5000A_20V
    decide
  · intro powerStatus inputs resolutions u2 hv i hi
    obtain ⟨hm, _, hdone⟩ := setVoltages_get u1 u2 powerStatus inputs resolutions hv
    obtain ⟨s, hs, hset⟩ := hdone i hi
    refine ⟨s, hs, ?_⟩
    unfold settled rangeValid at *
    rw [hm.1, hm.2.1]
    exact hset

/-- Witness for `ranges_valid_or_parked`: a two-channel device, `setVoltages` with the entries
99 and 7, then `setCoupling` with the entries 5, 1 and 1. -/
theorem ranges_valid_or_parked_witness :
    handleDeviceDefaults (set_info blankUnit 2) 32767 PICO_OK = some defaultDualUnit ∧
      applyOperations defaultDualUnit
          [.setVoltages PICO_OK [99, 7] [0], .setCoupling PICO_OK [5, 1, 1] [0]] =
        some parkedRangeUnit ∧
      rangesValidOrParked parkedRangeUnit :=
  ⟨by decide, by decide,
    (ranges_valid_or_parked blankUnit defaultDualUnit parkedRangeUnit 2 32767 PICO_OK
      [.setVoltages PICO_OK [99, 7] [0], .setCoupling PICO_OK [5, 1, 1] [0]] (by decide)
      (by decide)).1⟩

/-! ### The trigger level -/

/-- For the range indices 0 to 10 the trigger voltage is 500 mV when the range is at least
500 mV and half the range otherwise, and the threshold lies between 0 and `maxADCValue`. -/
theorem triggerLevel_up_to_20V (unit : UNIT) (triggerChannel : Nat) (s : CHANNEL_SETTINGS)
    (hs : unit.channelSettings[triggerChannel]? = some s) (hr1 : 0 ≤ s.range)
    (hr2 : s.range ≤ 10) (hM1 : 1 ≤ unit.maxADCValue) (hM2 : unit.maxADCValue ≤ 32767) :
    ∃ range v t, inputRanges[s.range.toNat]? = some range ∧
      triggerLevel unit triggerChannel = some (v, t) ∧
      v = (if range ≥ 500 then 500 else range / 2) ∧ 0 ≤ v ∧ v ≤ range ∧
      0 ≤ t ∧ t ≤ unit.maxADCValue := by
  obtain ⟨k, hk⟩ : ∃ k : Nat, s.range = (k : Int) := ⟨s.range.toNat, by omega⟩
  have hk10 : k ≤ 10 := by omega
  have hlevel : ∀ (range v : Int), inputRanges[k]? = some range → 10 ≤ range →
      range ≤ 32767 → v = (if 500 > range then Int.tdiv range 2 else 500) →
      0 ≤ v → v ≤ range → v ≤ 500 →
      ∃ t, triggerLevel unit triggerChannel = some (v, t) ∧ 0 ≤ t ∧ t ≤ unit.maxADCValue := by
    intro range v hrange h10 h32 hv hv0 hvr hv500
    have hmv := @mv_to_adc_eq v s.range range unit (by omega) (by omega) hr1 (by omega)
      (by rw [hk]; exact hrange) (by omega) hM2
    have hprod : 0 ≤ v * unit.maxADCValue := mul_nonneg hv0 (by omega)
    have hdiv : Int.tdiv (v * unit.maxADCValue) range = v * unit.maxADCValue / range :=
      Int.tdiv_eq_ediv hprod (by omega)
    have hq0 : 0 ≤ v * unit.maxADCValue / range := Int.ediv_nonneg hprod (by omega)
    have hqM : v * unit.maxADCValue / range ≤ unit.maxADCValue :=
      scaled_le_range v unit.maxADCValue range hvr (by omega) (by omega)
    refine ⟨v * unit.maxADCValue / range, ?_, hq0, hqM⟩
    have hneg : ¬ s.range < 0 := by omega
    have h16 : toInt16 range = range := toInt16_of_fits (by omega) h32
    have hv16 : toInt16 (Int.tdiv range 2) = Int.tdiv range 2 := by
      have e : Int.tdiv range 2 = range / 2 := Int.tdiv_eq_ediv (by omega) (by omega)
      rw [e]
      exact toInt16_of_fits (by omega) (by omega)
    have hktoNat : s.range.toNat = k := by omega
    simp only [triggerLevel, hs, Option.some_bind, hneg, if_false, hktoNat, hrange, h16, hv16,
      ← hv, hmv, Option.map_some', hdiv]
    rw [toInt16_of_fits (by omega) (by omega)]
  interval_cases k
  all_goals first
    | (obtain ⟨t, ht, h0, hM⟩ := hlevel 10 5 (by decide) (by decide) (by decide) (by decide)
        (by decide) (by decide) (by decide)
       exact ⟨10, 5, t, by rw [hk]; decide, ht, by decide, by decide, by decide, h0, hM⟩)
    | (obtain ⟨t, ht, h0, hM⟩ := hlevel 20 10 (by decide) (by decide) (by decide) (by decide)
        (by decide) (by decide) (by decide)
       exact ⟨20, 10, t, by rw [hk]; decide, ht, by decide, by decide, by decide, h0, hM⟩)
    | (obtain ⟨t, ht, h0, hM⟩ := hlevel 50 25 (by decide) (by decide) (by decide) (by decide)
        (by decide) (by decide) (by decide)
       exact ⟨50, 25, t, by rw [hk]; decide, ht, by decide, by decide, by decide, h0, hM⟩)
    | (obtain ⟨t, ht, h0, hM⟩ := hlevel 100 50 (by decide) (by decide) (by decide) (by decide)
        (by decide) (by decide) (by decide)
       exact ⟨100, 50, t, by rw [hk]; decide, ht, by decide, by decide, by decide, h0, hM⟩)
    | (obtain ⟨t, ht, h0, hM⟩ := hlevel 200 100 (by decide) (by decide) (by decide) (by decide)
        (by decide) (by decide) (by decide)
       exact ⟨200, 100, t, by rw [hk]; decide, ht, by decide, by decide, by decide, h0, hM⟩)
    | (obtain ⟨t, ht, h0, hM⟩ := hlevel 500 500 (by decide) (by decide) (by decide) (by decide)
        (by decide) (by decide) (by decide)
       exact ⟨500, 500, t, by rw [hk]; decide, ht, by decide, by decide, by decide, h0, hM⟩)
    | (obtain ⟨t, ht, h0, hM⟩ := hlevel 1000 500 (by decide) (by decide) (by decide) (by decide)
        (by decide) (by decide) (by decide)
       exact ⟨1000, 500, t, by rw [hk]; decide, ht, by decide, by decide, by decide, h0, hM⟩)
    | (obtain ⟨t, ht, h0, hM⟩ := hlevel 2000 500 (by decide) (by decide) (by decide) (by decide)
        (by decide) (by decide) (by decide)
       exact ⟨2000, 500, t, by rw [hk]; decide, ht, by decide, by decide, by decide, h0, hM⟩)
    | (obtain ⟨t, ht, h0, hM⟩ := hlevel 5000 500 (by decide) (by decide) (by decide) (by decide)
        (by decide) (by decide) (by decide)
       exact ⟨5000, 500, t, by rw [hk]; decide, ht, by decide, by decide, by decide, h0, hM⟩)
    | (obtain ⟨t, ht, h0, hM⟩ := hlevel 10000 500 (by decide) (by decide) (by decide) (by decide)
        (by decide) (by decide) (by decide)
       exact ⟨10000, 500, t, by rw [hk]; decide, ht, by decide, by decide, by decide, h0, hM⟩)
    | (obtain ⟨t, ht, h0, hM⟩ := hlevel 20000 500 (by decide) (by decide) (by decide) (by decide)
        (by decide) (by decide) (by decide)
       exact ⟨20000, 500, t, by rw [hk]; decide, ht, by decide, by decide, by decide, h0, hM⟩)

/-- Claim C28, failing input.  With the range index 11 (50 V) on the trigger channel the table
entry 50000 does not fit `int16_t voltageRange` and becomes -15536, so 500 counts as greater
than the range: the trigger voltage is replaced by -7768 mV, which is neither 500 mV nor
between 0 and the range, and with `maxADCValue` 32767 the threshold is -5090, below 0.  This
happens in `collectStreamingTriggered` on an enabled channel A that `setVoltages` and
`setCoupling` left at index 11, and in `collectRapidBlock` when the external input has that
index. -/
theorem trigger_level_wraps_at_50V :
    inputRanges[11]? = some 50000 ∧
      triggerLevel (unitWithRange 11 32767) PS5000A_CHANNEL_A = some (-7768, -5090) ∧
      triggerLevel (unitWithRange 11 32767) PS5000A_EXTERNAL = some (-7768, -5090) ∧
      collectStreamingTriggered parkedRangeUnit =
        some (some (triggerFor PS5000A_CHANNEL_A (-5090))) ∧
      (rapidBlockPlan menuDefaults (unitWithRange 11 32767)).map (fun plan => plan.trigger) =
        some (triggerFor PS5000A_EXTERNAL (-5090)) := by
  decide

/-- Claim C30.  The plan of `collectRapidBlock` is the same whatever trigger channel and trigger
voltage the menu holds: the trigger passed to `setTrigger` is built for the external channel
from the level computed for the nominal 500 mV, and two runs of the menu that differ only in
the use of options C and V lead to the same trigger. -/
theorem trigger_ignores_menu_selection (m : MenuState) (unit : UNIT) (channel voltage : Int) :
    rapidBlockPlan { m with init_trigger_channel := channel, init_trigger_voltage := voltage }
        unit = rapidBlockPlan m unit ∧
      (rapidBlockPlan m unit).map (fun plan => plan.trigger) =
        (triggerLevel unit PS5000A_EXTERNAL).map
          (fun level => triggerFor PS5000A_EXTERNAL level.2) ∧
      (menuLoop menuDefaults [99, 118, 115] [2, 5000]).bind
          (fun m1 => rapidBlockPlan m1 (unitWithRange 8 32767)) =
        (menuLoop menuDefaults [115] []).bind
          (fun m1 => rapidBlockPlan m1 (unitWithRange 8 32767)) ∧
      ((menuLoop menuDefaults [99, 118, 115] [2, 5000]).bind
          (fun m1 => rapidBlockPlan m1 (unitWithRange 8 32767))).map
          (fun plan => plan.trigger) =
        some (triggerFor PS5000A_EXTERNAL 3276) := by
  refine ⟨rfl, ?_, by decide, by decide⟩
  unfold rapidBlockPlan
  cases triggerLevel unit PS5000A_EXTERNAL <;> rfl

end Picoscope
